import Mathlib

/-!
# food-eats: order dispatch and tracking

A shallow embedding of the dispatch core of the repository
(`cmd/web/handlers/orders.go`, `cmd/web/handlers/web_socket.go`,
`cmd/web/handlers/location.go`, `cmd/web/handlers/ratings.go`,
`cmd/web/model/orders.go`, `cmd/web/model/rider_web_socket.go`,
`cmd/web/model/location.go`, `cmd/web/model/rating.go`, the rating
updates of `users.go`, `riders.go`, `restaurant.go`, the rider route of
`cmd/web/routes/ws_routes.go`, `cmd/web/custom-errors/customErrors.go` and the
in-memory repository of `cmd/web/model/users_test.go`) together with theorems
about it.

Conventions of the embedding

* Stateful Go code is a function on a `World` (the Mongo collections, the
  Redis keys, the connection registry and a chronological log of the calls
  made to them).  Everything a call can observe from outside the program
  (the clock, driver failures, the answer of the geo search, the reading of
  a decimal string, the trigonometry of `math`) is a field of `Env`.
* `primitive.ObjectID` is the 96-bit number it encodes; the zero id is `0`.
* `time.Time` is an integer count of nanoseconds since the zero time
  (January 1 of the year 1), which is `0`;
  `Time.Sub` saturates at the bounds of `time.Duration` as in Go.
* `float64` values are idealised as rationals: sums, products and quotients
  are exact.  The live coordinates of an order, which come from
  `strconv.ParseFloat` and enter no arithmetic, also range over the
  infinities and NaN.
* A set key of the store with an expiry is absent from the moment the expiry
  ends; the store reads the clock of the program.
* A goroutine started with `go` is run to completion at the point where it
  is started.
* `slog` output is not part of the state.
-/

namespace FoodEats

/-! ## Primitive types -/

/-- The driver type `primitive.ObjectID` (12 bytes), as the number it encodes. -/
abbrev ObjectID := Nat

/-- The Go type `time.Time`, in nanoseconds. -/
abbrev Time := Int

/-- The Go type `time.Duration`, in nanoseconds. -/
abbrev Duration := Int

/-- The Go type `float64`, idealised. -/
abbrev Float64 := ℚ

/-- A `float64` with its infinities and NaN: the values `strconv.ParseFloat`
can return. The program keeps such a value as the live coordinates of an order
and does no arithmetic on it. -/
inductive ExtFloat64 where
  /-- A finite value. -/
  | finite (v : Float64)
  /-- The value `+Inf`. -/
  | posInf
  /-- The value `-Inf`. -/
  | negInf
  /-- The value `NaN`. -/
  | nan
  deriving DecidableEq, Repr

/-- What `strconv.ParseFloat(s, 64)` makes of a string. -/
inductive FloatReading where
  /-- The string is well formed: the float64 nearest to the number it writes,
  or an infinity or NaN when it spells one ("Inf", "NaN"). -/
  | value (v : ExtFloat64)
  /-- The string is not well formed (`ErrSyntax`). -/
  | syntaxError
  /-- The string writes a number beyond the largest float64 (`ErrRange`);
  `negative` tells its sign. -/
  | rangeError (negative : Bool)
  deriving DecidableEq, Repr

/-- Handle of a websocket connection (`*WebSocketClient`). -/
abbrev Conn := Nat

/-- The Go constant `time.Minute`. -/
def Minute : Duration := 60 * 1000000000

/-- The largest `time.Duration`, `1<<63 - 1` nanoseconds. -/
def maxDuration : Duration := 2 ^ 63 - 1

/-- The smallest `time.Duration`, `-1 << 63` nanoseconds. -/
def minDuration : Duration := -(2 ^ 63)

/-- The method `Time.Sub`: the difference `t - u`, or the largest (smallest)
duration when the difference does not fit an `int64`. -/
def Time.Sub (t u : Time) : Duration :=
  if t - u > maxDuration then maxDuration
  else if t - u < minDuration then minDuration
  else t - u

/-- The method `Duration.Seconds`: whole seconds plus the remaining
nanoseconds over `1e9`, which is the duration over `1e9`. -/
def Duration.Seconds (d : Duration) : Float64 := (d : Float64) / 1000000000

/-- The method `ObjectID.IsZero`. -/
def ObjectID.IsZero (id : ObjectID) : Bool := id == 0

/-- One lowercase hexadecimal digit. -/
def hexDigit (n : Nat) : Char :=
  if n < 10 then Char.ofNat (48 + n) else Char.ofNat (87 + n)

/-- The `len` low hexadecimal digits of `n`, most significant first. -/
def hexDigits : Nat → Nat → List Char
  | 0, _ => []
  | len + 1, n => hexDigits len (n / 16) ++ [hexDigit (n % 16)]

/-- The method `ObjectID.Hex`: 24 lowercase hexadecimal digits. -/
def ObjectID.Hex (id : ObjectID) : String := String.mk (hexDigits 24 (id % 2 ^ 96))

/-- Value of a hexadecimal digit, either case, as `encoding/hex` reads it. -/
def hexVal (c : Char) : Option Nat :=
  if 48 ≤ c.toNat ∧ c.toNat ≤ 57 then some (c.toNat - 48)
  else if 97 ≤ c.toNat ∧ c.toNat ≤ 102 then some (c.toNat - 87)
  else if 65 ≤ c.toNat ∧ c.toNat ≤ 70 then some (c.toNat - 55)
  else none

/-- Reads a big-endian hexadecimal numeral, starting from the accumulator. -/
def hexValue : Nat → List Char → Option Nat
  | acc, [] => some acc
  | acc, c :: cs =>
    match hexVal c with
    | none => none
    | some d => hexValue (16 * acc + d) cs

/-- The driver function `primitive.ObjectIDFromHex`: exactly 24 hexadecimal
digits, `none` standing for `ErrInvalidHex`. -/
def ObjectIDFromHex (s : String) : Option ObjectID :=
  if s.data.length ≠ 24 then none else hexValue 0 s.data

/-- Go `error` values, as far as the program builds and inspects them. -/
inductive Error where
  /-- A plain error: `errors.New msg`, or an error of a driver. -/
  | new (msg : String)
  /-- The joined error `errors.Join(custom_errors.ClientError, e)`. -/
  | joinClient (e : Error)
  /-- The joined error `errors.Join(custom_errors.ServerError, e)`. -/
  | joinServer (e : Error)
  deriving DecidableEq, Repr

/-- The result of `errors.Is(err, custom_errors.ClientError)`: the sentinel is
looked for in every error a join holds. -/
def Error.IsClientError : Error → Bool
  | .new _ => false
  | .joinClient _ => true
  | .joinServer e => e.IsClientError

set_option linter.dupNamespace false in
/-- The method `Error`: the text of the error; a join gives the texts of its
errors, one per line. -/
def Error.Error : Error → String
  | .new msg => msg
  | .joinClient e => "client error\n" ++ e.Error
  | .joinServer e => "server error\n" ++ e.Error

/-! ## Data model (`cmd/web/model`) -/

/-- Struct `model.Item` (`Price` is a `float32`, idealised like `float64`). -/
structure Item where
  Name : String
  Description : String
  Price : Float64
  ItemType : String
  deriving DecidableEq, Repr

/-- Struct `model.Location` (`Type_` is the Go field `Type`). -/
structure Location where
  Type_ : String
  Coordinates : List Float64
  deriving DecidableEq, Repr

/-- Method `Location.GetLatitude`. -/
def Location.GetLatitude (l : Location) : Float64 :=
  if l.Coordinates.length = 2 then l.Coordinates.getD 1 0 else 0

/-- Method `Location.GetLongitude`. -/
def Location.GetLongitude (l : Location) : Float64 :=
  if l.Coordinates.length = 2 then l.Coordinates.getD 0 0 else 0

/-- Struct `model.Order` (`FinalPrice` is a `float32`). -/
structure Order where
  Id : ObjectID
  UserId : ObjectID
  RiderId : ObjectID
  RestaurantId : ObjectID
  DeliveryPhoneNumber : String
  DeliveryLatitude : Float64
  DeliveryLongitude : Float64
  DeliveryAddress : String
  PickupPhoneNumber : String
  PickupLatitude : Float64
  PickupLongitude : Float64
  PickupAddress : String
  Items : List Item
  FinalPrice : Float64
  Latitude : ExtFloat64
  Longitude : ExtFloat64
  DeliveryTime : Float64
  CreatedAt : Time
  AcceptedAt : Time
  UpdatedAt : Time
  DeliveryStarted : Time
  DeliveredAt : Time
  Status : String
  deriving DecidableEq, Repr

/-- Struct `model.Restaurant` (the menu and the contact fields, which no
embedded operation reads, are left out). -/
structure Restaurant where
  Id : ObjectID
  Name : String
  Address : String
  Location : Location
  AverageRating : Float64
  AverageTime : Float64
  Status : String
  deriving DecidableEq, Repr

/-- Struct `model.User`. -/
structure User where
  Id : ObjectID
  Name : String
  EmailId : String
  PhoneNumber : String
  CreatedAt : Time
  UpdatedAt : Time
  Address : String
  Location : Location
  AverageRating : Float64
  Status : String
  deriving DecidableEq, Repr

/-- Struct `model.Rider`. -/
structure Rider where
  Id : ObjectID
  Name : String
  EmailId : String
  PhoneNumber : String
  CreatedAt : Time
  UpdatedAt : Time
  Address : String
  Location : Location
  AverageRating : Float64
  Status : String
  deriving DecidableEq, Repr

set_option linter.dupNamespace false in
/-- Struct `model.Rating`. The ratings stored come from requests validated to
`0 ≤ rating ≤ 5`, so the Go `int` is taken as an unbounded integer. -/
structure Rating where
  Id : ObjectID
  RatingGiver : ObjectID
  RatingReceiver : ObjectID
  OrderID : ObjectID
  RatingGiverType : String
  RatingReceiverType : String
  Rating : Int
  CreatedAt : Time
  UpdatedAt : Time
  Comment : String
  deriving DecidableEq, Repr

/-- Struct `model.SearchRatingBuilder`. -/
structure SearchRatingBuilder where
  RatingGiver : ObjectID
  RatingReceiver : ObjectID
  deriving DecidableEq, Repr

/-- Struct `handlers.RatingRequest`. -/
structure RatingRequest where
  RatingGiver : ObjectID
  RatingReceiver : ObjectID
  OrderId : ObjectID
  RatingGiverType : String
  RatingReceiverType : String
  Rating : Int
  Comment : String
  deriving DecidableEq, Repr

/-- Struct `model.SearchRiderQuery`. -/
structure SearchRiderQuery where
  Latitude : Float64
  Longitude : Float64
  Limit : Int
  deriving DecidableEq, Repr

/-- Struct `model.RiderSearchResponse`. -/
structure RiderSearchResponse where
  Id : ObjectID
  Name : String
  Distance : Float64
  deriving DecidableEq, Repr

/-! ## Messages (`cmd/web/handlers`) -/

/-- Struct `handlers.AcceptOrderId`, the body of `accept_order` and `delivered`. -/
structure AcceptOrderId where
  OrderId : ObjectID
  Latitude : String
  Longitude : String
  deriving DecidableEq, Repr

/-- Struct `handlers.LocationSyncReq`. -/
structure LocationSyncReq where
  Latitude : String
  Longitude : String
  deriving DecidableEq, Repr

/-- Struct `handlers.AcceptPendingRestaurantOrder`. -/
structure AcceptPendingRestaurantOrder where
  Id : ObjectID
  RestaurantId : ObjectID
  deriving DecidableEq, Repr

/-- What is written to a websocket: a literal text, or the JSON encoding
(`json.Marshal`) of one of the two payload structs. -/
inductive Message where
  /-- A literal string such as "Order accepted". -/
  | text (s : String)
  /-- The encoding of `NewOrderBroadCast` with its `message` and `order_id`. -/
  | newOrderBroadCast (message : String) (orderId : ObjectID)
  /-- The encoding of `NewLocationInfo` with `msg`, `latitude`, `longitude`. -/
  | newLocationInfo (msg : String) (latitude : String) (longitude : String)
  deriving DecidableEq, Repr

/-! ## The environment and the state -/

/-- Everything the program observes from outside itself during one call. -/
structure Env where
  /-- The value `time.Now()` returns. -/
  now : Time
  /-- The reading `strconv.ParseFloat` makes of a string. -/
  parseFloat : String → FloatReading
  /-- Driver failure of `FindOne` on the collection "Order", if any. -/
  findOrderErr : Option Error
  /-- Driver failure of `FindOne` on the collection "Restaurant", if any. -/
  findRestaurantErr : Option Error
  /-- Driver failure of `UpdateByID` on the collection "Order", if any. -/
  updateOrderErr : Option Error
  /-- Whether `UpdateByID` hands back a nil result without an error. -/
  updateResultNil : Bool
  /-- Answer of `RiderRepo.SearchRider` to a query. -/
  searchRider : SearchRiderQuery → List RiderSearchResponse × Option Error
  /-- Whether `redisClient.Conn()` is nil. -/
  redisConnNil : Bool
  /-- Failure of the Redis command `INCR`, if any. -/
  incrErr : Option Error
  /-- Failure of the Redis command `SMEMBERS`, if any. -/
  sMembersErr : Option Error
  /-- Failure of the Redis command `SADD` for a key and a member, if any. -/
  sAddErr : String → String → Option Error
  /-- Whether `WriteMessage` fails on a connection. -/
  writeErr : Conn → Bool
  /-- Failure of `CountDocuments` or `Find` on the collection "Order", if any. -/
  searchOrderErr : Option Error
  /-- Driver failure of `UpdateByID` on the collection "Restaurant", if any. -/
  updateRestaurantErr : Option Error
  /-- The library function `math.Sin`. -/
  sin : Float64 → Float64
  /-- The library function `math.Cos`. -/
  cos : Float64 → Float64
  /-- The library function `math.Acos`. -/
  acos : Float64 → Float64
  /-- The library constant `math.Pi`. -/
  pi : Float64
  /-- Driver failure of `FindOne` on the collection "User", if any. -/
  findUserErr : Option Error
  /-- Failure of `Find` on the collection "Rating", if any. -/
  searchRatingErr : Option Error
  /-- Failure of `cur.All` when the ratings found are decoded, if any. -/
  decodeRatingsErr : Option Error
  /-- Driver failure of `UpdateByID` with `$set` of "averageRating" on the
  named collection, if any. -/
  updateRatingErr : String → Option Error
  /-- Failure of the Redis command `EXPIRE`, if any. -/
  expireErr : Option Error
  /-- Driver failure of `InsertOne` on the collection "Order", if any. -/
  insertOrderErr : Option Error
  /-- Whether `InsertOne` hands back a nil result without an error. -/
  insertResultNil : Bool
  /-- The id the driver generates for a document inserted without one. -/
  newObjectID : ObjectID
  /-- Decoding of the first frame of a rider connection into
  `RiderWebSocketReq`: its field `rider_id`; `none` when `json.Unmarshal` errs. -/
  decodeRiderWebSocketReq : String → Option String
  /-- Decoding of an inbound frame into `RiderWebsocketMessage`: the type and
  the re-encoded body; `none` when `json.Unmarshal` or `json.Marshal` errs. -/
  decodeEnvelope : String → Option (String × String)
  /-- Decoding of a body into `AcceptOrderId`. -/
  decodeAcceptOrderId : String → Option AcceptOrderId
  /-- Decoding of a body into `LocationSyncReq`. -/
  decodeLocationSyncReq : String → Option LocationSyncReq

/-- Struct `model.SearchOrderQuery`. -/
structure SearchOrderQuery where
  OrderId : ObjectID
  RestaurantId : ObjectID
  DriverId : ObjectID
  UserId : ObjectID
  Status : String
  Limit : Int
  Skip : Int
  deriving DecidableEq, Repr

/-- A call that leaves the program, in the order the calls are made. -/
inductive Event where
  | getOrder (id : ObjectID)
  | getRestaurant (id : ObjectID)
  | updateOrder (order : Order)
  | searchRider (query : SearchRiderQuery)
  | incr (key : String)
  | sMembers (key : String)
  | sAdd (key : String) (member : String)
  | expire (key : String) (ttl : Duration)
  | broadcastToRiders (message : Message) (riderIDs : List ObjectID)
  | broadcastToUsers (message : Message) (userIDs : List ObjectID)
  | writeMessage (conn : Conn) (message : Message)
  | searchOrder (query : SearchOrderQuery)
  | updateAverageDeliveryTime (id : ObjectID) (deliveryTime : Float64)
  | getUser (id : ObjectID)
  | searchRating (query : SearchRatingBuilder)
  | updateAverageRating (collection : String) (id : ObjectID) (rating : Float64)
  | createOrder (order : Order)
  | close (conn : Conn)
  deriving DecidableEq, Repr

/-- The state the program works on: the Mongo collections "Order",
"Restaurant", "User", "Rider" and "Rating", the Redis keys (integer keys,
set keys, expiries), the two maps of `SocketManager`, and the log of calls. -/
structure World where
  orders : List Order
  restaurants : List Restaurant
  users : List User
  riders : List Rider
  ratings : List Rating
  counters : List (String × Int)
  sets : List (String × List String)
  /-- The time at which the expiry of a set key ends, for the keys that have one. -/
  expiry : List (String × Time)
  riderClients : List (String × Conn)
  userClients : List (String × Conn)
  /-- The field "averageDeliveryTime" of the documents of the collection
  "Restaurant", which `model.Restaurant` does not decode. -/
  averageDeliveryTime : List (ObjectID × Float64)
  log : List Event

/-- Appends a call to the log. -/
def World.emit (w : World) (e : Event) : World := { w with log := w.log ++ [e] }

/-- Whether the expiry of the set `key` has ended at the time `now`. The store
and the program read one clock. -/
def World.expired (w : World) (now : Time) (key : String) : Bool :=
  match w.expiry.lookup key with
  | some deadline => decide (deadline ≤ now)
  | none => false

/-- The members the store holds under `key` at the time `now`: none for an
absent key and none for a key whose expiry has ended, which the store treats
as absent. -/
def World.members (w : World) (now : Time) (key : String) : List String :=
  if w.expired now key then [] else (w.sets.lookup key).getD []

/-- Binds a key in a string-keyed map, dropping an older binding. -/
def kvSet {α : Type} (m : List (String × α)) (k : String) (v : α) : List (String × α) :=
  (k, v) :: m.filter (fun p => p.1 != k)

/-- The sentinel error `strconv.ErrSyntax`. -/
def ErrSyntax : Error := .new "invalid syntax"

/-- The sentinel error `strconv.ErrRange`. -/
def ErrRange : Error := .new "value out of range"

/-- The Go function `strconv.ParseFloat` with bit size 64: the value and the
error. On a syntax error the value is 0; on a range error it is the infinity
of the sign of the number. -/
def ParseFloat (env : Env) (s : String) : ExtFloat64 × Option Error :=
  match env.parseFloat s with
  | .value v => (v, none)
  | .syntaxError => (.finite 0, some ErrSyntax)
  | .rangeError negative => (if negative then .negInf else .posInf, some ErrRange)

/-! ## Connection registry (`cmd/web/model/rider_web_socket.go`) -/

/-- Method `SocketManager.RegisterRider`. -/
def SocketManager.RegisterRider (w : World) (riderID : ObjectID) (conn : Conn) : World :=
  { w with riderClients := kvSet w.riderClients riderID.Hex conn }

/-- Method `SocketManager.RegisterUser`. -/
def SocketManager.RegisterUser (w : World) (userID : ObjectID) (conn : Conn) : World :=
  { w with userClients := kvSet w.userClients userID.Hex conn }

/-- Method `SocketManager.UnregisterRider`. -/
def SocketManager.UnregisterRider (w : World) (riderID : ObjectID) : World :=
  { w with riderClients := w.riderClients.filter (fun p => p.1 != riderID.Hex) }

/-- Method `SocketManager.UnregisterUser`. -/
def SocketManager.UnregisterUser (w : World) (userID : ObjectID) : World :=
  { w with userClients := w.userClients.filter (fun p => p.1 != userID.Hex) }

/-- One turn of the loop of `BroadcastToRiders` and `BroadcastToUsers`: a
missing connection is skipped, a failed write is only logged. -/
def broadcastOne (clients : List (String × Conn)) (message : Message) (w : World)
    (id : ObjectID) : World :=
  match clients.lookup id.Hex with
  | none => w
  | some conn => w.emit (.writeMessage conn message)

/-- Method `SocketManager.BroadcastToRiders`. -/
def SocketManager.BroadcastToRiders (w : World) (message : Message)
    (riderIDs : List ObjectID) : World :=
  riderIDs.foldl (broadcastOne w.riderClients message)
    (w.emit (.broadcastToRiders message riderIDs))

/-- Method `SocketManager.BroadcastToUsers`. -/
def SocketManager.BroadcastToUsers (w : World) (message : Message)
    (userIDs : List ObjectID) : World :=
  userIDs.foldl (broadcastOne w.userClients message)
    (w.emit (.broadcastToUsers message userIDs))

/-! ## Order repository (`cmd/web/model/orders.go`) -/

/-- The document of the collection "Order" with the given `_id`. -/
def findOrder (orders : List Order) (id : ObjectID) : Option Order :=
  orders.find? (fun o => o.Id == id)

/-- Method `OrderMongo.GetOrder`. -/
def OrderMongo.GetOrder (env : Env) (w : World) (id : ObjectID) : World × Except Error Order :=
  let w := w.emit (.getOrder id)
  match env.findOrderErr with
  | some e => (w, .error (.joinServer e))
  | none =>
    match findOrder w.orders id with
    | none => (w, .error (.joinClient (.new "no such entry")))
    | some order => (w, .ok order)

/-- The counts `MatchedCount` and `ModifiedCount` of `UpdateByID` with
`$set` of the whole order. -/
def updateCounts (orders : List Order) (order : Order) : Nat × Nat :=
  match findOrder orders order.Id with
  | none => (0, 0)
  | some old => (1, if old = order then 0 else 1)

/-- Method `OrderMongo.UpdateOrder`: `UpdateByID` with `$set` of the whole order
replaces the document with the `_id` of the order; the three checks of the
result follow. (Fields tagged `omitempty` keep their stored value when the
struct holds the zero value; every order written here was fetched by the same
call, so for the runs considered the stored document is the struct.) -/
def OrderMongo.UpdateOrder (env : Env) (w : World) (order : Order) : World × Option Error :=
  let w := w.emit (.updateOrder order)
  match env.updateOrderErr with
  | some e => (w, some e)
  | none =>
    let counts := updateCounts w.orders order
    let w := { w with orders := w.orders.map (fun o => if o.Id == order.Id then order else o) }
    if env.updateResultNil then (w, some (.joinServer (.new "no update result")))
    else if counts.1 ≠ 1 then (w, some (.joinClient (.new "no matching document")))
    else if counts.2 ≠ 1 then (w, some (.joinServer (.new "update failed")))
    else (w, none)

/-- Method `OrderMongo.CreateOrder`: `InsertOne` stores the order under its id,
or under a generated id when it has none (`_id` is tagged `omitempty`), and
refuses an id that is already stored. -/
def OrderMongo.CreateOrder (env : Env) (w : World) (order : Order) :
    World × Except Error Order :=
  let w := w.emit (.createOrder order)
  match env.insertOrderErr with
  | some e => (w, .error e)
  | none =>
    let id := if order.Id.IsZero then env.newObjectID else order.Id
    if (findOrder w.orders id).isSome then (w, .error (.new "duplicate key error"))
    else
      let w := { w with orders := w.orders ++ [{ order with Id := id }] }
      if env.insertResultNil then (w, .error (.joinServer (.new "empty inserted id")))
      else (w, .ok { order with Id := id })

/-- Method `RestaurantMongo.GetRestaurant`. -/
def RestaurantMongo.GetRestaurant (env : Env) (w : World) (id : ObjectID) :
    World × Except Error Restaurant :=
  let w := w.emit (.getRestaurant id)
  match env.findRestaurantErr with
  | some e => (w, .error (.joinServer e))
  | none =>
    match w.restaurants.find? (fun r => r.Id == id) with
    | none => (w, .error (.joinClient (.new "no such entry")))
    | some restaurant => (w, .ok restaurant)

/-- Method `RiderRepository.SearchRider`, answered by the environment. -/
def SearchRider (env : Env) (w : World) (query : SearchRiderQuery) :
    World × List RiderSearchResponse × Option Error :=
  (w.emit (.searchRider query), env.searchRider query)

/-! ## Coordination store (Redis commands used by the handlers) -/

/-- Redis `INCR`: the new value of the counter, an absent key counting as 0. -/
def Redis.Incr (env : Env) (w : World) (key : String) : World × Except Error Int :=
  let w := w.emit (.incr key)
  match env.incrErr with
  | some e => (w, .error e)
  | none =>
    let v := (w.counters.lookup key).getD 0 + 1
    ({ w with counters := kvSet w.counters key v }, .ok v)

/-- Redis `SMEMBERS`: the members of a set, none for an absent key and none
for a key whose expiry has ended. -/
def Redis.SMembers (env : Env) (w : World) (key : String) : World × Except Error (List String) :=
  let w := w.emit (.sMembers key)
  match env.sMembersErr with
  | some e => (w, .error e)
  | none => (w, .ok (w.members env.now key))

/-- Redis `SADD` of one member. A key whose expiry has ended is absent: the
set starts anew, without an expiry. -/
def Redis.SAdd (env : Env) (w : World) (key member : String) : World × Option Error :=
  let w := w.emit (.sAdd key member)
  match env.sAddErr key member with
  | some e => (w, some e)
  | none =>
    let old := w.members env.now key
    ({ w with
        sets := kvSet w.sets key (if member ∈ old then old else old ++ [member])
        expiry :=
          if w.expired env.now key then w.expiry.filter (fun p => p.1 != key) else w.expiry },
      none)

/-- Redis `EXPIRE`: the expiry of the key ends `ttl` from now. It has no effect
on an absent key (which a key whose expiry has ended is), and none when the
command fails. The program sets an expiry on set keys only, so only the sets
are looked up. -/
def Redis.Expire (env : Env) (w : World) (key : String) (ttl : Duration) :
    World × Option Error :=
  let w := w.emit (.expire key ttl)
  match env.expireErr with
  | some e => (w, some e)
  | none =>
    if w.expired env.now key then (w, none)
    else
      match w.sets.lookup key with
      | none => (w, none)
      | some _ => ({ w with expiry := kvSet w.expiry key (env.now + ttl) }, none)

/-- Method `OrderMongo.SearchOrder`; the collection has no field "driverId",
so a non-zero `DriverId` matches nothing. A limit of 0 is no limit. -/
def OrderMongo.SearchOrder (env : Env) (w : World) (query : SearchOrderQuery) :
    World × Except Error (List Order × Int) :=
  let w := w.emit (.searchOrder query)
  match env.searchOrderErr with
  | some e => (w, .error e)
  | none =>
    let found := w.orders.filter (fun o =>
      (query.OrderId.IsZero || o.Id == query.OrderId) &&
      (query.RestaurantId.IsZero || o.RestaurantId == query.RestaurantId) &&
      query.DriverId.IsZero &&
      (query.UserId.IsZero || o.UserId == query.UserId) &&
      (query.Status == "" || o.Status == query.Status))
    let page := found.drop query.Skip.toNat
    (w, .ok (if query.Limit = 0 then page else page.take query.Limit.natAbs, found.length))

/-- Method `RestaurantMongo.UpdateAverageDeliveryTime`. -/
def RestaurantMongo.UpdateAverageDeliveryTime (env : Env) (w : World) (id : ObjectID)
    (deliveryTime : Float64) : World × Option Error :=
  let w := w.emit (.updateAverageDeliveryTime id deliveryTime)
  match env.updateRestaurantErr with
  | some e => (w, some e)
  | none =>
    if env.updateResultNil then (w, some (.joinServer (.new "no update result")))
    else if (w.restaurants.find? (fun r => r.Id == id)).isNone then
      (w, some (.joinClient (.new "no matching document")))
    else if w.averageDeliveryTime.lookup id = some deliveryTime then
      (w, some (.joinServer (.new "update failed")))
    else
      ({ w with averageDeliveryTime :=
          (id, deliveryTime) :: w.averageDeliveryTime.filter (fun p => p.1 != id) }, none)

/-! ## Delivery-time recomputation (`cmd/web/handlers/location.go`) -/

/-- Function `distanceBetweenPoints`, over the trigonometry of the environment. -/
def distanceBetweenPoints (env : Env) (lat1 lng1 lat2 lng2 : Float64) : Float64 :=
  let radlat1 := env.pi * lat1 / 180
  let radlat2 := env.pi * lat2 / 180
  let theta := lng1 - lng2
  let radtheta := env.pi * theta / 180
  let dist := env.sin radlat1 * env.sin radlat2
    + env.cos radlat1 * env.cos radlat2 * env.cos radtheta
  let dist := if dist > 1 then 1 else dist
  let dist := env.acos dist
  let dist := dist * 180 / env.pi
  let dist := dist * 60 * (11515 / 10000)
  let dist := dist * (1609344 / 1000000)
  dist

/-- One turn of the loop of `updateDeliveryTime` over the orders found; the
state is `(totalDistance, totalTime)`. -/
def addDelivery (env : Env) (lat long : Float64) (acc : Float64 × Float64)
    (searchOrder : Order) : Float64 × Float64 :=
  (acc.1 + distanceBetweenPoints env lat long searchOrder.PickupLatitude
      searchOrder.PickupLongitude,
    acc.2 + searchOrder.DeliveryTime)

/-- Function `updateDeliveryTime`. -/
def updateDeliveryTime (env : Env) (w : World) (order : Order) : World × Option Error :=
  let query : SearchOrderQuery :=
    { OrderId := order.Id, Status := "DELIVERED", RestaurantId := order.RestaurantId,
      DriverId := 0, UserId := 0, Limit := 0, Skip := 0 }
  match OrderMongo.SearchOrder env w query with
  | (w, .error e) => (w, some e)
  | (w, .ok (searchOrders, _)) =>
    let lat := order.PickupLatitude
    let long := order.PickupLongitude
    let totals := searchOrders.foldl (addDelivery env lat long) (0, 0)
    let totalDistance := totals.1
    let totalTime := totals.2
    let averageTime := totalDistance / (totalTime + 1)
    RestaurantMongo.UpdateAverageDeliveryTime env w order.RestaurantId averageTime

/-! ## Ratings (`cmd/web/model/rating.go`, `users.go`, `riders.go`,
`restaurant.go`, `cmd/web/handlers/ratings.go`) -/

/-- The sentinel error `mongo.ErrNoDocuments`. -/
def ErrNoDocuments : Error := .new "mongo: no documents in result"

/-- Method `UserMongoDb.GetUser`. -/
def UserMongoDb.GetUser (env : Env) (w : World) (id : ObjectID) : World × Except Error User :=
  let w := w.emit (.getUser id)
  match env.findUserErr with
  | some e => (w, .error (.joinServer e))
  | none =>
    match w.users.find? (fun u => u.Id == id) with
    | none => (w, .error (.joinClient (.new "no such entry")))
    | some user => (w, .ok user)

/-- Method `RatingMongoDb.SearchRating`: a zero id puts no condition on its
field. -/
def RatingMongoDb.SearchRating (env : Env) (w : World) (query : SearchRatingBuilder) :
    World × Except Error (List Rating) :=
  let w := w.emit (.searchRating query)
  match env.searchRatingErr with
  | some e =>
    if e = ErrNoDocuments then (w, .error (.joinClient (.new "no such entry")))
    else (w, .error (.joinServer e))
  | none =>
    match env.decodeRatingsErr with
    | some e => (w, .error e)
    | none =>
      (w, .ok (w.ratings.filter (fun r =>
        (query.RatingGiver.IsZero || r.RatingGiver == query.RatingGiver) &&
        (query.RatingReceiver.IsZero || r.RatingReceiver == query.RatingReceiver))))

/-- Method `UserMongoDb.UpdateAverageRating`; the collection it updates by id
is the one the source names, "Rider". -/
def UserMongoDb.UpdateAverageRating (env : Env) (w : World) (id : ObjectID)
    (rating : Float64) : World × Option Error :=
  let w := w.emit (.updateAverageRating "Rider" id rating)
  match env.updateRatingErr "Rider" with
  | some e => (w, some e)
  | none =>
    if env.updateResultNil then (w, some (.joinServer (.new "no update result")))
    else
      match w.riders.find? (fun r => r.Id == id) with
      | none => (w, some (.joinClient (.new "no matching document")))
      | some old =>
        if old.AverageRating = rating then (w, some (.joinServer (.new "update failed")))
        else
          ({ w with riders := w.riders.map (fun r =>
              if r.Id == id then { r with AverageRating := rating } else r) }, none)

/-- Method `RiderMongoDb.UpdateAverageRating`, on the collection "Rider". -/
def RiderMongoDb.UpdateAverageRating (env : Env) (w : World) (id : ObjectID)
    (rating : Float64) : World × Option Error :=
  let w := w.emit (.updateAverageRating "Rider" id rating)
  match env.updateRatingErr "Rider" with
  | some e => (w, some e)
  | none =>
    if env.updateResultNil then (w, some (.joinServer (.new "no update result")))
    else
      match w.riders.find? (fun r => r.Id == id) with
      | none => (w, some (.joinClient (.new "no matching document")))
      | some old =>
        if old.AverageRating = rating then (w, some (.joinServer (.new "update failed")))
        else
          ({ w with riders := w.riders.map (fun r =>
              if r.Id == id then { r with AverageRating := rating } else r) }, none)

/-- Method `RestaurantMongo.UpdateAverageRating`, on the collection "Restaurant". -/
def RestaurantMongo.UpdateAverageRating (env : Env) (w : World) (id : ObjectID)
    (rating : Float64) : World × Option Error :=
  let w := w.emit (.updateAverageRating "Restaurant" id rating)
  match env.updateRatingErr "Restaurant" with
  | some e => (w, some e)
  | none =>
    if env.updateResultNil then (w, some (.joinServer (.new "no update result")))
    else
      match w.restaurants.find? (fun r => r.Id == id) with
      | none => (w, some (.joinClient (.new "no matching document")))
      | some old =>
        if old.AverageRating = rating then (w, some (.joinServer (.new "update failed")))
        else
          ({ w with restaurants := w.restaurants.map (fun r =>
              if r.Id == id then { r with AverageRating := rating } else r) }, none)

/-- Method `RatingRequest.calculateAverageRating` (it does not read the request). -/
def calculateAverageRating (ratings : List Rating) : Float64 :=
  if ratings.length = 0 then 0
  else
    let totalRating : Int := ratings.foldl (fun totalRating r => totalRating + r.Rating) 0
    (totalRating : Float64) / (ratings.length : Float64)

/-- Method `RatingRequest.UpdateAverageRatingsForUser`. -/
def UpdateAverageRatingsForUser (request : RatingRequest) (env : Env) (w : World)
    (userID : ObjectID) : World × Option Error :=
  match RatingMongoDb.SearchRating env w
      { RatingGiver := request.RatingGiver, RatingReceiver := 0 } with
  | (w, .error e) => (w, some e)
  | (w, .ok ratings) =>
    UserMongoDb.UpdateAverageRating env w userID (calculateAverageRating ratings)

/-- Method `RatingRequest.UpdateAverageRatingsForRider`. -/
def UpdateAverageRatingsForRider (request : RatingRequest) (env : Env) (w : World)
    (riderID : ObjectID) : World × Option Error :=
  match RatingMongoDb.SearchRating env w
      { RatingGiver := request.RatingGiver, RatingReceiver := 0 } with
  | (w, .error e) => (w, some e)
  | (w, .ok ratings) =>
    RiderMongoDb.UpdateAverageRating env w riderID (calculateAverageRating ratings)

/-- Method `RatingRequest.UpdateAverageRatingsForRestaurant`. -/
def UpdateAverageRatingsForRestaurant (request : RatingRequest) (env : Env) (w : World)
    (restaurantID : ObjectID) : World × Option Error :=
  match RatingMongoDb.SearchRating env w
      { RatingGiver := request.RatingGiver, RatingReceiver := 0 } with
  | (w, .error e) => (w, some e)
  | (w, .ok ratings) =>
    RestaurantMongo.UpdateAverageRating env w restaurantID (calculateAverageRating ratings)

/-! ## Error responses (`cmd/web/custom-errors/customErrors.go`) -/

/-- What `c.JSON(code, i)` answers with: the status code and the value whose
JSON encoding is the body. -/
structure JSONResponse where
  code : Nat
  i : String
  deriving DecidableEq, Repr

/-- Function `parseServerError`. -/
def parseServerError (err : Error) : JSONResponse := { code := 500, i := err.Error }

/-- Function `parseClientError`. -/
def parseClientError (err : Error) : JSONResponse := { code := 400, i := err.Error }

/-- Function `ParseError`; the stack trace it gathers only goes to `slog`. -/
def ParseError (err : Error) : JSONResponse :=
  if err.IsClientError then parseClientError err else parseServerError err

/-! ## In-memory user repository (`cmd/web/model/users_test.go`) -/

/-- The error `notFoundErr`. -/
def notFoundErr : Error := .new "user not found"

/-- Struct `InMemoryUserRepository`: the Go map `users`, as the list of its
bindings. -/
structure InMemoryUserRepository where
  users : List (ObjectID × User)
  deriving DecidableEq, Repr

/-- Method `InMemoryUserRepository.CreateUser`; `newObjectID` is the value of
`primitive.NewObjectID()`. -/
def InMemoryUserRepository.CreateUser (r : InMemoryUserRepository) (newObjectID : ObjectID)
    (user : User) : InMemoryUserRepository × User × Option Error :=
  let user := { user with Id := newObjectID }
  ({ users := (user.Id, user) :: r.users.filter (fun p => p.1 != user.Id) }, user, none)

/-- Method `InMemoryUserRepository.UpdateUser`. -/
def InMemoryUserRepository.UpdateUser (r : InMemoryUserRepository) (user : User) :
    InMemoryUserRepository × Option Error :=
  match r.users.lookup user.Id with
  | none => (r, some notFoundErr)
  | some _ => ({ users := (user.Id, user) :: r.users.filter (fun p => p.1 != user.Id) }, none)

/-- Method `InMemoryUserRepository.GetUser`. -/
def InMemoryUserRepository.GetUser (r : InMemoryUserRepository) (id : ObjectID) :
    Except Error User :=
  match r.users.lookup id with
  | none => .error notFoundErr
  | some user => .ok user

/-- Method `InMemoryUserRepository.DeleteUser`. -/
def InMemoryUserRepository.DeleteUser (r : InMemoryUserRepository) (id : ObjectID) :
    InMemoryUserRepository × Option Error :=
  match r.users.lookup id with
  | none => (r, some notFoundErr)
  | some _ => ({ users := r.users.filter (fun p => p.1 != id) }, none)

/-- Method `InMemoryUserRepository.UpdateAverageRating`. -/
def InMemoryUserRepository.UpdateAverageRating (r : InMemoryUserRepository) (id : ObjectID)
    (rating : Float64) : InMemoryUserRepository × Option Error :=
  match r.users.lookup id with
  | none => (r, some notFoundErr)
  | some user =>
    ({ users := (id, { user with AverageRating := rating }) ::
        r.users.filter (fun p => p.1 != id) }, none)

/-! ## Order creation (`cmd/web/handlers/orders.go`) -/

/-- Struct `handlers.CreateOrderRequest`. -/
structure CreateOrderRequest where
  UserId : ObjectID
  RestaurantId : ObjectID
  Items : List Item
  deriving DecidableEq, Repr

/-- Method `CreateOrderRequest.CreateOrder`; the fields the struct literal of
the source leaves out hold their zero value. -/
def CreateOrder (env : Env) (w : World) (request : CreateOrderRequest) :
    World × Except Error Order :=
  let currTime := env.now
  match UserMongoDb.GetUser env w request.UserId with
  | (w, .error e) => (w, .error e)
  | (w, .ok user) =>
    match RestaurantMongo.GetRestaurant env w request.RestaurantId with
    | (w, .error e) => (w, .error e)
    | (w, .ok restaurant) =>
      if restaurant.Status ≠ "ACTIVE" then
        (w, .error (.joinClient (.new "restaurant not serving")))
      else
        let finalPrice : Float64 :=
          request.Items.foldl (fun finalPrice item => finalPrice + item.Price) 0
        let order : Order :=
          { Id := 0
            UserId := user.Id
            RiderId := 0
            RestaurantId := restaurant.Id
            DeliveryPhoneNumber := ""
            DeliveryLatitude := user.Location.GetLatitude
            DeliveryLongitude := user.Location.GetLongitude
            DeliveryAddress := user.Address
            PickupPhoneNumber := ""
            PickupLatitude := user.Location.GetLatitude
            PickupLongitude := user.Location.GetLongitude
            PickupAddress := restaurant.Address
            Items := request.Items
            FinalPrice := finalPrice
            Latitude := .finite 0
            Longitude := .finite 0
            DeliveryTime := 0
            CreatedAt := currTime
            AcceptedAt := 0
            UpdatedAt := currTime
            DeliveryStarted := 0
            DeliveredAt := 0
            Status := "CREATED" }
        OrderMongo.CreateOrder env w order

/-! ## Restaurant-side acceptance (`cmd/web/handlers/orders.go`) -/

/-- The loop of `AcceptOrder` over `ridersSelected`: one `SADD` per id, the
first failure is returned at once. -/
def sAddAll (env : Env) (key : String) : World → List ObjectID → World × Option Error
  | w, [] => (w, none)
  | w, id :: ids =>
    match Redis.SAdd env w key id.Hex with
    | (w, some e) => (w, some e)
    | (w, none) => sAddAll env key w ids

/-- Method `AcceptPendingRestaurantOrder.AcceptOrder`. The error of the rider
search is overwritten by the result of `json.Marshal`, which is nil for
`NewOrderBroadCast`, before anything reads it; the result of `Expire` is
dropped. -/
def AcceptOrder (env : Env) (w : World) (oa : AcceptPendingRestaurantOrder) :
    World × Option Error :=
  match OrderMongo.GetOrder env w oa.Id with
  | (w, .error e) => (w, some e)
  | (w, .ok order) =>
    match RestaurantMongo.GetRestaurant env w oa.RestaurantId with
    | (w, .error e) => (w, some e)
    | (w, .ok restaurant) =>
      if order.Status = "ACCEPTED" then (w, some (.new "order is already accepted"))
      else
        let order := { order with Status := "ACCEPTED", AcceptedAt := env.now }
        match OrderMongo.UpdateOrder env w order with
        | (w, some e) => (w, some e)
        | (w, none) =>
          let searchRider : SearchRiderQuery :=
            { Latitude := restaurant.Location.GetLatitude,
              Longitude := restaurant.Location.GetLongitude,
              Limit := 10 }
          match SearchRider env w searchRider with
          | (w, riders, _) =>
            let ridersSelected := riders.map (fun rider => rider.Id)
            let w := SocketManager.BroadcastToRiders w
              (.newOrderBroadCast "New order for pickup" order.Id) ridersSelected
            match sAddAll env ("rider_broadcasted:" ++ order.Id.Hex) w ridersSelected with
            | (w, some e) => (w, some e)
            | (w, none) =>
              ((Redis.Expire env w ("rider_broadcasted:" ++ order.Id.Hex) (30 * Minute)).1, none)

/-! ## Rider messages (`cmd/web/handlers/web_socket.go`) -/

/-- Function `handleSendingLocation`; its second parameter is named `userId`. -/
def handleSendingLocation (w : World) (userId : ObjectID) (req : LocationSyncReq) : World :=
  SocketManager.BroadcastToUsers w
    (.newLocationInfo "in between" req.Latitude req.Longitude) [userId]

/-- Function `handleSendingDeliveredStatus`. -/
def handleSendingDeliveredStatus (w : World) (userId : ObjectID) (_req : LocationSyncReq) :
    World :=
  SocketManager.BroadcastToRiders w (.newLocationInfo "rider reached location" "" "") [userId]

/-- The goroutine `handleOrderAcceptance` starts once the token is won: it
reads the candidate set and broadcasts "Already picked order". -/
def notifyCandidates (env : Env) (w : World) (orderId : ObjectID) (order : Order) : World :=
  match Redis.SMembers env w ("rider_broadcasted:" ++ orderId.Hex) with
  | (w, .error _) => w
  | (w, .ok members) =>
    let rIds := members.filterMap ObjectIDFromHex
    SocketManager.BroadcastToRiders w (.newOrderBroadCast "Already picked order" order.Id) rIds

/-- The assignments `handleOrderAcceptance` makes to the fetched order. -/
def assignRider (env : Env) (order : Order) (riderId : ObjectID) (acceptReq : AcceptOrderId) :
    Order :=
  { order with
    RiderId := riderId
    Status := "RIDER_ASSIGNED"
    DeliveryStarted := env.now
    UpdatedAt := env.now
    Latitude := (ParseFloat env acceptReq.Latitude).1
    Longitude := (ParseFloat env acceptReq.Longitude).1 }

/-- Function `handleOrderAcceptance`. -/
def handleOrderAcceptance (env : Env) (w : World) (riderId : ObjectID)
    (acceptReq : AcceptOrderId) : World :=
  let orderId := acceptReq.OrderId
  if orderId.IsZero then w
  else
    match OrderMongo.GetOrder env w orderId with
    | (w, .error _) => SocketManager.BroadcastToRiders w (.text "error assigning") [riderId]
    | (w, .ok order) =>
      if order.Status = "RIDER_ASSIGNED" then
        SocketManager.BroadcastToRiders w (.text "order already assigned") [riderId]
      else if env.redisConnNil then
        SocketManager.BroadcastToRiders w (.text "error assigning") [riderId]
      else
        match Redis.Incr env w ("order_status:" ++ orderId.Hex) with
        | (w, .error _) => SocketManager.BroadcastToRiders w (.text "error assigning") [riderId]
        | (w, .ok result) =>
          if result ≠ 1 then
            SocketManager.BroadcastToRiders w (.text "order already assigned") [riderId]
          else
            let w := notifyCandidates env w orderId order
            let order := assignRider env order riderId acceptReq
            let w := SocketManager.BroadcastToRiders w (.text "Order accepted") [riderId]
            match OrderMongo.UpdateOrder env w order with
            | (w, some _) => w
            | (w, none) =>
              handleSendingLocation w riderId
                { Latitude := acceptReq.Latitude, Longitude := acceptReq.Longitude }

/-- Function `handleOrderDelivered`. -/
def handleOrderDelivered (env : Env) (w : World) (acceptReq : AcceptOrderId) : World :=
  let orderId := acceptReq.OrderId
  if orderId.IsZero then w
  else
    match OrderMongo.GetOrder env w orderId with
    | (w, .error _) => w
    | (w, .ok order) =>
      if order.Status = "DELIVERED" then w
      else
        let order := { order with
          Status := "DELIVERED"
          DeliveredAt := env.now
          UpdatedAt := env.now
          DeliveryTime := (Time.Sub env.now order.AcceptedAt).Seconds
          Latitude := (ParseFloat env acceptReq.Latitude).1
          Longitude := (ParseFloat env acceptReq.Longitude).1 }
        match OrderMongo.UpdateOrder env w order with
        | (w, some _) => w
        | (w, none) =>
          let w := handleSendingDeliveredStatus w order.UserId
            { Latitude := acceptReq.Latitude, Longitude := acceptReq.Longitude }
          (updateDeliveryTime env w order).1

/-- Function `ProcessRiderMessage`. -/
def ProcessRiderMessage (env : Env) (w : World) (riderId : ObjectID) (message : String) :
    World :=
  match env.decodeEnvelope message with
  | none => w
  | some (messageType, body) =>
    if messageType = "accept_order" then
      match env.decodeAcceptOrderId body with
      | none => w
      | some acceptReq => handleOrderAcceptance env w riderId acceptReq
    else if messageType = "send_location" then
      match env.decodeLocationSyncReq body with
      | none => w
      | some syncReq => handleSendingLocation w riderId syncReq
    else if messageType = "delivered" then
      match env.decodeAcceptOrderId body with
      | none => w
      | some acceptReq => handleOrderDelivered env w acceptReq
    else w

/-! ## Rider connections (`cmd/web/routes/ws_routes.go`) -/

/-- The read loop of `ConnectRiderWebSocket`: every frame read before
`ReadMessage` errs is handed to `ProcessRiderMessage`, each in the environment
in force when it arrives. -/
def readLoop (w : World) (oId : ObjectID) (frames : List (Env × String)) : World :=
  frames.foldl (fun w frame => ProcessRiderMessage frame.1 w oId frame.2) w

/-- Method `WsApplication.ConnectRiderWebSocket`. `conn` is the result of
`upgrader.Upgrade`, `first` the result of the first `ReadMessage`, `frames` are
the frames read afterwards, up to the `ReadMessage` that errs because the
connection failed or was closed. The deferred `conn.Close()` runs on every
return once the upgrade has succeeded. -/
def ConnectRiderWebSocket (env : Env) (w : World) (conn : Except Error Conn)
    (first : Except Error String) (frames : List (Env × String)) : World × Option Error :=
  match conn with
  | .error e => (w, some e)
  | .ok conn =>
    match first with
    | .error e => (w.emit (.close conn), some e)
    | .ok msg =>
      match env.decodeRiderWebSocketReq msg with
      | none => (w.emit (.close conn), some (.new "invalid rider request"))
      | some riderId =>
        if riderId = "" then (w.emit (.close conn), some (.new "Rider ID is required"))
        else
          match ObjectIDFromHex riderId with
          | none =>
            (w.emit (.close conn),
              some (.new "the provided hex string is not a valid ObjectID"))
          | some oId =>
            let w := SocketManager.RegisterRider w oId conn
            let w := readLoop w oId frames
            (w.emit (.close conn), none)

/-! ## Concurrent acceptance attempts

`handleOrderAcceptance` touches shared state at three points: it fetches the
order, it increments the token, and it persists the order.  Between these
points other attempts may run.  The three phases below cut the function at
these points; `handleOrderAcceptance_eq_phases` shows that running them back
to back is the function itself. -/

/-- Where an acceptance attempt stands, with its local variable `order`. -/
inductive AcceptPc where
  | start
  | fetched (order : Order)
  | won (order : Order)
  | done
  deriving DecidableEq, Repr

/-- First phase: up to and including the check of the fetched status. -/
def acceptFetch (env : Env) (w : World) (riderId : ObjectID) (acceptReq : AcceptOrderId) :
    World × AcceptPc :=
  if acceptReq.OrderId.IsZero then (w, .done)
  else
    match OrderMongo.GetOrder env w acceptReq.OrderId with
    | (w, .error _) =>
      (SocketManager.BroadcastToRiders w (.text "error assigning") [riderId], .done)
    | (w, .ok order) =>
      if order.Status = "RIDER_ASSIGNED" then
        (SocketManager.BroadcastToRiders w (.text "order already assigned") [riderId], .done)
      else (w, .fetched order)

/-- Second phase: the Redis connection and the increment of the token. -/
def acceptIncr (env : Env) (w : World) (riderId : ObjectID) (acceptReq : AcceptOrderId)
    (order : Order) : World × AcceptPc :=
  if env.redisConnNil then
    (SocketManager.BroadcastToRiders w (.text "error assigning") [riderId], .done)
  else
    match Redis.Incr env w ("order_status:" ++ acceptReq.OrderId.Hex) with
    | (w, .error _) =>
      (SocketManager.BroadcastToRiders w (.text "error assigning") [riderId], .done)
    | (w, .ok result) =>
      if result ≠ 1 then
        (SocketManager.BroadcastToRiders w (.text "order already assigned") [riderId], .done)
      else (w, .won order)

/-- Third phase: everything after the token is won. -/
def acceptPersist (env : Env) (w : World) (riderId : ObjectID) (acceptReq : AcceptOrderId)
    (order : Order) : World :=
  let w := notifyCandidates env w acceptReq.OrderId order
  let order := assignRider env order riderId acceptReq
  let w := SocketManager.BroadcastToRiders w (.text "Order accepted") [riderId]
  match OrderMongo.UpdateOrder env w order with
  | (w, some _) => w
  | (w, none) =>
    handleSendingLocation w riderId
      { Latitude := acceptReq.Latitude, Longitude := acceptReq.Longitude }

/-- The shared world and the position of the attempt of every rider. -/
structure AcceptSys where
  world : World
  pc : ObjectID → AcceptPc

/-- One atomic step of the attempt of rider `r`; a finished attempt stays put.
Each attempt has its own environment `env r` and request `req r`. -/
def AcceptSys.step (env : ObjectID → Env) (req : ObjectID → AcceptOrderId) (s : AcceptSys)
    (r : ObjectID) : AcceptSys :=
  match s.pc r with
  | .start =>
    let res := acceptFetch (env r) s.world r (req r)
    { world := res.1, pc := Function.update s.pc r res.2 }
  | .fetched order =>
    let res := acceptIncr (env r) s.world r (req r) order
    { world := res.1, pc := Function.update s.pc r res.2 }
  | .won order =>
    { world := acceptPersist (env r) s.world r (req r) order,
      pc := Function.update s.pc r .done }
  | .done => s

/-- Runs a schedule: the list of riders whose attempt takes the next step. -/
def AcceptSys.run (env : ObjectID → Env) (req : ObjectID → AcceptOrderId) (s : AcceptSys)
    (sched : List ObjectID) : AcceptSys :=
  sched.foldl (AcceptSys.step env req) s

/-- The state in which no attempt has started. -/
def AcceptSys.init (w : World) : AcceptSys := { world := w, pc := fun _ => .start }

/-! ## Reading the log

The vocabulary of the statements: projections of a list of calls, and the
closed forms of what the operations append to the log. -/

/-- How often the text `m` was sent to exactly the rider `r`. -/
def sentCount (log : List Event) (m : String) (r : ObjectID) : Nat :=
  log.count (.broadcastToRiders (.text m) [r])

/-- The calls made between the state `w0` and the later state `w`. -/
def callsSince (w0 w : World) : List Event := w.log.drop w0.log.length

/-- The websocket writes a broadcast of `message` to `ids` attempts: one per
listed id that has a connection in `clients`, in list order. -/
def writesTo (clients : List (String × Conn)) (message : Message) (ids : List ObjectID) :
    List Event :=
  ids.filterMap (fun id => (clients.lookup id.Hex).map (fun c => Event.writeMessage c message))

/-- The order of a call of `OrderRepo.UpdateOrder`. -/
def asUpdateOrder : Event → Option Order
  | .updateOrder o => some o
  | _ => none

/-- The orders handed to `OrderRepo.UpdateOrder` in a list of calls. -/
def updatedOrders (l : List Event) : List Order := l.filterMap asUpdateOrder

/-- The calls the goroutine `notifyCandidates` makes in the state `w`. -/
def candidateCalls (env : Env) (w : World) (orderId : ObjectID) (order : Order) : List Event :=
  Event.sMembers ("rider_broadcasted:" ++ orderId.Hex) ::
    match env.sMembersErr with
    | some _ => []
    | none =>
      let rIds := (w.members env.now ("rider_broadcasted:" ++ orderId.Hex)).filterMap
        ObjectIDFromHex
      Event.broadcastToRiders (.newOrderBroadCast "Already picked order" order.Id) rIds ::
        writesTo w.riderClients (.newOrderBroadCast "Already picked order" order.Id) rIds

/-- The id list of a broadcast to riders of the JSON message with text `m`. -/
def asOrderBroadcast (m : String) : Event → Option (List ObjectID)
  | .broadcastToRiders (.newOrderBroadCast m1 _) ids => if m1 = m then some ids else none
  | _ => none

/-- The id lists of the broadcasts to riders of the JSON message with text
`m`, in a list of calls. -/
def orderBroadcasts (l : List Event) (m : String) : List (List ObjectID) :=
  l.filterMap (asOrderBroadcast m)

/-- The id list of a broadcast of a location to users. -/
def asLocationBroadcast : Event → Option (List ObjectID)
  | .broadcastToUsers (.newLocationInfo _ _ _) ids => some ids
  | _ => none

/-- The id lists of the broadcasts of a location to users, in a list of calls. -/
def locationBroadcasts (l : List Event) : List (List ObjectID) :=
  l.filterMap asLocationBroadcast

/-- The collection "Order" after `OrderMongo.UpdateOrder` of `order`. -/
def updatedDocs (env : Env) (orders : List Order) (order : Order) : List Order :=
  match env.updateOrderErr with
  | some _ => orders
  | none => orders.map (fun o => if o.Id == order.Id then order else o)

/-- The error `OrderMongo.UpdateOrder` of `order` returns on a collection. -/
def updateError (env : Env) (orders : List Order) (order : Order) : Option Error :=
  match env.updateOrderErr with
  | some e => some e
  | none =>
    if env.updateResultNil then some (.joinServer (.new "no update result"))
    else if (updateCounts orders order).1 ≠ 1 then
      some (.joinClient (.new "no matching document"))
    else if (updateCounts orders order).2 ≠ 1 then some (.joinServer (.new "update failed"))
    else none

/-- The messages written to the connection `c` in a list of calls. -/
def writtenTo (l : List Event) (c : Conn) : List Message :=
  l.filterMap (fun e => match e with
    | .writeMessage c1 m => if c1 = c then some m else none
    | _ => none)

/-- The query of a call of `RiderRepo.SearchRider`. -/
def asSearchRider : Event → Option SearchRiderQuery
  | .searchRider q => some q
  | _ => none

/-- The queries sent to `RiderRepo.SearchRider` in a list of calls. -/
def riderSearches (l : List Event) : List SearchRiderQuery := l.filterMap asSearchRider

/-- The query `AcceptOrder` sends to the rider search for a restaurant. -/
def riderQuery (restaurant : Restaurant) : SearchRiderQuery :=
  { Latitude := restaurant.Location.GetLatitude
    Longitude := restaurant.Location.GetLongitude
    Limit := 10 }

/-- The state `AcceptOrder` has reached when the offer has been broadcast,
on the path where every call so far succeeded. -/
def acceptedWorld (env : Env) (w : World) (oa : AcceptPendingRestaurantOrder)
    (order : Order) (restaurant : Restaurant) : World :=
  { w with
    orders := updatedDocs env w.orders { order with Status := "ACCEPTED", AcceptedAt := env.now }
    log := w.log ++
      (Event.getOrder oa.Id :: Event.getRestaurant oa.RestaurantId ::
        Event.updateOrder { order with Status := "ACCEPTED", AcceptedAt := env.now } ::
        Event.searchRider (riderQuery restaurant) ::
        Event.broadcastToRiders (.newOrderBroadCast "New order for pickup" order.Id)
          ((env.searchRider (riderQuery restaurant)).1.map (fun rider => rider.Id)) ::
        writesTo w.riderClients (.newOrderBroadCast "New order for pickup" order.Id)
          ((env.searchRider (riderQuery restaurant)).1.map (fun rider => rider.Id))) }

/-- The calls of the third phase of an acceptance attempt in the state `w`. -/
def persistCalls (env : Env) (w : World) (r : ObjectID) (req : AcceptOrderId)
    (order : Order) : List Event :=
  candidateCalls env w req.OrderId order ++
    (Event.broadcastToRiders (.text "Order accepted") [r] ::
      writesTo w.riderClients (.text "Order accepted") [r] ++
    (Event.updateOrder (assignRider env order r req) ::
      match updateError env w.orders (assignRider env order r req) with
      | some _ => []
      | none =>
        Event.broadcastToUsers (.newLocationInfo "in between" req.Latitude req.Longitude) [r] ::
          writesTo w.userClients
            (.newLocationInfo "in between" req.Latitude req.Longitude) [r]))

/-- The value of the acceptance token of an order, 0 when the key is absent. -/
def tokenOf (w : World) (orderId : ObjectID) : Int :=
  (w.counters.lookup ("order_status:" ++ orderId.Hex)).getD 0

/-- How far an attempt has come: the number of phases it has finished. -/
def AcceptPc.rank : AcceptPc → Nat
  | .start => 0
  | .fetched _ => 1
  | .won _ => 2
  | .done => 3

/-- What the log `l` of the calls made so far says about rider `r`, given the
position of the attempt of `r` and the rider `wo`, if any, that took the token. -/
def pcInv (wo : Option ObjectID) (l : List Event) (r : ObjectID) : AcceptPc → Prop
  | .start =>
    sentCount l "Order accepted" r = 0 ∧ sentCount l "order already assigned" r = 0
      ∧ wo ≠ some r
  | .fetched _ =>
    sentCount l "Order accepted" r = 0 ∧ sentCount l "order already assigned" r = 0
      ∧ wo ≠ some r
  | .won _ =>
    wo = some r ∧ sentCount l "Order accepted" r = 0
      ∧ sentCount l "order already assigned" r = 0
  | .done =>
    (wo = some r ∧ sentCount l "Order accepted" r = 1
        ∧ sentCount l "order already assigned" r = 0)
      ∨ (wo ≠ some r ∧ wo ≠ none ∧ sentCount l "Order accepted" r = 0
        ∧ sentCount l "order already assigned" r = 1)

/-- The invariant of concurrent acceptance attempts for the order `orderId`,
started in the state `w0`: `wo` is the rider that took the token, `l` the
calls made since `w0`. -/
structure AcceptInv (w0 : World) (orderId : ObjectID) (riders : List ObjectID)
    (s : AcceptSys) (wo : Option ObjectID) (l : List Event) : Prop where
  log : s.world.log = w0.log ++ l
  tok0 : wo = none → tokenOf s.world orderId = 0
  tok1 : wo ≠ none → 1 ≤ tokenOf s.world orderId
  mem : ∀ x, wo = some x → x ∈ riders
  ord : ∃ o, findOrder s.world.orders orderId = some o
    ∧ (o.Status = "RIDER_ASSIGNED" → wo ≠ none)
  pcs : ∀ r, pcInv wo l r (s.pc r)

/-- The restaurant and the value of a call of `UpdateAverageDeliveryTime`. -/
def asDeliveryTimeUpdate : Event → Option (ObjectID × Float64)
  | .updateAverageDeliveryTime id v => some (id, v)
  | _ => none

/-- The restaurants and values handed to `UpdateAverageDeliveryTime` in a list
of calls. -/
def deliveryTimeUpdates (l : List Event) : List (ObjectID × Float64) :=
  l.filterMap asDeliveryTimeUpdate

/-- The query of a call of `OrderRepo.SearchOrder`. -/
def asSearchOrder : Event → Option SearchOrderQuery
  | .searchOrder q => some q
  | _ => none

/-- The queries sent to `OrderRepo.SearchOrder` in a list of calls. -/
def orderSearches (l : List Event) : List SearchOrderQuery := l.filterMap asSearchOrder

/-- The collection, the id and the value of a call of `UpdateAverageRating`. -/
def asRatingUpdate : Event → Option (String × ObjectID × Float64)
  | .updateAverageRating c id v => some (c, id, v)
  | _ => none

/-- The collections, ids and values of the calls of `UpdateAverageRating` in a
list of calls. -/
def ratingUpdates (l : List Event) : List (String × ObjectID × Float64) :=
  l.filterMap asRatingUpdate

/-- Whether a call is a broadcast or a websocket write. -/
def Event.isSend : Event → Bool
  | .broadcastToRiders _ _ => true
  | .broadcastToUsers _ _ => true
  | .writeMessage _ _ => true
  | _ => false

/-- The broadcasts and websocket writes in a list of calls. -/
def sendsOf (l : List Event) : List Event := l.filter Event.isSend

/-- The query `updateDeliveryTime` sends for an order, as the source builds it. -/
def deliveryQuery (order : Order) : SearchOrderQuery :=
  { OrderId := order.Id, Status := "DELIVERED", RestaurantId := order.RestaurantId
    DriverId := 0, UserId := 0, Limit := 0, Skip := 0 }

/-- The calls `updateDeliveryTime` makes for an order in the state `w`. -/
def recomputeCalls (env : Env) (w : World) (order : Order) : List Event :=
  Event.searchOrder (deliveryQuery order) ::
    match (OrderMongo.SearchOrder env w (deliveryQuery order)).2 with
    | .error _ => []
    | .ok (searchOrders, _) =>
      [Event.updateAverageDeliveryTime order.RestaurantId
        ((searchOrders.map (fun o => distanceBetweenPoints env order.PickupLatitude
            order.PickupLongitude o.PickupLatitude o.PickupLongitude)).sum
          / ((searchOrders.map (fun o => o.DeliveryTime)).sum + 1))]

/-- The order `handleOrderDelivered` hands to `UpdateOrder`. -/
def deliveredOrder (env : Env) (order : Order) (acceptReq : AcceptOrderId) : Order :=
  { order with
    Status := "DELIVERED"
    DeliveredAt := env.now
    UpdatedAt := env.now
    DeliveryTime := (Time.Sub env.now order.AcceptedAt).Seconds
    Latitude := (ParseFloat env acceptReq.Latitude).1
    Longitude := (ParseFloat env acceptReq.Longitude).1 }

/-- Rank of a status in the lifecycle. -/
def statusRank (s : String) : Nat :=
  if s = "CREATED" then 0
  else if s = "ACCEPTED" then 1
  else if s = "RIDER_ASSIGNED" then 2
  else if s = "DELIVERED" then 3
  else 0

/-- The key of a command on a set of the coordination store. -/
def asSetKey : Event → Option String
  | .sAdd key _ => some key
  | .sMembers key => some key
  | .expire key _ => some key
  | _ => none

/-- The keys of the set commands in a list of calls. -/
def setKeys (l : List Event) : List String := l.filterMap asSetKey

/-- One of the calls that change an order once it is created. -/
inductive LifecycleCall where
  | acceptOrder (oa : AcceptPendingRestaurantOrder)
  | orderAcceptance (riderId : ObjectID) (acceptReq : AcceptOrderId)
  | orderDelivered (acceptReq : AcceptOrderId)
  deriving DecidableEq, Repr

/-- Makes one of the calls `AcceptOrder`, `handleOrderAcceptance`,
`handleOrderDelivered`. -/
def LifecycleCall.run (env : Env) (w : World) : LifecycleCall → World
  | .acceptOrder oa => (AcceptOrder env w oa).1
  | .orderAcceptance riderId acceptReq => handleOrderAcceptance env w riderId acceptReq
  | .orderDelivered acceptReq => handleOrderDelivered env w acceptReq

/-- The state after `CreateOrder` and then a sequence of calls, each made in
its own environment. -/
def lifecycle (env : Env) (w : World) (request : CreateOrderRequest)
    (calls : List (Env × LifecycleCall)) : World :=
  calls.foldl (fun w call => call.2.run call.1 w) (CreateOrder env w request).1

/-- The clock readings of a creation and the calls after it never go back. -/
def clockNonDecreasing (env : Env) (calls : List (Env × LifecycleCall)) : Prop :=
  (env.now :: calls.map (fun call => call.1.now)).Pairwise (fun a b => a ≤ b)

instance (env : Env) (calls : List (Env × LifecycleCall)) :
    Decidable (clockNonDecreasing env calls) :=
  inferInstanceAs (Decidable
    ((env.now :: calls.map (fun call : Env × LifecycleCall => call.1.now)).Pairwise
      (fun a b => a ≤ b)))

/-- The timestamps of an order that have been set (are not the zero time) are
in the order createdAt, acceptedAt, deliveryStarted, deliveredAt. -/
def timestampsOrdered (o : Order) : Prop :=
  ([o.CreatedAt, o.AcceptedAt, o.DeliveryStarted, o.DeliveredAt].filter
    (fun t => t != 0)).Pairwise (fun a b => a ≤ b)

instance (o : Order) : Decidable (timestampsOrdered o) :=
  inferInstanceAs (Decidable
    (([o.CreatedAt, o.AcceptedAt, o.DeliveryStarted, o.DeliveredAt].filter
      (fun t => t != 0)).Pairwise (fun a b => a ≤ b)))

/-- An order in the status CREATED or ACCEPTED has no rider. -/
def riderReferenceEmpty (o : Order) : Prop :=
  (o.Status = "CREATED" ∨ o.Status = "ACCEPTED") → o.RiderId = 0

instance (o : Order) : Decidable (riderReferenceEmpty o) :=
  inferInstanceAs (Decidable ((o.Status = "CREATED" ∨ o.Status = "ACCEPTED") → o.RiderId = 0))

/-! ## Sample data -/

/-- An environment in which every outside call succeeds. -/
def calmEnv : Env :=
  { now := 1000
    parseFloat := fun s =>
      if s = "12.5" then .value (.finite (25 / 2))
      else if s = "1e999" then .rangeError false
      else .syntaxError
    findOrderErr := none
    findRestaurantErr := none
    updateOrderErr := none
    updateResultNil := false
    searchRider := fun _ => ([], none)
    redisConnNil := false
    incrErr := none
    sMembersErr := none
    sAddErr := fun _ _ => none
    writeErr := fun _ => false
    searchOrderErr := none
    updateRestaurantErr := none
    sin := fun _ => 0
    cos := fun _ => 1
    acos := fun _ => 0
    pi := 355 / 113
    findUserErr := none
    searchRatingErr := none
    decodeRatingsErr := none
    updateRatingErr := fun _ => none
    expireErr := none
    insertOrderErr := none
    insertResultNil := false
    newObjectID := 1
    decodeRiderWebSocketReq := fun _ => none
    decodeEnvelope := fun _ => none
    decodeAcceptOrderId := fun _ => none
    decodeLocationSyncReq := fun _ => none }

/-- An order of customer 9 at restaurant 2, with the given id and status. -/
def sampleOrder (id : ObjectID) (status : String) : Order :=
  { Id := id, UserId := 9, RiderId := 0, RestaurantId := 2
    DeliveryPhoneNumber := "", DeliveryLatitude := 0, DeliveryLongitude := 0
    DeliveryAddress := "", PickupPhoneNumber := "", PickupLatitude := 0
    PickupLongitude := 0, PickupAddress := "", Items := [], FinalPrice := 0
    Latitude := .finite 0, Longitude := .finite 0, DeliveryTime := 0, CreatedAt := 10
    AcceptedAt := 0, UpdatedAt := 10, DeliveryStarted := 0, DeliveredAt := 0
    Status := status }

/-- Restaurant 2. -/
def sampleRestaurant : Restaurant :=
  { Id := 2, Name := "r", Address := "a"
    Location := { Type_ := "Point", Coordinates := [77, 12] }
    AverageRating := 0, AverageTime := 0, Status := "ACTIVE" }

/-- A world holding one order (id 1) and restaurant 2, nothing else. -/
def sampleWorld (status : String) : World :=
  { orders := [sampleOrder 1 status], restaurants := [sampleRestaurant]
    users := [], riders := [], ratings := []
    counters := [], sets := [], expiry := [], riderClients := [], userClients := []
    averageDeliveryTime := [], log := [] }

/-- A world in which order 1 has been offered to the riders 7 and 8, who are
connected on 70 and 80, and whose customer 9 is connected on 90. -/
def offeredWorld (status : String) : World :=
  { sampleWorld status with
    sets := [("rider_broadcasted:" ++ ObjectID.Hex 1, [ObjectID.Hex 7, ObjectID.Hex 8])]
    riderClients := [(ObjectID.Hex 7, 70), (ObjectID.Hex 8, 80)]
    userClients := [(ObjectID.Hex 9, 90)] }

/-- The world `offeredWorld` after an earlier acceptance took the token of order 1. -/
def takenWorld (status : String) : World :=
  { offeredWorld status with counters := [("order_status:" ++ ObjectID.Hex 1, 1)] }

/-- The request of a rider at the position "12.5", "12.5" for order 1. -/
def sampleAccept : AcceptOrderId := { OrderId := 1, Latitude := "12.5", Longitude := "12.5" }

/-- An environment in which only the update of an order fails. -/
def updateFailsEnv : Env := { calmEnv with updateOrderErr := some (.new "connection reset") }

/-- An environment that decodes every frame as a `send_location` message. -/
def locationEnv : Env :=
  { calmEnv with
    decodeEnvelope := fun _ => some ("send_location", "")
    decodeLocationSyncReq := fun _ => some { Latitude := "12.5", Longitude := "12.5" } }

/-- An environment whose rider search answers with the riders 7 and 8. -/
def searchEnv : Env :=
  { calmEnv with
    searchRider := fun _ =>
      ([{ Id := 7, Name := "a", Distance := 1 }, { Id := 8, Name := "b", Distance := 2 }], none) }

/-- An environment whose rider search answers with the riders 7 and 8 and in
which the `SADD` of rider 8 fails. -/
def sAddFailsEnv : Env :=
  { searchEnv with
    sAddErr := fun _ member =>
      if member = ObjectID.Hex 8 then some (.new "connection reset") else none }

/-- A world with two delivered orders, 1 and 3, of restaurant 2. -/
def twoDeliveredWorld : World :=
  { sampleWorld "DELIVERED" with
    orders := [{ sampleOrder 1 "DELIVERED" with DeliveryTime := 600 },
      { sampleOrder 3 "DELIVERED" with DeliveryTime := 900 }] }

/-- A rating of `rating` given by user 5 to the receiver `receiver`. -/
def sampleRating (id receiver : ObjectID) (receiverType : String) (rating : Int) : Rating :=
  { Id := id, RatingGiver := 5, RatingReceiver := receiver, OrderID := 1
    RatingGiverType := "user", RatingReceiverType := receiverType, Rating := rating
    CreatedAt := 10, UpdatedAt := 10, Comment := "" }

/-- The rider 7, not yet rated. -/
def sampleRider : Rider :=
  { Id := 7, Name := "r", EmailId := "", PhoneNumber := "", CreatedAt := 1, UpdatedAt := 1
    Address := "", Location := { Type_ := "Point", Coordinates := [77, 12] }
    AverageRating := 0, Status := "ACTIVE" }

/-- The user 9, not yet rated. -/
def sampleUser : User :=
  { Id := 9, Name := "u", EmailId := "", PhoneNumber := "", CreatedAt := 1, UpdatedAt := 1
    Address := "", Location := { Type_ := "Point", Coordinates := [77, 12] }
    AverageRating := 0, Status := "ACTIVE" }

/-- A world in which user 5 has rated rider 7 with 4, restaurant 2 with 2 and
user 9 with 3. -/
def ratedWorld : World :=
  { sampleWorld "DELIVERED" with
    users := [sampleUser]
    riders := [sampleRider]
    ratings := [sampleRating 11 7 "rider" 4, sampleRating 12 2 "restaurant" 2,
      sampleRating 13 9 "user" 3] }

/-- The request that recorded a rating of 4 by user 5 for the given receiver. -/
def sampleRatingRequest (receiver : ObjectID) (receiverType : String) : RatingRequest :=
  { RatingGiver := 5, RatingReceiver := receiver, OrderId := 1, RatingGiverType := "user"
    RatingReceiverType := receiverType, Rating := 4, Comment := "" }

/-- An environment that reads the first frame of a connection as the request
of rider 7 and every later frame as a `send_location` message. -/
def connectEnv : Env :=
  { locationEnv with decodeRiderWebSocketReq := fun _ => some (ObjectID.Hex 7) }

/-- An environment that decodes every frame as a message of the type
"cancel_order". -/
def unknownTypeEnv : Env :=
  { calmEnv with decodeEnvelope := fun _ => some ("cancel_order", "") }

/-- The environment `calmEnv` at the time `t`. -/
def envAt (t : Time) : Env := { calmEnv with now := t }

/-- The customer 9, who lives at another place than restaurant 2. -/
def sampleCustomer : User :=
  { sampleUser with
    Address := "home"
    Location := { Type_ := "Point", Coordinates := [78, 13] } }

/-- A world with the customer 9 and the restaurant 2 and no order yet; rider 7
is connected on 70. -/
def customerWorld : World :=
  { sampleWorld "CREATED" with
    orders := []
    users := [sampleCustomer]
    riderClients := [(ObjectID.Hex 7, 70)] }

/-- The world `customerWorld` with restaurant 2 not serving. -/
def closedWorld : World :=
  { customerWorld with restaurants := [{ sampleRestaurant with Status := "CLOSED" }] }

/-- The request of customer 9 for an order at restaurant 2. -/
def sampleCreate : CreateOrderRequest := { UserId := 9, RestaurantId := 2, Items := [] }

/-- The restaurant accepts order 1 at time 20, rider 7 accepts it at time 30,
and the restaurant accepts it once more at time 40. -/
def reacceptCalls : List (Env × LifecycleCall) :=
  [(envAt 20, .acceptOrder { Id := 1, RestaurantId := 2 }),
   (envAt 30, .orderAcceptance 7 sampleAccept),
   (envAt 40, .acceptOrder { Id := 1, RestaurantId := 2 })]

/-- An environment in which only the rider search fails. -/
def searchFailsEnv : Env :=
  { calmEnv with searchRider := fun _ => ([], some (.new "connection reset")) }

/-- An environment whose rider search answers with the riders 7 and 8 and in
which only `EXPIRE` fails. -/
def expireFailsEnv : Env := { searchEnv with expireErr := some (.new "connection reset") }

/-! ## Basic facts about the operations -/

theorem foldl_broadcastOne (clients : List (String × Conn)) (m : Message)
    (ids : List ObjectID) (w : World) :
    ids.foldl (broadcastOne clients m) w
      = { w with log := w.log ++ writesTo clients m ids } := by
  induction ids generalizing w with
  | nil => simp [writesTo]
  | cons id ids ih =>
    rw [List.foldl_cons, ih]
    unfold broadcastOne writesTo
    cases h : clients.lookup id.Hex <;> simp [h, World.emit]

theorem BroadcastToRiders_eq (w : World) (m : Message) (ids : List ObjectID) :
    SocketManager.BroadcastToRiders w m ids
      = { w with log := w.log ++ Event.broadcastToRiders m ids :: writesTo w.riderClients m ids } := by
  unfold SocketManager.BroadcastToRiders
  rw [foldl_broadcastOne]
  simp [World.emit]

theorem BroadcastToUsers_eq (w : World) (m : Message) (ids : List ObjectID) :
    SocketManager.BroadcastToUsers w m ids
      = { w with log := w.log ++ Event.broadcastToUsers m ids :: writesTo w.userClients m ids } := by
  unfold SocketManager.BroadcastToUsers
  rw [foldl_broadcastOne]
  simp [World.emit]

theorem kvSet_lookup {α : Type} (m : List (String × α)) (k : String) (v : α) :
    (kvSet m k v).lookup k = some v := by
  simp [kvSet, List.lookup]

theorem findOrder_id {orders : List Order} {id : ObjectID} {o : Order}
    (h : findOrder orders id = some o) : o.Id = id := by
  have := List.find?_some h
  simpa using this

theorem GetOrder_ok {env : Env} {w : World} {id : ObjectID} {order : Order}
    (h : (OrderMongo.GetOrder env w id).2 = .ok order) :
    OrderMongo.GetOrder env w id = (w.emit (.getOrder id), .ok order)
      ∧ findOrder w.orders id = some order := by
  unfold OrderMongo.GetOrder at h ⊢
  cases he : env.findOrderErr with
  | some e => simp [he] at h
  | none =>
    simp only [he] at h ⊢
    cases hf : findOrder (w.emit (.getOrder id)).orders id with
    | none => simp [hf] at h
    | some o =>
      simp only [hf] at h ⊢
      simp only [Except.ok.injEq] at h
      subst h
      exact ⟨rfl, hf⟩

theorem GetOrder_fst (env : Env) (w : World) (id : ObjectID) :
    (OrderMongo.GetOrder env w id).1 = w.emit (.getOrder id) := by
  unfold OrderMongo.GetOrder
  cases env.findOrderErr with
  | some e => rfl
  | none =>
    simp only
    cases findOrder (w.emit (.getOrder id)).orders id <;> rfl

theorem Incr_ok {env : Env} {w : World} {key : String} {v : Int}
    (h : (Redis.Incr env w key).2 = .ok v) (w1 : World) (hc : w1.counters = w.counters) :
    Redis.Incr env w1 key
      = ({ w1 with counters := kvSet w.counters key v, log := w1.log ++ [.incr key] }, .ok v)
      ∧ v = (w.counters.lookup key).getD 0 + 1 := by
  unfold Redis.Incr at h ⊢
  cases he : env.incrErr with
  | some e => simp [he] at h
  | none =>
    simp only [he, World.emit] at h ⊢
    simp only [Except.ok.injEq] at h
    subst h
    simp [hc]

theorem notifyCandidates_eq (env : Env) (w : World) (orderId : ObjectID) (order : Order) :
    notifyCandidates env w orderId order
      = { w with log := w.log ++ candidateCalls env w orderId order } := by
  unfold notifyCandidates Redis.SMembers candidateCalls
  cases env.sMembersErr with
  | some e => simp [World.emit]
  | none => simp [World.emit, BroadcastToRiders_eq, World.members, World.expired]

theorem UpdateOrder_eq (env : Env) (w : World) (o : Order) :
    OrderMongo.UpdateOrder env w o =
      ({ w with orders := updatedDocs env w.orders o, log := w.log ++ [.updateOrder o] },
        updateError env w.orders o) := by
  unfold OrderMongo.UpdateOrder updatedDocs updateError
  cases env.updateOrderErr with
  | some e => simp [World.emit]
  | none => simp only [World.emit]; split_ifs <;> rfl

theorem find?_map_of_stable {α : Type} (p : α → Bool) (f : α → α)
    (hp : ∀ x, p (f x) = p x) (l : List α) :
    (l.map f).find? p = (l.find? p).map f := by
  induction l with
  | nil => rfl
  | cons x xs ih =>
    rw [List.map_cons, List.find?_cons, List.find?_cons, hp x]
    cases p x with
    | true => rfl
    | false => exact ih

theorem findOrder_map_replace (orders : List Order) (o : Order) (id : ObjectID) :
    findOrder (orders.map (fun x => if x.Id == o.Id then o else x)) id
      = (findOrder orders id).map (fun x => if x.Id == o.Id then o else x) := by
  unfold findOrder
  apply find?_map_of_stable
  intro x
  by_cases hx : x.Id = o.Id
  · simp [hx]
  · simp [hx]

theorem filterMap_writesTo {α : Type} (f : Event → Option α)
    (hf : ∀ c m, f (.writeMessage c m) = none)
    (c : List (String × Conn)) (m : Message) (ids : List ObjectID) :
    (writesTo c m ids).filterMap f = [] := by
  unfold writesTo
  induction ids with
  | nil => rfl
  | cons id ids ih =>
    rw [List.filterMap_cons]
    cases h : (c.lookup id.Hex) with
    | none => simpa [h] using ih
    | some x => simpa [h, hf] using ih

theorem updatedOrders_writesTo (c : List (String × Conn)) (m : Message) (ids : List ObjectID) :
    updatedOrders (writesTo c m ids) = [] :=
  filterMap_writesTo _ (fun _ _ => rfl) c m ids

theorem updatedOrders_nil : updatedOrders [] = [] := rfl

theorem updatedOrders_append (a b : List Event) :
    updatedOrders (a ++ b) = updatedOrders a ++ updatedOrders b := by
  simp [updatedOrders]

theorem updatedOrders_cons (e : Event) (l : List Event) :
    updatedOrders (e :: l) = (asUpdateOrder e).toList ++ updatedOrders l := by
  unfold updatedOrders
  rw [List.filterMap_cons]
  cases asUpdateOrder e <;> rfl

theorem updatedOrders_candidateCalls (env : Env) (w : World) (id : ObjectID) (o : Order) :
    updatedOrders (candidateCalls env w id o) = [] := by
  unfold candidateCalls
  cases env.sMembersErr with
  | some e => rfl
  | none => simp [updatedOrders_cons, updatedOrders_writesTo, asUpdateOrder]

theorem orderBroadcasts_writesTo (t : String) (c : List (String × Conn)) (m : Message)
    (ids : List ObjectID) : orderBroadcasts (writesTo c m ids) t = [] :=
  filterMap_writesTo _ (fun _ _ => rfl) c m ids

theorem orderBroadcasts_append (t : String) (a b : List Event) :
    orderBroadcasts (a ++ b) t = orderBroadcasts a t ++ orderBroadcasts b t := by
  simp [orderBroadcasts]

theorem orderBroadcasts_cons (t : String) (e : Event) (l : List Event) :
    orderBroadcasts (e :: l) t = (asOrderBroadcast t e).toList ++ orderBroadcasts l t := by
  unfold orderBroadcasts
  rw [List.filterMap_cons]
  cases asOrderBroadcast t e <;> rfl

theorem locationBroadcasts_writesTo (c : List (String × Conn)) (m : Message)
    (ids : List ObjectID) : locationBroadcasts (writesTo c m ids) = [] :=
  filterMap_writesTo _ (fun _ _ => rfl) c m ids

theorem locationBroadcasts_append (a b : List Event) :
    locationBroadcasts (a ++ b) = locationBroadcasts a ++ locationBroadcasts b := by
  simp [locationBroadcasts]

theorem locationBroadcasts_cons (e : Event) (l : List Event) :
    locationBroadcasts (e :: l) = (asLocationBroadcast e).toList ++ locationBroadcasts l := by
  unfold locationBroadcasts
  rw [List.filterMap_cons]
  cases asLocationBroadcast e <;> rfl

theorem locationBroadcasts_candidateCalls (env : Env) (w : World) (id : ObjectID) (o : Order) :
    locationBroadcasts (candidateCalls env w id o) = [] := by
  unfold candidateCalls
  cases env.sMembersErr with
  | some e => rfl
  | none => simp [locationBroadcasts_cons, locationBroadcasts_writesTo, asLocationBroadcast]

theorem callsSince_self (w : World) : callsSince w w = [] := by simp [callsSince]

theorem GetOrder_eq (env : Env) (w : World) (id : ObjectID) :
    OrderMongo.GetOrder env w id = (w.emit (.getOrder id), (OrderMongo.GetOrder env w id).2) := by
  rw [← GetOrder_fst env w id]

theorem Incr_err {env : Env} {w : World} {key : String} {e : Error}
    (h : (Redis.Incr env w key).2 = .error e) :
    Redis.Incr env w key = (w.emit (.incr key), .error e) := by
  unfold Redis.Incr at h ⊢
  cases he : env.incrErr with
  | some e1 => simp only [he] at h ⊢; rw [h]
  | none => simp [he] at h

theorem acceptPersist_eq (env : Env) (w : World) (r : ObjectID) (req : AcceptOrderId)
    (order : Order) :
    acceptPersist env w r req order =
      { w with
        orders := updatedDocs env w.orders (assignRider env order r req)
        log := w.log ++ (candidateCalls env w req.OrderId order ++
          (Event.broadcastToRiders (.text "Order accepted") [r] ::
            writesTo w.riderClients (.text "Order accepted") [r] ++
          (Event.updateOrder (assignRider env order r req) ::
            match updateError env w.orders (assignRider env order r req) with
            | some _ => []
            | none =>
              Event.broadcastToUsers
                  (.newLocationInfo "in between" req.Latitude req.Longitude) [r] ::
                writesTo w.userClients
                  (.newLocationInfo "in between" req.Latitude req.Longitude) [r]))) } := by
  unfold acceptPersist
  simp only [notifyCandidates_eq, BroadcastToRiders_eq, UpdateOrder_eq]
  cases updateError env w.orders (assignRider env order r req) with
  | some e => simp
  | none => simp [handleSendingLocation, BroadcastToUsers_eq]

theorem handleOrderAcceptance_eq_phases (env : Env) (w : World) (r : ObjectID)
    (req : AcceptOrderId) :
    handleOrderAcceptance env w r req =
      match acceptFetch env w r req with
      | (w1, .fetched order) =>
        (match acceptIncr env w1 r req order with
        | (w2, .won order) => acceptPersist env w2 r req order
        | (w2, _) => w2)
      | (w1, _) => w1 := by
  unfold handleOrderAcceptance acceptFetch
  by_cases hz : req.OrderId.IsZero = true
  · simp [hz]
  · simp only [hz, Bool.false_eq_true, if_false]
    cases hg : OrderMongo.GetOrder env w req.OrderId with
    | mk w1 res =>
      cases res with
      | error e => rfl
      | ok order =>
        simp only
        by_cases hs : order.Status = "RIDER_ASSIGNED"
        · simp [hs]
        · simp only [hs, if_false]
          unfold acceptIncr
          by_cases hc : env.redisConnNil = true
          · simp [hc]
          · simp only [hc, Bool.false_eq_true, if_false]
            cases hi : Redis.Incr env w1 ("order_status:" ++ req.OrderId.Hex) with
            | mk w2 res2 =>
              cases res2 with
              | error e => rfl
              | ok result =>
                simp only
                by_cases hr : result = 1
                · simp [hr, acceptPersist]
                · simp [hr]

theorem GetOrder_counters (env : Env) (w : World) (id : ObjectID) :
    (OrderMongo.GetOrder env w id).1.counters = w.counters := by
  rw [GetOrder_fst]; rfl

/-- The run of `handleOrderAcceptance` once the token has been incremented. -/
theorem handleOrderAcceptance_incr {env : Env} {w : World} {r : ObjectID}
    {req : AcceptOrderId} {order : Order} {result : Int}
    (hid : req.OrderId ≠ 0)
    (hfetch : (OrderMongo.GetOrder env w req.OrderId).2 = .ok order)
    (hstatus : order.Status ≠ "RIDER_ASSIGNED")
    (hconn : env.redisConnNil = false)
    (hincr : (Redis.Incr env (OrderMongo.GetOrder env w req.OrderId).1
      ("order_status:" ++ req.OrderId.Hex)).2 = .ok result) :
    handleOrderAcceptance env w r req =
      if result ≠ 1 then
        { w with
          counters := kvSet w.counters ("order_status:" ++ req.OrderId.Hex) result
          log := w.log ++ (Event.getOrder req.OrderId ::
            Event.incr ("order_status:" ++ req.OrderId.Hex) ::
            Event.broadcastToRiders (.text "order already assigned") [r] ::
            writesTo w.riderClients (.text "order already assigned") [r]) }
      else
        acceptPersist env
          { w with
            counters := kvSet w.counters ("order_status:" ++ req.OrderId.Hex) 1
            log := w.log ++ [Event.getOrder req.OrderId,
              Event.incr ("order_status:" ++ req.OrderId.Hex)] } r req order := by
  obtain ⟨hg, -⟩ := GetOrder_ok hfetch
  have hi := (Incr_ok hincr (w.emit (.getOrder req.OrderId))
    (by rw [GetOrder_counters]; rfl)).1
  rw [GetOrder_counters] at hi
  unfold handleOrderAcceptance
  simp only [ObjectID.IsZero, beq_iff_eq, hid, if_false, hg, hstatus, hconn, hi,
    Bool.false_eq_true]
  by_cases hr : result = 1
  · subst hr
    simp [acceptPersist, World.emit]
  · simp [hr, BroadcastToRiders_eq, World.emit]

/-- The run of `handleOrderAcceptance` on an order fetched as RIDER_ASSIGNED. -/
theorem handleOrderAcceptance_assigned {env : Env} {w : World} {r : ObjectID}
    {req : AcceptOrderId} {order : Order}
    (hid : req.OrderId ≠ 0)
    (hfetch : (OrderMongo.GetOrder env w req.OrderId).2 = .ok order)
    (hstatus : order.Status = "RIDER_ASSIGNED") :
    handleOrderAcceptance env w r req =
      { w with
        log := w.log ++ (Event.getOrder req.OrderId ::
          Event.broadcastToRiders (.text "order already assigned") [r] ::
          writesTo w.riderClients (.text "order already assigned") [r]) } := by
  obtain ⟨hg, -⟩ := GetOrder_ok hfetch
  unfold handleOrderAcceptance
  simp [ObjectID.IsZero, hid, hg, hstatus, BroadcastToRiders_eq, World.emit]

theorem handleOrderAcceptance_zero {env : Env} {w : World} {r : ObjectID}
    {req : AcceptOrderId} (hid : req.OrderId = 0) :
    handleOrderAcceptance env w r req = w := by
  simp [handleOrderAcceptance, ObjectID.IsZero, hid]

theorem handleOrderAcceptance_fetchErr {env : Env} {w : World} {r : ObjectID}
    {req : AcceptOrderId} {e : Error}
    (hid : req.OrderId ≠ 0)
    (hfetch : (OrderMongo.GetOrder env w req.OrderId).2 = .error e) :
    handleOrderAcceptance env w r req =
      { w with
        log := w.log ++ (Event.getOrder req.OrderId ::
          Event.broadcastToRiders (.text "error assigning") [r] ::
          writesTo w.riderClients (.text "error assigning") [r]) } := by
  simp only [handleOrderAcceptance]
  rw [GetOrder_eq, hfetch]
  simp [ObjectID.IsZero, hid, BroadcastToRiders_eq, World.emit]

theorem handleOrderAcceptance_connNil {env : Env} {w : World} {r : ObjectID}
    {req : AcceptOrderId} {order : Order}
    (hid : req.OrderId ≠ 0)
    (hfetch : (OrderMongo.GetOrder env w req.OrderId).2 = .ok order)
    (hstatus : order.Status ≠ "RIDER_ASSIGNED")
    (hconn : env.redisConnNil = true) :
    handleOrderAcceptance env w r req =
      { w with
        log := w.log ++ (Event.getOrder req.OrderId ::
          Event.broadcastToRiders (.text "error assigning") [r] ::
          writesTo w.riderClients (.text "error assigning") [r]) } := by
  simp only [handleOrderAcceptance]
  rw [GetOrder_eq, hfetch]
  simp [ObjectID.IsZero, hid, hstatus, hconn, BroadcastToRiders_eq, World.emit]

theorem handleOrderAcceptance_incrErr {env : Env} {w : World} {r : ObjectID}
    {req : AcceptOrderId} {order : Order} {e : Error}
    (hid : req.OrderId ≠ 0)
    (hfetch : (OrderMongo.GetOrder env w req.OrderId).2 = .ok order)
    (hstatus : order.Status ≠ "RIDER_ASSIGNED")
    (hconn : env.redisConnNil = false)
    (hincr : (Redis.Incr env (OrderMongo.GetOrder env w req.OrderId).1
      ("order_status:" ++ req.OrderId.Hex)).2 = .error e) :
    handleOrderAcceptance env w r req =
      { w with
        log := w.log ++ (Event.getOrder req.OrderId ::
          Event.incr ("order_status:" ++ req.OrderId.Hex) ::
          Event.broadcastToRiders (.text "error assigning") [r] ::
          writesTo w.riderClients (.text "error assigning") [r]) } := by
  have hi := Incr_err hincr
  rw [GetOrder_fst] at hi
  simp only [handleOrderAcceptance]
  rw [GetOrder_eq, hfetch]
  simp only [ObjectID.IsZero, beq_iff_eq, hid, if_false, hstatus, hconn, hi, Bool.false_eq_true]
  simp [BroadcastToRiders_eq, World.emit]

/-- The calls of a winning run of `handleOrderAcceptance`. -/
theorem handleOrderAcceptance_won_calls {env : Env} {w : World} {r : ObjectID}
    {req : AcceptOrderId} {order : Order}
    (hid : req.OrderId ≠ 0)
    (hfetch : (OrderMongo.GetOrder env w req.OrderId).2 = .ok order)
    (hstatus : order.Status ≠ "RIDER_ASSIGNED")
    (hconn : env.redisConnNil = false)
    (hincr : (Redis.Incr env (OrderMongo.GetOrder env w req.OrderId).1
      ("order_status:" ++ req.OrderId.Hex)).2 = .ok 1) :
    callsSince w (handleOrderAcceptance env w r req) =
      Event.getOrder req.OrderId :: Event.incr ("order_status:" ++ req.OrderId.Hex) ::
        (candidateCalls env w req.OrderId order ++
          (Event.broadcastToRiders (.text "Order accepted") [r] ::
            writesTo w.riderClients (.text "Order accepted") [r] ++
          (Event.updateOrder (assignRider env order r req) ::
            match updateError env w.orders (assignRider env order r req) with
            | some _ => []
            | none =>
              Event.broadcastToUsers
                  (.newLocationInfo "in between" req.Latitude req.Longitude) [r] ::
                writesTo w.userClients
                  (.newLocationInfo "in between" req.Latitude req.Longitude) [r])))
      ∧ (handleOrderAcceptance env w r req).orders
          = updatedDocs env w.orders (assignRider env order r req) := by
  rw [handleOrderAcceptance_incr hid hfetch hstatus hconn hincr, acceptPersist_eq]
  simp [callsSince, candidateCalls, World.members, World.expired]

theorem sentCount_append (a b : List Event) (m : String) (r : ObjectID) :
    sentCount (a ++ b) m r = sentCount a m r + sentCount b m r := by
  simp [sentCount]

theorem sentCount_writesTo (c : List (String × Conn)) (msg : Message) (ids : List ObjectID)
    (m : String) (r : ObjectID) : sentCount (writesTo c msg ids) m r = 0 := by
  unfold sentCount writesTo
  rw [List.count_eq_zero]
  intro h
  simp only [List.mem_filterMap, Option.map_eq_some'] at h
  obtain ⟨_, _, _, _, h⟩ := h
  cases h

theorem sentCount_cons (e : Event) (l : List Event) (m : String) (r : ObjectID) :
    sentCount (e :: l) m r
      = (if e = .broadcastToRiders (.text m) [r] then 1 else 0) + sentCount l m r := by
  unfold sentCount
  rw [List.count_cons]
  by_cases h : e = .broadcastToRiders (.text m) [r]
  · simp [h]; omega
  · simp [h]

theorem sentCount_candidateCalls (env : Env) (w : World) (id : ObjectID) (o : Order)
    (m : String) (r : ObjectID) : sentCount (candidateCalls env w id o) m r = 0 := by
  unfold candidateCalls
  cases env.sMembersErr with
  | some e => simp [sentCount_cons, sentCount]
  | none => simp [sentCount_cons, sentCount_writesTo]

theorem sentCount_nil (m : String) (r : ObjectID) : sentCount [] m r = 0 := rfl

/-- The sends of a run of `handleOrderAcceptance` that is not a winning run
contain no "Order accepted". -/
theorem ack_only_when_won (env : Env) (w : World) (r : ObjectID) (req : AcceptOrderId)
    (h : 0 < sentCount (callsSince w (handleOrderAcceptance env w r req)) "Order accepted" r) :
    ∃ order, req.OrderId ≠ 0
      ∧ (OrderMongo.GetOrder env w req.OrderId).2 = .ok order
      ∧ order.Status ≠ "RIDER_ASSIGNED"
      ∧ env.redisConnNil = false
      ∧ (Redis.Incr env (OrderMongo.GetOrder env w req.OrderId).1
          ("order_status:" ++ req.OrderId.Hex)).2 = .ok 1 := by
  by_cases hid : req.OrderId = 0
  · rw [handleOrderAcceptance_zero hid, callsSince_self] at h
    simp [sentCount_nil] at h
  cases hfetch : (OrderMongo.GetOrder env w req.OrderId).2 with
  | error e =>
    rw [handleOrderAcceptance_fetchErr hid hfetch] at h
    simp [callsSince, sentCount_cons, sentCount_writesTo] at h
  | ok order =>
    by_cases hstatus : order.Status = "RIDER_ASSIGNED"
    · rw [handleOrderAcceptance_assigned hid hfetch hstatus] at h
      simp [callsSince, sentCount_cons, sentCount_writesTo] at h
    cases hconn : env.redisConnNil with
    | true =>
      rw [handleOrderAcceptance_connNil hid hfetch hstatus hconn] at h
      simp [callsSince, sentCount_cons, sentCount_writesTo] at h
    | false =>
      cases hincr : (Redis.Incr env (OrderMongo.GetOrder env w req.OrderId).1
          ("order_status:" ++ req.OrderId.Hex)).2 with
      | error e =>
        rw [handleOrderAcceptance_incrErr hid hfetch hstatus hconn hincr] at h
        simp [callsSince, sentCount_cons, sentCount_writesTo] at h
      | ok result =>
        by_cases hr : result = 1
        · subst hr
          exact ⟨order, hid, rfl, hstatus, rfl, rfl⟩
        · rw [handleOrderAcceptance_incr hid hfetch hstatus hconn hincr] at h
          simp [hr, callsSince, sentCount_cons, sentCount_writesTo] at h

theorem findOrder_updatedDocs {env : Env} {orders : List Order} {id : ObjectID}
    {order new : Order} (herr : env.updateOrderErr = none)
    (hf : findOrder orders id = some order) (hid : new.Id = order.Id) :
    findOrder (updatedDocs env orders new) id = some new := by
  unfold updatedDocs
  rw [herr]
  simp only
  rw [findOrder_map_replace, hf]
  simp [hid]

theorem GetRestaurant_fst (env : Env) (w : World) (id : ObjectID) :
    (RestaurantMongo.GetRestaurant env w id).1 = w.emit (.getRestaurant id) := by
  unfold RestaurantMongo.GetRestaurant
  cases env.findRestaurantErr with
  | some e => rfl
  | none =>
    simp only
    cases (w.emit (.getRestaurant id)).restaurants.find? (fun r => r.Id == id) <;> rfl

theorem GetRestaurant_eq (env : Env) (w : World) (id : ObjectID) :
    RestaurantMongo.GetRestaurant env w id
      = (w.emit (.getRestaurant id), (RestaurantMongo.GetRestaurant env w id).2) := by
  rw [← GetRestaurant_fst env w id]

theorem GetRestaurant_found {env : Env} {w : World} {id : ObjectID} {rest : Restaurant}
    (h : (RestaurantMongo.GetRestaurant env w id).2 = .ok rest) :
    w.restaurants.find? (fun r => r.Id == id) = some rest := by
  unfold RestaurantMongo.GetRestaurant at h
  cases he : env.findRestaurantErr with
  | some e => simp [he] at h
  | none =>
    simp only [he, World.emit] at h
    cases hf : w.restaurants.find? (fun r => r.Id == id) with
    | none => simp [hf] at h
    | some o =>
      simp only [hf, Except.ok.injEq] at h
      rw [h]

theorem GetRestaurant_congr (env : Env) (w w1 : World) (id : ObjectID)
    (h : w1.restaurants = w.restaurants) :
    (RestaurantMongo.GetRestaurant env w1 id).2 = (RestaurantMongo.GetRestaurant env w id).2 := by
  unfold RestaurantMongo.GetRestaurant
  cases env.findRestaurantErr with
  | some e => rfl
  | none =>
    simp only [World.emit, h]
    cases w.restaurants.find? (fun r => r.Id == id) <;> rfl

theorem lookup_filter_same {α : Type} (m : List (String × α)) (k : String) :
    (m.filter (fun p => p.1 != k)).lookup k = none := by
  induction m with
  | nil => rfl
  | cons p m ih =>
    obtain ⟨a, b⟩ := p
    by_cases ha : a = k
    · subst ha
      simp [List.filter_cons, ih]
    · have h1 : (a != k) = true := by simpa using ha
      have h2 : (k == a) = false := by simpa using fun h : k = a => ha h.symm
      simp [List.filter_cons, h1, List.lookup_cons, h2, ih]

/-- A member the store holds is in the stored list. -/
theorem members_subset {w : World} {now : Time} {key x : String}
    (h : x ∈ w.members now key) : x ∈ (w.sets.lookup key).getD [] := by
  unfold World.members at h
  split_ifs at h
  · simp at h
  · exact h

theorem members_of_no_expiry {w : World} (now : Time) {key : String}
    (h : w.expiry.lookup key = none) : w.members now key = (w.sets.lookup key).getD [] := by
  simp [World.members, World.expired, h]

theorem SAdd_snd (env : Env) (w : World) (key member : String) :
    (Redis.SAdd env w key member).2 = env.sAddErr key member := by
  unfold Redis.SAdd
  cases env.sAddErr key member <;> rfl

theorem SAdd_frame (env : Env) (w : World) (key member : String) :
    (Redis.SAdd env w key member).1 =
      { w with
        sets := (Redis.SAdd env w key member).1.sets
        expiry := (Redis.SAdd env w key member).1.expiry
        log := w.log ++ [Event.sAdd key member] } := by
  unfold Redis.SAdd
  cases env.sAddErr key member <;> rfl

theorem SAdd_members_err {env : Env} (w : World) {key member : String} {e : Error}
    (h : env.sAddErr key member = some e) :
    (Redis.SAdd env w key member).1.members env.now key = w.members env.now key := by
  unfold Redis.SAdd
  simp [h, World.emit, World.members, World.expired]

theorem expired_purged (ex : List (String × Time)) (now : Time) (key : String) :
    (match (if (match ex.lookup key with
          | some deadline => decide (deadline ≤ now)
          | none => false) = true
        then ex.filter (fun p => p.1 != key) else ex).lookup key with
      | some deadline => decide (deadline ≤ now)
      | none => false) = false := by
  by_cases hc : (match ex.lookup key with
      | some deadline => decide (deadline ≤ now)
      | none => false) = true
  · rw [if_pos hc, lookup_filter_same]
  · rw [if_neg hc]
    simpa using hc

/-- The members after a successful `SADD`. -/
theorem SAdd_members_ok {env : Env} (w : World) {key member : String}
    (h : env.sAddErr key member = none) :
    (Redis.SAdd env w key member).1.members env.now key =
      if member ∈ w.members env.now key then w.members env.now key
      else w.members env.now key ++ [member] := by
  unfold Redis.SAdd
  simp only [h]
  show (if (match (if (match w.expiry.lookup key with
            | some deadline => decide (deadline ≤ env.now)
            | none => false) = true
          then w.expiry.filter (fun p => p.1 != key) else w.expiry).lookup key with
        | some deadline => decide (deadline ≤ env.now)
        | none => false) = true then []
      else ((kvSet w.sets key (if member ∈ w.members env.now key then w.members env.now key
        else w.members env.now key ++ [member])).lookup key).getD []) = _
  rw [expired_purged, kvSet_lookup]
  simp

theorem SAdd_expiry_none (env : Env) (w : World) {key : String} (member : String)
    (h : w.expiry.lookup key = none) :
    (Redis.SAdd env w key member).1.expiry.lookup key = none := by
  unfold Redis.SAdd
  cases env.sAddErr key member with
  | some e => exact h
  | none => simp [World.emit, World.expired, h]

/-- What the loop of `SADD`s does: it only appends `SADD` calls to the log and
changes the sets and their expiries; members the store holds are not removed;
when it succeeds every id is a member. -/
theorem sAddAll_spec (env : Env) (key : String) (ids : List ObjectID) (w : World) :
    ∃ l, (sAddAll env key w ids).1 =
        { w with
          sets := (sAddAll env key w ids).1.sets
          expiry := (sAddAll env key w ids).1.expiry
          log := w.log ++ l }
      ∧ (∀ e ∈ l, ∃ m, e = Event.sAdd key m)
      ∧ (∀ x ∈ w.members env.now key, x ∈ (sAddAll env key w ids).1.members env.now key)
      ∧ ((sAddAll env key w ids).2 = none →
          ∀ id ∈ ids, id.Hex ∈ (sAddAll env key w ids).1.members env.now key) := by
  induction ids generalizing w with
  | nil => exact ⟨[], by simp [sAddAll], by simp, by simp [sAddAll], by simp⟩
  | cons id ids ih =>
    have hfr := SAdd_frame env w key id.Hex
    have hsnd := SAdd_snd env w key id.Hex
    unfold sAddAll
    cases hS : Redis.SAdd env w key id.Hex with
    | mk w1 r =>
      rw [hS] at hfr hsnd
      simp only at hfr hsnd
      cases r with
      | some e =>
        have hm := SAdd_members_err w hsnd.symm
        rw [hS] at hm
        refine ⟨[.sAdd key id.Hex], hfr, by simp, ?_, by simp⟩
        intro x hx
        simpa [hm] using hx
      | none =>
        have hm := SAdd_members_ok w hsnd.symm
        rw [hS] at hm
        simp only at hm ⊢
        obtain ⟨l, h1, h2, h3, h4⟩ := ih w1
        have hmem : id.Hex ∈ w1.members env.now key := by
          rw [hm]; split_ifs with h <;> simp [h]
        have hsub : ∀ x ∈ w.members env.now key, x ∈ w1.members env.now key := by
          intro x hx; rw [hm]; split_ifs <;> simp [hx]
        refine ⟨.sAdd key id.Hex :: l, ?_, ?_, ?_, ?_⟩
        · rw [h1, hfr]; simp
        · intro e he'
          rcases List.mem_cons.mp he' with rfl | h
          · exact ⟨_, rfl⟩
          · exact h2 e h
        · intro x hx; exact h3 x (hsub x hx)
        · intro hn j hj
          rcases List.mem_cons.mp hj with rfl | h
          · exact h3 _ hmem
          · exact h4 hn j h

/-- The method `AcceptOrder`, path by path. -/
theorem AcceptOrder_eq (env : Env) (w : World) (oa : AcceptPendingRestaurantOrder) :
    AcceptOrder env w oa =
      match (OrderMongo.GetOrder env w oa.Id).2 with
      | .error e => ({ w with log := w.log ++ [Event.getOrder oa.Id] }, some e)
      | .ok order =>
        match (RestaurantMongo.GetRestaurant env w oa.RestaurantId).2 with
        | .error e =>
          ({ w with log := w.log ++ [Event.getOrder oa.Id, Event.getRestaurant oa.RestaurantId] },
            some e)
        | .ok restaurant =>
          if order.Status = "ACCEPTED" then
            ({ w with
                log := w.log ++ [Event.getOrder oa.Id, Event.getRestaurant oa.RestaurantId] },
              some (.new "order is already accepted"))
          else
            match updateError env w.orders
                { order with Status := "ACCEPTED", AcceptedAt := env.now } with
            | some e =>
              ({ w with
                  orders := updatedDocs env w.orders
                    { order with Status := "ACCEPTED", AcceptedAt := env.now }
                  log := w.log ++ [Event.getOrder oa.Id, Event.getRestaurant oa.RestaurantId,
                    Event.updateOrder { order with Status := "ACCEPTED", AcceptedAt := env.now }] },
                some e)
            | none =>
              match sAddAll env ("rider_broadcasted:" ++ order.Id.Hex)
                  (acceptedWorld env w oa order restaurant)
                  ((env.searchRider (riderQuery restaurant)).1.map (fun rider => rider.Id)) with
              | (w4, some e) => (w4, some e)
              | (w4, none) =>
                ((Redis.Expire env w4 ("rider_broadcasted:" ++ order.Id.Hex) (30 * Minute)).1,
                  none) := by
  simp only [AcceptOrder]
  rw [GetOrder_eq]
  cases (OrderMongo.GetOrder env w oa.Id).2 with
  | error e => simp [World.emit]
  | ok order =>
    simp only
    rw [GetRestaurant_eq, GetRestaurant_congr env w (w.emit (.getOrder oa.Id)) oa.RestaurantId rfl]
    cases (RestaurantMongo.GetRestaurant env w oa.RestaurantId).2 with
    | error e => simp [World.emit]
    | ok restaurant =>
      simp only
      by_cases hst : order.Status = "ACCEPTED"
      · simp [hst, World.emit]
      · simp only [hst, if_false, UpdateOrder_eq, World.emit]
        cases updateError env w.orders
            { order with Status := "ACCEPTED", AcceptedAt := env.now } with
        | some e => simp
        | none =>
          simp only [SearchRider, BroadcastToRiders_eq, World.emit, acceptedWorld, riderQuery,
            List.append_assoc, List.singleton_append, List.cons_append, List.nil_append]

theorem Expire_eq (env : Env) (w : World) (key : String) (ttl : Duration) :
    (Redis.Expire env w key ttl).1 =
      { w with
        expiry := (Redis.Expire env w key ttl).1.expiry
        log := w.log ++ [Event.expire key ttl] } := by
  unfold Redis.Expire
  simp only [World.emit]
  cases env.expireErr with
  | some e => rfl
  | none =>
    simp only
    split_ifs
    · rfl
    · cases w.sets.lookup key <;> rfl

theorem riderSearches_writesTo (c : List (String × Conn)) (m : Message)
    (ids : List ObjectID) : riderSearches (writesTo c m ids) = [] :=
  filterMap_writesTo _ (fun _ _ => rfl) c m ids

theorem riderSearches_nil : riderSearches [] = [] := rfl

theorem orderBroadcasts_nil (t : String) : orderBroadcasts [] t = [] := rfl

theorem riderSearches_append (a b : List Event) :
    riderSearches (a ++ b) = riderSearches a ++ riderSearches b := by
  simp [riderSearches]

theorem riderSearches_cons (e : Event) (l : List Event) :
    riderSearches (e :: l) = (asSearchRider e).toList ++ riderSearches l := by
  unfold riderSearches
  rw [List.filterMap_cons]
  cases asSearchRider e <;> rfl

theorem filterMap_sAdds {α : Type} (f : Event → Option α) (key : String)
    (hf : ∀ m, f (.sAdd key m) = none) (l : List Event)
    (hl : ∀ e ∈ l, ∃ m, e = Event.sAdd key m) : l.filterMap f = [] := by
  rw [List.filterMap_eq_nil_iff]
  intro e he
  obtain ⟨m, rfl⟩ := hl e he
  exact hf m

theorem hexVal_hexDigit : ∀ d < 16, hexVal (hexDigit d) = some d := by
  decide

theorem hexValue_append (l : List Char) (c : Char) (acc : Nat) :
    hexValue acc (l ++ [c])
      = (hexValue acc l).bind (fun a => (hexVal c).map (fun d => 16 * a + d)) := by
  induction l generalizing acc with
  | nil =>
    simp only [List.nil_append, hexValue]
    cases hexVal c <;> rfl
  | cons x xs ih =>
    simp only [List.cons_append, hexValue]
    cases hexVal x with
    | none => rfl
    | some d => exact ih _

theorem hexValue_hexDigits (len n acc : Nat) :
    hexValue acc (hexDigits len n) = some (acc * 16 ^ len + n % 16 ^ len) := by
  induction len generalizing n with
  | zero => simp [hexDigits, hexValue, Nat.mod_one]
  | succ len ih =>
    rw [hexDigits, hexValue_append, ih, Option.some_bind,
      hexVal_hexDigit _ (Nat.mod_lt _ (by norm_num)), Option.map_some']
    congr 1
    have hmod : n % 16 ^ (len + 1) = n % 16 + 16 * (n / 16 % 16 ^ len) := by
      rw [pow_succ', Nat.mod_mul]
    rw [hmod]
    ring

theorem hexDigits_length (len n : Nat) : (hexDigits len n).length = len := by
  induction len generalizing n with
  | zero => rfl
  | succ len ih => simp [hexDigits, ih]

/-- Reading back the hexadecimal form of an id gives the id. -/
theorem ObjectIDFromHex_Hex (id : ObjectID) (h : id < 2 ^ 96) :
    ObjectIDFromHex id.Hex = some id := by
  unfold ObjectIDFromHex ObjectID.Hex
  simp only [hexDigits_length, ne_eq, not_true_eq_false, if_false, hexValue_hexDigits]
  have h16 : (16 : Nat) ^ 24 = 2 ^ 96 := by norm_num
  rw [h16, Nat.mod_mod, Nat.mod_eq_of_lt h]
  simp

theorem orderBroadcasts_candidateCalls (env : Env) (w : World) (id : ObjectID) (o : Order) :
    orderBroadcasts (candidateCalls env w id o) "Already picked order" =
      match env.sMembersErr with
      | some _ => []
      | none =>
        [(w.members env.now ("rider_broadcasted:" ++ id.Hex)).filterMap ObjectIDFromHex] := by
  unfold candidateCalls
  cases env.sMembersErr with
  | some e => rfl
  | none =>
    simp [orderBroadcasts_cons, orderBroadcasts_writesTo, asOrderBroadcast]

/-! ## Concurrent acceptance -/

theorem acceptFetch_found {env : Env} {w : World} {r : ObjectID} {req : AcceptOrderId}
    {order : Order} (hid : req.OrderId ≠ 0) (herr : env.findOrderErr = none)
    (hf : findOrder w.orders req.OrderId = some order) :
    acceptFetch env w r req =
      if order.Status = "RIDER_ASSIGNED" then
        ({ w with
            log := w.log ++ (Event.getOrder req.OrderId ::
              Event.broadcastToRiders (.text "order already assigned") [r] ::
              writesTo w.riderClients (.text "order already assigned") [r]) }, .done)
      else ({ w with log := w.log ++ [Event.getOrder req.OrderId] }, .fetched order) := by
  have hg : OrderMongo.GetOrder env w req.OrderId = (w.emit (.getOrder req.OrderId), .ok order) := by
    unfold OrderMongo.GetOrder
    simp only [herr]
    have : findOrder (w.emit (.getOrder req.OrderId)).orders req.OrderId = some order := hf
    rw [this]
  unfold acceptFetch
  simp only [ObjectID.IsZero, beq_iff_eq, hid, if_false, hg]
  by_cases hs : order.Status = "RIDER_ASSIGNED"
  · simp [hs, BroadcastToRiders_eq, World.emit]
  · simp [hs, World.emit]

theorem acceptIncr_ok {env : Env} {w : World} {r : ObjectID} {req : AcceptOrderId}
    {order : Order} (hconn : env.redisConnNil = false) (herr : env.incrErr = none) :
    acceptIncr env w r req order =
      if tokenOf w req.OrderId + 1 ≠ 1 then
        ({ w with
            counters := kvSet w.counters ("order_status:" ++ req.OrderId.Hex)
              (tokenOf w req.OrderId + 1)
            log := w.log ++ (Event.incr ("order_status:" ++ req.OrderId.Hex) ::
              Event.broadcastToRiders (.text "order already assigned") [r] ::
              writesTo w.riderClients (.text "order already assigned") [r]) }, .done)
      else
        ({ w with
            counters := kvSet w.counters ("order_status:" ++ req.OrderId.Hex) 1
            log := w.log ++ [Event.incr ("order_status:" ++ req.OrderId.Hex)] }, .won order) := by
  unfold acceptIncr Redis.Incr tokenOf
  simp only [hconn, herr, Bool.false_eq_true, if_false, World.emit]
  by_cases hv : (w.counters.lookup ("order_status:" ++ req.OrderId.Hex)).getD 0 + 1 = 1
  · simp [hv]
  · simp [hv, BroadcastToRiders_eq]

theorem pcInv_append {wo : Option ObjectID} {l l1 : List Event} {r : ObjectID} {pc : AcceptPc}
    (h : pcInv wo l r pc)
    (h1 : sentCount l1 "Order accepted" r = 0)
    (h2 : sentCount l1 "order already assigned" r = 0) :
    pcInv wo (l ++ l1) r pc := by
  cases pc <;> simpa [pcInv, sentCount_append, h1, h2] using h

theorem tokenOf_kvSet (w : World) (orderId : ObjectID) (v : Int) (w1 : World)
    (h : w1.counters = kvSet w.counters ("order_status:" ++ orderId.Hex) v) :
    tokenOf w1 orderId = v := by
  simp [tokenOf, h, kvSet_lookup]

theorem sentCount_other {r r1 : ObjectID} (h : r1 ≠ r) (m m1 : String) (l : List Event) :
    sentCount (Event.broadcastToRiders (.text m1) [r] :: l) m r1 = sentCount l m r1 := by
  rw [sentCount_cons]
  have : ¬ (Event.broadcastToRiders (.text m1) [r] = Event.broadcastToRiders (.text m) [r1]) := by
    intro hc
    injection hc with _ h2
    exact h (List.head_eq_of_cons_eq h2).symm
  simp [this]

theorem acceptPersist_log (env : Env) (w : World) (r : ObjectID) (req : AcceptOrderId)
    (order : Order) :
    acceptPersist env w r req order =
      { w with
        orders := updatedDocs env w.orders (assignRider env order r req)
        log := w.log ++ persistCalls env w r req order } := by
  rw [acceptPersist_eq]; rfl

theorem sentCount_persistCalls_acc (env : Env) (w : World) (r r1 : ObjectID)
    (req : AcceptOrderId) (order : Order) :
    sentCount (persistCalls env w r req order) "Order accepted" r1
      = if r1 = r then 1 else 0 := by
  unfold persistCalls
  by_cases h1 : r1 = r
  · subst h1
    cases updateError env w.orders (assignRider env order r1 req) <;>
      simp [sentCount_append, sentCount_cons, sentCount_writesTo,
        sentCount_candidateCalls, sentCount_nil]
  · cases updateError env w.orders (assignRider env order r req) <;>
      simp [sentCount_append, sentCount_cons, sentCount_other h1, sentCount_writesTo,
        sentCount_candidateCalls, sentCount_nil, h1]

theorem sentCount_persistCalls_asg (env : Env) (w : World) (r r1 : ObjectID)
    (req : AcceptOrderId) (order : Order) :
    sentCount (persistCalls env w r req order) "order already assigned" r1 = 0 := by
  unfold persistCalls
  cases updateError env w.orders (assignRider env order r req) <;>
    simp [sentCount_append, sentCount_cons, sentCount_writesTo,
      sentCount_candidateCalls, sentCount_nil]

theorem AcceptInv_step {env : ObjectID → Env} {req : ObjectID → AcceptOrderId} {w0 : World}
    {orderId : ObjectID} {riders : List ObjectID} {s : AcceptSys} {wo : Option ObjectID}
    {l : List Event} {r : ObjectID}
    (hinv : AcceptInv w0 orderId riders s wo l)
    (hr : r ∈ riders) (hreq : (req r).OrderId = orderId) (hid : orderId ≠ 0)
    (hfo : (env r).findOrderErr = none) (hconn : (env r).redisConnNil = false)
    (hincr : (env r).incrErr = none) :
    ∃ wo1 l1, AcceptInv w0 orderId riders (AcceptSys.step env req s r) wo1 l1 := by
  obtain ⟨o, hfind, hassigned⟩ := hinv.ord
  have hpc := hinv.pcs r
  have hid1 : (req r).OrderId ≠ 0 := hreq ▸ hid
  have hfind1 : findOrder s.world.orders (req r).OrderId = some o := hreq ▸ hfind
  unfold AcceptSys.step
  cases hp : s.pc r with
  | start =>
    rw [hp] at hpc
    obtain ⟨hacc, hasg, hwo⟩ := hpc
    simp only
    rw [acceptFetch_found hid1 hfo hfind1]
    by_cases hs : o.Status = "RIDER_ASSIGNED"
    · simp only [hs, if_true]
      refine ⟨wo, l ++ (Event.getOrder (req r).OrderId ::
        Event.broadcastToRiders (.text "order already assigned") [r] ::
        writesTo s.world.riderClients (.text "order already assigned") [r]), ?_⟩
      refine ⟨by simp [hinv.log], hinv.tok0, hinv.tok1, hinv.mem, ⟨o, hfind, hassigned⟩, ?_⟩
      intro r1
      by_cases h1 : r1 = r
      · subst h1
        simp only [Function.update_same, pcInv]
        right
        refine ⟨hwo, hassigned hs, ?_, ?_⟩
        · simp [sentCount_append, hacc, sentCount_cons, sentCount_writesTo]
        · simp [sentCount_append, hasg, sentCount_cons, sentCount_writesTo]
      · simp only [Function.update_noteq h1]
        apply pcInv_append (hinv.pcs r1)
        · simp [sentCount_cons, sentCount_other h1, sentCount_writesTo]
        · simp [sentCount_cons, sentCount_other h1, sentCount_writesTo]
    · simp only [hs, if_false]
      refine ⟨wo, l ++ [Event.getOrder (req r).OrderId], ?_⟩
      refine ⟨by simp [hinv.log], hinv.tok0, hinv.tok1, hinv.mem, ⟨o, hfind, hassigned⟩, ?_⟩
      intro r1
      by_cases h1 : r1 = r
      · subst h1
        simp only [Function.update_same, pcInv]
        exact ⟨by simp [sentCount_append, hacc, sentCount_cons, sentCount_nil],
          by simp [sentCount_append, hasg, sentCount_cons, sentCount_nil], hwo⟩
      · simp only [Function.update_noteq h1]
        apply pcInv_append (hinv.pcs r1) <;> simp [sentCount_cons, sentCount_nil]
  | fetched order =>
    rw [hp] at hpc
    obtain ⟨hacc, hasg, hwo⟩ := hpc
    simp only
    rw [acceptIncr_ok hconn hincr, hreq]
    by_cases hv : tokenOf s.world orderId + 1 = 1
    · have htok : tokenOf s.world orderId = 0 := by omega
      have hnone : wo = none := by
        by_contra hne
        have := hinv.tok1 hne
        omega
      simp only [hv, ne_eq, not_true_eq_false, if_false]
      refine ⟨some r, l ++ [Event.incr ("order_status:" ++ orderId.Hex)], ?_⟩
      refine ⟨by simp [hinv.log], by simp, ?_, ?_, ⟨o, hfind, by simp⟩, ?_⟩
      · intro _
        rw [tokenOf_kvSet s.world orderId 1 _ rfl]
      · intro x hx
        rw [Option.some.inj hx] at hr
        exact hr
      · intro r1
        by_cases h1 : r1 = r
        · subst h1
          simp only [Function.update_same, pcInv]
          exact ⟨trivial, by simp [sentCount_append, hacc, sentCount_cons, sentCount_nil],
            by simp [sentCount_append, hasg, sentCount_cons, sentCount_nil]⟩
        · simp only [Function.update_noteq h1]
          have hp1 := hinv.pcs r1
          subst hnone
          cases hq : s.pc r1 with
          | start =>
            rw [hq] at hp1
            simp only [pcInv] at hp1 ⊢
            refine ⟨?_, ?_, fun hc => h1 (Option.some.inj hc).symm⟩
            · simp [sentCount_append, hp1.1, sentCount_cons, sentCount_nil]
            · simp [sentCount_append, hp1.2.1, sentCount_cons, sentCount_nil]
          | fetched o1 =>
            rw [hq] at hp1
            simp only [pcInv] at hp1 ⊢
            refine ⟨?_, ?_, fun hc => h1 (Option.some.inj hc).symm⟩
            · simp [sentCount_append, hp1.1, sentCount_cons, sentCount_nil]
            · simp [sentCount_append, hp1.2.1, sentCount_cons, sentCount_nil]
          | won o1 =>
            rw [hq] at hp1
            simp [pcInv] at hp1
          | done =>
            rw [hq] at hp1
            simp [pcInv] at hp1
    · have hne : wo ≠ none := by
        intro hc
        have := hinv.tok0 hc
        omega
      simp only [hv, ne_eq, not_false_eq_true, if_true]
      refine ⟨wo, l ++ (Event.incr ("order_status:" ++ orderId.Hex) ::
        Event.broadcastToRiders (.text "order already assigned") [r] ::
        writesTo s.world.riderClients (.text "order already assigned") [r]), ?_⟩
      refine ⟨by simp [hinv.log], fun hc => absurd hc hne, ?_, hinv.mem,
        ⟨o, hfind, hassigned⟩, ?_⟩
      · intro _
        rw [tokenOf_kvSet s.world orderId _ _ rfl]
        have := hinv.tok1 hne
        omega
      · intro r1
        by_cases h1 : r1 = r
        · subst h1
          simp only [Function.update_same, pcInv]
          right
          refine ⟨hwo, hne, ?_, ?_⟩
          · simp [sentCount_append, hacc, sentCount_cons, sentCount_writesTo]
          · simp [sentCount_append, hasg, sentCount_cons, sentCount_writesTo]
        · simp only [Function.update_noteq h1]
          apply pcInv_append (hinv.pcs r1)
          · simp [sentCount_cons, sentCount_other h1, sentCount_writesTo]
          · simp [sentCount_cons, sentCount_other h1, sentCount_writesTo]
  | won order =>
    rw [hp] at hpc
    obtain ⟨hwo, hacc, hasg⟩ := hpc
    simp only
    rw [acceptPersist_log]
    refine ⟨wo, l ++ persistCalls (env r) s.world r (req r) order, ?_⟩
    refine ⟨by simp only [hinv.log, List.append_assoc], hinv.tok0, hinv.tok1, hinv.mem, ?_, ?_⟩
    · simp only
      unfold updatedDocs
      cases (env r).updateOrderErr with
      | some e => exact ⟨o, hfind, hassigned⟩
      | none =>
        simp only
        rw [findOrder_map_replace, hfind]
        exact ⟨_, rfl, fun _ => by simp [hwo]⟩
    · intro r1
      by_cases h1 : r1 = r
      · subst h1
        simp only [Function.update_same, pcInv]
        left
        exact ⟨hwo, by simp [sentCount_append, hacc, sentCount_persistCalls_acc],
          by simp [sentCount_append, hasg, sentCount_persistCalls_asg]⟩
      · simp only [Function.update_noteq h1]
        apply pcInv_append (hinv.pcs r1)
        · simp [sentCount_persistCalls_acc, h1]
        · simp [sentCount_persistCalls_asg]
  | done =>
    simp only
    exact ⟨wo, l, hinv⟩

theorem acceptFetch_rank (env : Env) (w : World) (r : ObjectID) (req : AcceptOrderId) :
    1 ≤ (acceptFetch env w r req).2.rank := by
  unfold acceptFetch
  split
  · simp [AcceptPc.rank]
  · split
    · simp [AcceptPc.rank]
    · split <;> simp [AcceptPc.rank]

theorem acceptIncr_rank (env : Env) (w : World) (r : ObjectID) (req : AcceptOrderId)
    (order : Order) : 2 ≤ (acceptIncr env w r req order).2.rank := by
  unfold acceptIncr
  split
  · simp [AcceptPc.rank]
  · split
    · simp [AcceptPc.rank]
    · split <;> simp [AcceptPc.rank]

theorem AcceptPc.eq_done_of_rank {pc : AcceptPc} (h : 3 ≤ pc.rank) : pc = .done := by
  cases pc <;> simp [AcceptPc.rank] at h ⊢

/-- A step of rider `r` moves the attempt of `r` forward unless it is finished. -/
theorem step_rank_self (env : ObjectID → Env) (req : ObjectID → AcceptOrderId)
    (s : AcceptSys) (r : ObjectID) :
    min 3 ((s.pc r).rank + 1) ≤ ((AcceptSys.step env req s r).pc r).rank := by
  unfold AcceptSys.step
  cases hp : s.pc r with
  | start =>
    have := acceptFetch_rank (env r) s.world r (req r)
    have h0 : AcceptPc.start.rank = 0 := rfl
    simp only [Function.update_same, h0]
    omega
  | fetched o =>
    have := acceptIncr_rank (env r) s.world r (req r) o
    have h0 : (AcceptPc.fetched o).rank = 1 := rfl
    simp only [Function.update_same, h0]
    omega
  | won o => simp [AcceptPc.rank]
  | done => simp [hp, AcceptPc.rank]

/-- A step of rider `r` leaves the attempts of the other riders where they are. -/
theorem step_pc_other (env : ObjectID → Env) (req : ObjectID → AcceptOrderId)
    (s : AcceptSys) {r r1 : ObjectID} (h : r1 ≠ r) :
    (AcceptSys.step env req s r).pc r1 = s.pc r1 := by
  unfold AcceptSys.step
  cases s.pc r <;> simp [Function.update_noteq h]

/-- Progress: an attempt that is scheduled three times is finished. -/
theorem run_rank (env : ObjectID → Env) (req : ObjectID → AcceptOrderId) (r : ObjectID)
    (sched : List ObjectID) (s : AcceptSys) :
    min 3 ((s.pc r).rank + sched.count r) ≤ ((AcceptSys.run env req s sched).pc r).rank := by
  induction sched generalizing s with
  | nil => simp [AcceptSys.run]
  | cons x xs ih =>
    have h := ih (AcceptSys.step env req s x)
    simp only [AcceptSys.run, List.foldl_cons] at h ⊢
    by_cases hx : x = r
    · subst hx
      have hs := step_rank_self env req s x
      rw [List.count_cons_self]
      omega
    · rw [step_pc_other env req s (Ne.symm hx)] at h
      rw [List.count_cons_of_ne (Ne.symm hx)]
      exact h

theorem AcceptInv_run {env : ObjectID → Env} {req : ObjectID → AcceptOrderId} {w0 : World}
    {orderId : ObjectID} {riders : List ObjectID}
    (hid : orderId ≠ 0)
    (hreq : ∀ r ∈ riders, (req r).OrderId = orderId)
    (hcalls : ∀ r ∈ riders,
      (env r).findOrderErr = none ∧ (env r).redisConnNil = false ∧ (env r).incrErr = none)
    (sched : List ObjectID) (hsched : ∀ r ∈ sched, r ∈ riders)
    (s : AcceptSys) (wo : Option ObjectID) (l : List Event)
    (hinv : AcceptInv w0 orderId riders s wo l) :
    ∃ wo1 l1, AcceptInv w0 orderId riders (AcceptSys.run env req s sched) wo1 l1 := by
  induction sched generalizing s wo l with
  | nil => exact ⟨wo, l, hinv⟩
  | cons x xs ih =>
    have hx : x ∈ riders := hsched x (List.mem_cons_self _ _)
    obtain ⟨hfo, hconn, hincr⟩ := hcalls x hx
    obtain ⟨wo1, l1, h1⟩ := AcceptInv_step hinv hx (hreq x hx) hid hfo hconn hincr
    exact ih (fun r hr => hsched r (List.mem_cons_of_mem _ hr)) _ wo1 l1 h1

theorem AcceptInv_init {w : World} {orderId : ObjectID} {riders : List ObjectID} {order : Order}
    (horder : findOrder w.orders orderId = some order)
    (hstatus : order.Status = "ACCEPTED")
    (htoken : w.counters.lookup ("order_status:" ++ orderId.Hex) = none) :
    AcceptInv w orderId riders (AcceptSys.init w) none [] := by
  refine ⟨by simp [AcceptSys.init], ?_, by simp, by simp, ⟨order, horder, ?_⟩, ?_⟩
  · intro _
    simp [tokenOf, AcceptSys.init, htoken]
  · intro h
    rw [hstatus] at h
    exact absurd h (by decide)
  · intro r
    simp [AcceptSys.init, pcInv, sentCount_nil]

/-! ## Delivery completion and recomputation -/

theorem foldl_addDelivery (env : Env) (lat long : Float64) (l : List Order)
    (acc : Float64 × Float64) :
    l.foldl (addDelivery env lat long) acc =
      (acc.1 + (l.map (fun o => distanceBetweenPoints env lat long o.PickupLatitude
          o.PickupLongitude)).sum,
        acc.2 + (l.map (fun o => o.DeliveryTime)).sum) := by
  induction l generalizing acc with
  | nil => simp
  | cons o os ih =>
    rw [List.foldl_cons, ih]
    simp only [addDelivery, List.map_cons, List.sum_cons]
    ext <;> simp only <;> ring

theorem SearchOrder_fst (env : Env) (w : World) (q : SearchOrderQuery) :
    (OrderMongo.SearchOrder env w q).1 = w.emit (.searchOrder q) := by
  unfold OrderMongo.SearchOrder
  cases env.searchOrderErr <;> rfl

theorem SearchOrder_eq (env : Env) (w : World) (q : SearchOrderQuery) :
    OrderMongo.SearchOrder env w q = (w.emit (.searchOrder q), (OrderMongo.SearchOrder env w q).2) := by
  rw [← SearchOrder_fst env w q]

theorem SearchOrder_congr (env : Env) (w1 w : World) (q : SearchOrderQuery)
    (h : w1.orders = w.orders) :
    (OrderMongo.SearchOrder env w1 q).2 = (OrderMongo.SearchOrder env w q).2 := by
  unfold OrderMongo.SearchOrder
  cases env.searchOrderErr with
  | some e => rfl
  | none => simp only [World.emit, h]

theorem UpdateAverageDeliveryTime_frame (env : Env) (w : World) (id : ObjectID) (v : Float64) :
    (RestaurantMongo.UpdateAverageDeliveryTime env w id v).1 =
      { w with
        averageDeliveryTime :=
          (RestaurantMongo.UpdateAverageDeliveryTime env w id v).1.averageDeliveryTime
        log := w.log ++ [Event.updateAverageDeliveryTime id v] } := by
  unfold RestaurantMongo.UpdateAverageDeliveryTime
  cases env.updateRestaurantErr with
  | some e => rfl
  | none => simp only [World.emit]; split_ifs <;> rfl

/-- The function `updateDeliveryTime`, with the loop summed up. -/
theorem updateDeliveryTime_eq (env : Env) (w : World) (order : Order) :
    updateDeliveryTime env w order =
      match (OrderMongo.SearchOrder env w (deliveryQuery order)).2 with
      | .error e => ({ w with log := w.log ++ [Event.searchOrder (deliveryQuery order)] }, some e)
      | .ok (searchOrders, _) =>
        RestaurantMongo.UpdateAverageDeliveryTime env
          { w with log := w.log ++ [Event.searchOrder (deliveryQuery order)] }
          order.RestaurantId
          ((searchOrders.map (fun o => distanceBetweenPoints env order.PickupLatitude
              order.PickupLongitude o.PickupLatitude o.PickupLongitude)).sum
            / ((searchOrders.map (fun o => o.DeliveryTime)).sum + 1)) := by
  unfold updateDeliveryTime
  simp only
  rw [SearchOrder_eq]
  change (match ((w.emit (.searchOrder (deliveryQuery order)),
      (OrderMongo.SearchOrder env w (deliveryQuery order)).2) :
        World × Except Error (List Order × Int)) with
    | (w, .error e) => (w, some e)
    | (w, .ok (searchOrders, _)) => _) = _
  cases (OrderMongo.SearchOrder env w (deliveryQuery order)).2 with
  | error e => rfl
  | ok res =>
    obtain ⟨searchOrders, total⟩ := res
    simp only [foldl_addDelivery, World.emit]
    simp

/-- The function `updateDeliveryTime` changes the field it recomputes and the
log, nothing else. -/
theorem updateDeliveryTime_frame (env : Env) (w : World) (order : Order) :
    (updateDeliveryTime env w order).1 =
      { w with
        averageDeliveryTime := (updateDeliveryTime env w order).1.averageDeliveryTime
        log := w.log ++ recomputeCalls env w order } := by
  rw [updateDeliveryTime_eq]
  unfold recomputeCalls
  cases (OrderMongo.SearchOrder env w (deliveryQuery order)).2 with
  | error e => simp
  | ok res =>
    obtain ⟨searchOrders, total⟩ := res
    simp only
    rw [UpdateAverageDeliveryTime_frame]
    simp

theorem handleOrderDelivered_zero {env : Env} {w : World} {req : AcceptOrderId}
    (hid : req.OrderId = 0) : handleOrderDelivered env w req = w := by
  simp [handleOrderDelivered, ObjectID.IsZero, hid]

theorem handleOrderDelivered_fetchErr {env : Env} {w : World} {req : AcceptOrderId}
    {e : Error} (hid : req.OrderId ≠ 0)
    (hfetch : (OrderMongo.GetOrder env w req.OrderId).2 = .error e) :
    handleOrderDelivered env w req =
      { w with log := w.log ++ [Event.getOrder req.OrderId] } := by
  simp only [handleOrderDelivered]
  rw [GetOrder_eq, hfetch]
  simp [ObjectID.IsZero, hid, World.emit]

/-- The run of `handleOrderDelivered` on an order fetched as DELIVERED. -/
theorem handleOrderDelivered_delivered {env : Env} {w : World} {req : AcceptOrderId}
    {order : Order} (hid : req.OrderId ≠ 0)
    (hfetch : (OrderMongo.GetOrder env w req.OrderId).2 = .ok order)
    (hstatus : order.Status = "DELIVERED") :
    handleOrderDelivered env w req =
      { w with log := w.log ++ [Event.getOrder req.OrderId] } := by
  simp only [handleOrderDelivered]
  rw [GetOrder_eq, hfetch]
  simp [ObjectID.IsZero, hid, hstatus, World.emit]

/-- The run of `handleOrderDelivered` on an order fetched in another status. -/
theorem handleOrderDelivered_fresh {env : Env} {w : World} {req : AcceptOrderId}
    {order : Order} (hid : req.OrderId ≠ 0)
    (hfetch : (OrderMongo.GetOrder env w req.OrderId).2 = .ok order)
    (hstatus : order.Status ≠ "DELIVERED") :
    handleOrderDelivered env w req =
      match updateError env w.orders (deliveredOrder env order req) with
      | some _ =>
        { w with
          orders := updatedDocs env w.orders (deliveredOrder env order req)
          log := w.log ++ [Event.getOrder req.OrderId,
            Event.updateOrder (deliveredOrder env order req)] }
      | none =>
        (updateDeliveryTime env
          { w with
            orders := updatedDocs env w.orders (deliveredOrder env order req)
            log := w.log ++ (Event.getOrder req.OrderId ::
              Event.updateOrder (deliveredOrder env order req) ::
              Event.broadcastToRiders (.newLocationInfo "rider reached location" "" "")
                [order.UserId] ::
              writesTo w.riderClients (.newLocationInfo "rider reached location" "" "")
                [order.UserId]) }
          (deliveredOrder env order req)).1 := by
  simp only [handleOrderDelivered]
  rw [GetOrder_eq, hfetch]
  simp only [ObjectID.IsZero, beq_iff_eq, hid, if_false, hstatus, UpdateOrder_eq]
  have hd : deliveredOrder env order req = { order with
      Status := "DELIVERED"
      DeliveredAt := env.now
      UpdatedAt := env.now
      DeliveryTime := (Time.Sub env.now order.AcceptedAt).Seconds
      Latitude := (ParseFloat env req.Latitude).1
      Longitude := (ParseFloat env req.Longitude).1 } := rfl
  rw [← hd]
  cases h : updateError env w.orders (deliveredOrder env order req) with
  | some e => simp [World.emit, h]
  | none =>
    simp [World.emit, h, handleSendingDeliveredStatus, BroadcastToRiders_eq]

theorem filterMap_recomputeCalls {α : Type} (f : Event → Option α)
    (h1 : ∀ q, f (.searchOrder q) = none) (h2 : ∀ i v, f (.updateAverageDeliveryTime i v) = none)
    (env : Env) (w : World) (order : Order) :
    (recomputeCalls env w order).filterMap f = [] := by
  unfold recomputeCalls
  cases (OrderMongo.SearchOrder env w (deliveryQuery order)).2 with
  | error e => simp [h1]
  | ok res => simp [h1, h2]

theorem updatedOrders_recomputeCalls (env : Env) (w : World) (order : Order) :
    updatedOrders (recomputeCalls env w order) = [] :=
  filterMap_recomputeCalls _ (fun _ => rfl) (fun _ _ => rfl) env w order

/-- The calls and the stored orders of a run of `handleOrderDelivered` on an
order that is not yet delivered. -/
theorem handleOrderDelivered_fresh_calls {env : Env} {w : World} {req : AcceptOrderId}
    {order : Order} (hid : req.OrderId ≠ 0)
    (hfetch : (OrderMongo.GetOrder env w req.OrderId).2 = .ok order)
    (hstatus : order.Status ≠ "DELIVERED") :
    (∃ l, callsSince w (handleOrderDelivered env w req) =
        Event.getOrder req.OrderId :: Event.updateOrder (deliveredOrder env order req) :: l
      ∧ updatedOrders l = [])
    ∧ (handleOrderDelivered env w req).orders =
        updatedDocs env w.orders (deliveredOrder env order req) := by
  rw [handleOrderDelivered_fresh hid hfetch hstatus]
  cases updateError env w.orders (deliveredOrder env order req) with
  | some e => exact ⟨⟨[], by simp [callsSince], rfl⟩, rfl⟩
  | none =>
    simp only
    rw [updateDeliveryTime_frame]
    refine ⟨⟨_, by simp only [callsSince, List.append_assoc, List.cons_append,
      List.drop_left]; rfl, ?_⟩, rfl⟩
    simp [updatedOrders_cons, updatedOrders_append, updatedOrders_writesTo,
      updatedOrders_recomputeCalls, asUpdateOrder, updatedOrders_nil]

/-- On an order stored as DELIVERED a run of `handleOrderDelivered` only adds
the fetch to the log, whether or not the fetch succeeds. -/
theorem handleOrderDelivered_noop (env : Env) {w : World} {req : AcceptOrderId} {o : Order}
    (hid : req.OrderId ≠ 0)
    (hstored : findOrder w.orders req.OrderId = some o) (hstatus : o.Status = "DELIVERED") :
    handleOrderDelivered env w req = { w with log := w.log ++ [Event.getOrder req.OrderId] } := by
  cases hfetch : (OrderMongo.GetOrder env w req.OrderId).2 with
  | error e => exact handleOrderDelivered_fetchErr hid hfetch
  | ok order =>
    have h := (GetOrder_ok hfetch).2
    rw [hstored] at h
    have ho : o = order := Option.some.inj h
    subst ho
    exact handleOrderDelivered_delivered hid hfetch hstatus

theorem Time.Sub_of_fits {t u : Time} (h1 : minDuration ≤ t - u) (h2 : t - u ≤ maxDuration) :
    Time.Sub t u = t - u := by
  unfold Time.Sub
  rw [if_neg (not_lt.mpr h2), if_neg (not_lt.mpr h1)]

/-- The value of `ParseFloat`, reading by reading. -/
theorem ParseFloat_fst (env : Env) (s : String) :
    (ParseFloat env s).1 =
      match env.parseFloat s with
      | .value v => v
      | .syntaxError => .finite 0
      | .rangeError negative => if negative then .negInf else .posInf := by
  unfold ParseFloat
  cases env.parseFloat s <;> rfl

theorem foldl_ratings (l : List Rating) (acc : Int) :
    l.foldl (fun totalRating r => totalRating + r.Rating) acc
      = acc + (l.map (fun r => r.Rating)).sum := by
  induction l generalizing acc with
  | nil => simp
  | cons r rs ih => rw [List.foldl_cons, ih]; simp [add_assoc]

theorem SearchRating_ok {env : Env} (w : World) (q : SearchRatingBuilder)
    (hs : env.searchRatingErr = none) (hd : env.decodeRatingsErr = none) :
    RatingMongoDb.SearchRating env w q =
      ({ w with log := w.log ++ [Event.searchRating q] },
        .ok (w.ratings.filter (fun r =>
          (q.RatingGiver.IsZero || r.RatingGiver == q.RatingGiver) &&
          (q.RatingReceiver.IsZero || r.RatingReceiver == q.RatingReceiver)))) := by
  unfold RatingMongoDb.SearchRating
  simp [hs, hd, World.emit]

theorem UserUpdateAverageRating_log (env : Env) (w : World) (id : ObjectID) (v : Float64) :
    (UserMongoDb.UpdateAverageRating env w id v).1.log
      = w.log ++ [Event.updateAverageRating "Rider" id v] := by
  unfold UserMongoDb.UpdateAverageRating
  simp only [World.emit]
  split
  · rfl
  · split
    · rfl
    · split
      · rfl
      · split <;> rfl

theorem RiderUpdateAverageRating_log (env : Env) (w : World) (id : ObjectID) (v : Float64) :
    (RiderMongoDb.UpdateAverageRating env w id v).1.log
      = w.log ++ [Event.updateAverageRating "Rider" id v] := by
  unfold RiderMongoDb.UpdateAverageRating
  simp only [World.emit]
  split
  · rfl
  · split
    · rfl
    · split
      · rfl
      · split <;> rfl

theorem RestaurantUpdateAverageRating_log (env : Env) (w : World) (id : ObjectID)
    (v : Float64) :
    (RestaurantMongo.UpdateAverageRating env w id v).1.log
      = w.log ++ [Event.updateAverageRating "Restaurant" id v] := by
  unfold RestaurantMongo.UpdateAverageRating
  simp only [World.emit]
  split
  · rfl
  · split
    · rfl
    · split
      · rfl
      · split <;> rfl

theorem writesTo_append (c : List (String × Conn)) (m : Message) (a b : List ObjectID) :
    writesTo c m (a ++ b) = writesTo c m a ++ writesTo c m b := by
  simp [writesTo]

theorem writtenTo_append (a b : List Event) (c : Conn) :
    writtenTo (a ++ b) c = writtenTo a c ++ writtenTo b c := by
  simp [writtenTo]

theorem mem_writtenTo_writesTo {clients : List (String × Conn)} {m : Message}
    {ids : List ObjectID} {id : ObjectID} {c : Conn}
    (hid : id ∈ ids) (hc : clients.lookup id.Hex = some c) :
    m ∈ writtenTo (writesTo clients m ids) c := by
  unfold writtenTo writesTo
  rw [List.mem_filterMap]
  refine ⟨Event.writeMessage c m, ?_, by simp⟩
  rw [List.mem_filterMap]
  exact ⟨id, hid, by simp [hc]⟩

/-! ## Registry, error responses and the in-memory repository -/

theorem lookup_filter_ne {α : Type} (m : List (String × α)) (k key : String) (h : key ≠ k) :
    (m.filter (fun p => p.1 != k)).lookup key = m.lookup key := by
  induction m with
  | nil => rfl
  | cons p m ih =>
    obtain ⟨a, b⟩ := p
    by_cases ha : a = k
    · subst ha
      have hk : (key == a) = false := by simpa using h
      simp [List.filter_cons, List.lookup_cons, hk, ih]
    · have hne : (a != k) = true := by simpa using ha
      simp only [List.filter_cons, hne, if_true, List.lookup_cons, ih]

theorem kvSet_lookup_ne {α : Type} (m : List (String × α)) (k key : String) (v : α)
    (h : key ≠ k) : (kvSet m k v).lookup key = m.lookup key := by
  have hk : (key == k) = false := by simpa using h
  simp [kvSet, List.lookup_cons, hk, lookup_filter_ne m k key h]

theorem kvSet_bindings {α : Type} (m : List (String × α)) (k : String) (v : α) :
    (kvSet m k v).filter (fun p => p.1 == k) = [(k, v)] := by
  simp [kvSet, List.filter_cons, List.filter_filter, List.filter_eq_nil_iff]

/-- Two ids of 12 bytes with the same hexadecimal form are equal. -/
theorem Hex_injective {a b : ObjectID} (ha : a < 2 ^ 96) (hb : b < 2 ^ 96)
    (h : a.Hex = b.Hex) : a = b := by
  have h1 := ObjectIDFromHex_Hex a ha
  rw [h, ObjectIDFromHex_Hex b hb] at h1
  exact (Option.some.inj h1).symm

theorem writesTo_single (clients : List (String × Conn)) (message : Message) (id : ObjectID)
    (c : Conn) (h : clients.lookup id.Hex = some c) :
    writesTo clients message [id] = [Event.writeMessage c message] := by
  simp [writesTo, h]

theorem lookup_filter_self {α : Type} (l : List (ObjectID × α)) (id : ObjectID) :
    (l.filter (fun p => p.1 != id)).lookup id = none := by
  induction l with
  | nil => rfl
  | cons p l ih =>
    obtain ⟨a, b⟩ := p
    by_cases ha : a = id
    · subst ha
      simp [List.filter_cons, ih]
    · have h1 : (a != id) = true := by simpa using ha
      have h2 : (id == a) = false := by simpa using fun h : id = a => ha h.symm
      simp [List.filter_cons, h1, List.lookup_cons, h2, ih]

/-! ## Keys of the candidate set -/

theorem setKeys_nil : setKeys [] = [] := rfl

theorem setKeys_append (a b : List Event) : setKeys (a ++ b) = setKeys a ++ setKeys b := by
  simp [setKeys]

theorem setKeys_cons (e : Event) (l : List Event) :
    setKeys (e :: l) = (asSetKey e).toList ++ setKeys l := by
  unfold setKeys
  rw [List.filterMap_cons]
  cases asSetKey e <;> rfl

theorem setKeys_writesTo (c : List (String × Conn)) (m : Message) (ids : List ObjectID) :
    setKeys (writesTo c m ids) = [] :=
  filterMap_writesTo _ (fun _ _ => rfl) c m ids

theorem setKeys_candidateCalls (env : Env) (w : World) (id : ObjectID) (o : Order) :
    setKeys (candidateCalls env w id o) = ["rider_broadcasted:" ++ id.Hex] := by
  unfold candidateCalls
  cases env.sMembersErr with
  | some e => rfl
  | none => simp [setKeys_cons, setKeys_writesTo, asSetKey]

theorem setKeys_sAdds (key : String) (l : List Event)
    (hl : ∀ e ∈ l, ∃ m, e = Event.sAdd key m) : ∀ k ∈ setKeys l, k = key := by
  intro k hk
  obtain ⟨e, he, hek⟩ := List.mem_filterMap.mp hk
  obtain ⟨m, rfl⟩ := hl e he
  simpa [asSetKey] using hek.symm

/-- The members a run of the `SADD` loop leaves in the set were there before or
are the hex form of one of the ids. -/
theorem sAddAll_mem (env : Env) (key : String) (ids : List ObjectID) (w : World) :
    ∀ x ∈ (sAddAll env key w ids).1.members env.now key,
      x ∈ w.members env.now key ∨ ∃ id ∈ ids, x = id.Hex := by
  induction ids generalizing w with
  | nil => intro x hx; exact Or.inl (by simpa [sAddAll] using hx)
  | cons id ids ih =>
    have hsnd := SAdd_snd env w key id.Hex
    unfold sAddAll
    cases hS : Redis.SAdd env w key id.Hex with
    | mk w1 r =>
      rw [hS] at hsnd
      simp only at hsnd
      cases r with
      | some e =>
        have hm := SAdd_members_err w hsnd.symm
        rw [hS] at hm
        intro x hx
        exact Or.inl (by simpa [hm] using hx)
      | none =>
        have hm := SAdd_members_ok w hsnd.symm
        rw [hS] at hm
        simp only at hm ⊢
        intro x hx
        rcases ih w1 x hx with h | ⟨j, hj, rfl⟩
        · rw [hm] at h
          split_ifs at h with hmem
          · exact Or.inl h
          · rcases List.mem_append.mp h with h | h
            · exact Or.inl h
            · exact Or.inr ⟨id, List.mem_cons_self _ _, by simpa using h⟩
        · exact Or.inr ⟨j, List.mem_cons_of_mem _ hj, rfl⟩

/-- The loop of `SADD`s gives no expiry to a key that has none. -/
theorem sAddAll_expiry_none (env : Env) (key : String) (ids : List ObjectID) (w : World)
    (h : w.expiry.lookup key = none) : (sAddAll env key w ids).1.expiry.lookup key = none := by
  induction ids generalizing w with
  | nil => simpa [sAddAll] using h
  | cons id ids ih =>
    have hex := SAdd_expiry_none env w id.Hex h
    unfold sAddAll
    cases hS : Redis.SAdd env w key id.Hex with
    | mk w1 r =>
      rw [hS] at hex
      cases r with
      | some e => exact hex
      | none => exact ih w1 hex

/-- The sets after `EXPIRE` are the sets before it. -/
theorem Expire_sets (env : Env) (w : World) (key : String) (ttl : Duration) :
    (Redis.Expire env w key ttl).1.sets = w.sets := by
  rw [Expire_eq]

/-- The expiry `EXPIRE` leaves on a key that had none. -/
theorem Expire_expiry (env : Env) (w : World) (key : String) (ttl : Duration)
    (h : w.expiry.lookup key = none) :
    (Redis.Expire env w key ttl).1.expiry.lookup key =
      if env.expireErr = none ∧ w.sets.lookup key ≠ none then some (env.now + ttl) else none := by
  unfold Redis.Expire
  cases he : env.expireErr with
  | some e => simpa [World.emit] using h
  | none =>
    have hexp : (w.emit (.expire key ttl)).expired env.now key = false := by
      simp [World.expired, World.emit, h]
    simp only [hexp, Bool.false_eq_true, if_false]
    cases hs : w.sets.lookup key with
    | none => simpa [World.emit, hs] using h
    | some v => simp [World.emit, hs, kvSet_lookup]

/-- Every set command of `AcceptOrder` is on the key of the order asked for. -/
theorem setKeys_AcceptOrder (env : Env) (w : World) (oa : AcceptPendingRestaurantOrder) :
    ∀ key ∈ setKeys (callsSince w (AcceptOrder env w oa).1),
      key = "rider_broadcasted:" ++ oa.Id.Hex := by
  rw [AcceptOrder_eq]
  cases hfetch : (OrderMongo.GetOrder env w oa.Id).2 with
  | error e => simp [callsSince, setKeys, asSetKey]
  | ok order =>
    simp only
    have hoid : order.Id = oa.Id := findOrder_id (GetOrder_ok hfetch).2
    cases hrest : (RestaurantMongo.GetRestaurant env w oa.RestaurantId).2 with
    | error e => simp [callsSince, setKeys, asSetKey]
    | ok restaurant =>
      simp only
      by_cases hst : order.Status = "ACCEPTED"
      · simp [hst, callsSince, setKeys, asSetKey]
      simp only [hst, if_false]
      cases hupd : updateError env w.orders
          { order with Status := "ACCEPTED", AcceptedAt := env.now } with
      | some e => simp [callsSince, setKeys, asSetKey]
      | none =>
        simp only
        obtain ⟨l, h1, h2, -, -⟩ := sAddAll_spec env ("rider_broadcasted:" ++ order.Id.Hex)
          ((env.searchRider (riderQuery restaurant)).1.map (fun rider => rider.Id))
          (acceptedWorld env w oa order restaurant)
        have hl := setKeys_sAdds _ l h2
        cases hs : sAddAll env ("rider_broadcasted:" ++ order.Id.Hex)
            (acceptedWorld env w oa order restaurant)
            ((env.searchRider (riderQuery restaurant)).1.map (fun rider => rider.Id)) with
        | mk w4 err =>
          rw [hs] at h1
          simp only at h1
          have hkeys : ∀ key ∈ setKeys (w4.log.drop w.log.length),
              key = "rider_broadcasted:" ++ oa.Id.Hex := by
            rw [h1]
            intro key hkey
            simp only [acceptedWorld, List.append_assoc, List.drop_left, List.cons_append,
              setKeys_cons, setKeys_append, setKeys_writesTo, asSetKey, Option.toList,
              List.nil_append, List.append_nil] at hkey
            rw [← hoid]
            exact hl key hkey
          cases err with
          | some e => exact hkeys
          | none =>
            simp only
            rw [Expire_eq]
            intro key hkey
            simp only [callsSince] at hkey
            rw [List.drop_append_of_le_length (by rw [h1]; simp [acceptedWorld]),
              setKeys_append] at hkey
            rcases List.mem_append.mp hkey with h | h
            · exact hkeys key h
            · simp only [setKeys_cons, asSetKey, Option.toList, setKeys_nil, List.append_nil,
                List.mem_singleton] at h
              rw [h, hoid]

/-- Every set command of `handleOrderAcceptance` is on the key of the order the
request names. -/
theorem setKeys_handleOrderAcceptance (env : Env) (w : World) (r : ObjectID)
    (req : AcceptOrderId) :
    ∀ key ∈ setKeys (callsSince w (handleOrderAcceptance env w r req)),
      key = "rider_broadcasted:" ++ req.OrderId.Hex := by
  by_cases hid : req.OrderId = 0
  · rw [handleOrderAcceptance_zero hid, callsSince_self]
    simp [setKeys_nil]
  cases hfetch : (OrderMongo.GetOrder env w req.OrderId).2 with
  | error e =>
    rw [handleOrderAcceptance_fetchErr hid hfetch]
    simp [callsSince, setKeys_cons, setKeys_writesTo, asSetKey]
  | ok order =>
    by_cases hstatus : order.Status = "RIDER_ASSIGNED"
    · rw [handleOrderAcceptance_assigned hid hfetch hstatus]
      simp [callsSince, setKeys_cons, setKeys_writesTo, asSetKey]
    cases hconn : env.redisConnNil with
    | true =>
      rw [handleOrderAcceptance_connNil hid hfetch hstatus hconn]
      simp [callsSince, setKeys_cons, setKeys_writesTo, asSetKey]
    | false =>
      cases hincr : (Redis.Incr env (OrderMongo.GetOrder env w req.OrderId).1
          ("order_status:" ++ req.OrderId.Hex)).2 with
      | error e =>
        rw [handleOrderAcceptance_incrErr hid hfetch hstatus hconn hincr]
        simp [callsSince, setKeys_cons, setKeys_writesTo, asSetKey]
      | ok result =>
        by_cases hr : result = 1
        · subst hr
          rw [(handleOrderAcceptance_won_calls hid hfetch hstatus hconn hincr).1]
          cases updateError env w.orders (assignRider env order r req) <;>
            simp [setKeys_cons, setKeys_append, setKeys_writesTo, setKeys_candidateCalls,
              asSetKey, setKeys_nil]
        · rw [handleOrderAcceptance_incr hid hfetch hstatus hconn hincr]
          simp [hr, callsSince, setKeys_cons, setKeys_writesTo, asSetKey]

/-- A member the store holds is still held right after an `EXPIRE` with a
positive time to live. -/
theorem Expire_members {env : Env} {w : World} {key x : String} {ttl : Duration}
    (httl : 0 < ttl) (h : x ∈ w.members env.now key) :
    x ∈ (Redis.Expire env w key ttl).1.members env.now key := by
  have hexp : w.expired env.now key = false := by
    cases hc : w.expired env.now key with
    | false => rfl
    | true => simp [World.members, hc] at h
  have hraw : x ∈ (w.sets.lookup key).getD [] := members_subset h
  unfold Redis.Expire
  cases env.expireErr with
  | some e => exact h
  | none =>
    have hexp2 : (w.emit (.expire key ttl)).expired env.now key = false := hexp
    simp only [hexp2, Bool.false_eq_true, if_false]
    cases hs : w.sets.lookup key with
    | none => rw [hs] at hraw; simp at hraw
    | some v =>
      have hnot : ¬ env.now + ttl ≤ env.now := not_le.mpr (lt_add_of_pos_right env.now httl)
      simp only [World.emit, hs]
      simp [World.members, World.expired, kvSet_lookup, hnot, hs]
      rw [hs] at hraw
      simpa using hraw

/-- What a successful `AcceptOrder` leaves behind for an order whose candidate
key did not exist: one offer, to the ids the rider search returned; a stored
set whose members are the hex forms of these ids; and an expiry that ends 30
minutes after the offer when `EXPIRE` succeeded on a set that exists. -/
theorem AcceptOrder_offer {env : Env} {w : World} {oa : AcceptPendingRestaurantOrder}
    (hok : (AcceptOrder env w oa).2 = none)
    (hs0 : w.sets.lookup ("rider_broadcasted:" ++ oa.Id.Hex) = none)
    (he0 : w.expiry.lookup ("rider_broadcasted:" ++ oa.Id.Hex) = none) :
    ∃ q, orderBroadcasts (callsSince w (AcceptOrder env w oa).1) "New order for pickup"
        = [(env.searchRider q).1.map (fun rider => rider.Id)]
      ∧ (∀ x, x ∈ ((AcceptOrder env w oa).1.sets.lookup
            ("rider_broadcasted:" ++ oa.Id.Hex)).getD [] ↔
          ∃ id ∈ (env.searchRider q).1.map (fun rider => rider.Id), x = id.Hex)
      ∧ (AcceptOrder env w oa).1.expiry.lookup ("rider_broadcasted:" ++ oa.Id.Hex) =
          if env.expireErr = none
            ∧ (AcceptOrder env w oa).1.sets.lookup ("rider_broadcasted:" ++ oa.Id.Hex) ≠ none
          then some (env.now + 30 * Minute) else none := by
  rw [AcceptOrder_eq] at hok ⊢
  cases hfetch : (OrderMongo.GetOrder env w oa.Id).2 with
  | error e => simp [hfetch] at hok
  | ok order =>
    simp only [hfetch] at hok ⊢
    cases hrest : (RestaurantMongo.GetRestaurant env w oa.RestaurantId).2 with
    | error e => simp [hrest] at hok
    | ok restaurant =>
      simp only [hrest] at hok ⊢
      by_cases hst : order.Status = "ACCEPTED"
      · simp [hst] at hok
      simp only [hst, if_false] at hok ⊢
      cases hupd : updateError env w.orders
          { order with Status := "ACCEPTED", AcceptedAt := env.now } with
      | some e => simp [hupd] at hok
      | none =>
        simp only [hupd] at hok ⊢
        have hoid : order.Id = oa.Id := findOrder_id (GetOrder_ok hfetch).2
        rw [hoid] at hok ⊢
        have hsA : (acceptedWorld env w oa order restaurant).sets.lookup
            ("rider_broadcasted:" ++ oa.Id.Hex) = none := hs0
        have heA : (acceptedWorld env w oa order restaurant).expiry.lookup
            ("rider_broadcasted:" ++ oa.Id.Hex) = none := he0
        obtain ⟨l, h1, h2, -, h4⟩ := sAddAll_spec env ("rider_broadcasted:" ++ oa.Id.Hex)
          ((env.searchRider (riderQuery restaurant)).1.map (fun rider => rider.Id))
          (acceptedWorld env w oa order restaurant)
        have h5 := sAddAll_mem env ("rider_broadcasted:" ++ oa.Id.Hex)
          ((env.searchRider (riderQuery restaurant)).1.map (fun rider => rider.Id))
          (acceptedWorld env w oa order restaurant)
        have h6 := sAddAll_expiry_none env ("rider_broadcasted:" ++ oa.Id.Hex)
          ((env.searchRider (riderQuery restaurant)).1.map (fun rider => rider.Id))
          (acceptedWorld env w oa order restaurant) heA
        cases hs : sAddAll env ("rider_broadcasted:" ++ oa.Id.Hex)
            (acceptedWorld env w oa order restaurant)
            ((env.searchRider (riderQuery restaurant)).1.map (fun rider => rider.Id)) with
        | mk w4 err =>
          rw [hs] at hok h1 h4 h5 h6
          cases err with
          | some e => simp at hok
          | none =>
            simp only at h1 h4 h5 h6 ⊢
            rw [members_of_no_expiry env.now h6] at h4 h5
            rw [members_of_no_expiry env.now heA, hsA] at h5
            refine ⟨riderQuery restaurant, ?_, ?_, ?_⟩
            · have hl : orderBroadcasts l "New order for pickup" = [] :=
                filterMap_sAdds (asOrderBroadcast "New order for pickup") _ (fun _ => rfl) l h2
              rw [Expire_eq, h1]
              simp [callsSince, acceptedWorld, orderBroadcasts_cons, orderBroadcasts_append,
                orderBroadcasts_writesTo, asOrderBroadcast, riderQuery, hl, orderBroadcasts_nil]
            · intro x
              rw [Expire_sets]
              constructor
              · intro hx
                rcases h5 x hx with h | h
                · simp at h
                · exact h
              · rintro ⟨id, hid, rfl⟩
                exact h4 trivial id hid
            · rw [Expire_sets, Expire_expiry _ _ _ _ h6]

/-! ## The claims -/

/-- Claim C1. Single winner. Riders attempt to accept one existing order whose
status is ACCEPTED and whose token is absent; every fetch of the order, every
Redis connection and every increment succeeds. Whatever the interleaving of
the steps of the attempts (fetch, increment, persist), once every attempt has
taken its steps exactly one rider has been sent "Order accepted", once, and
not "order already assigned"; every other rider has been sent "order already
assigned", once, and not "Order accepted". -/
theorem single_winner (env : ObjectID → Env) (req : ObjectID → AcceptOrderId) (w : World)
    (orderId : ObjectID) (order : Order) (riders sched : List ObjectID)
    (hK : riders ≠ [])
    (hid : orderId ≠ 0)
    (hreq : ∀ r ∈ riders, (req r).OrderId = orderId)
    (horder : findOrder w.orders orderId = some order)
    (hstatus : order.Status = "ACCEPTED")
    (htoken : w.counters.lookup ("order_status:" ++ orderId.Hex) = none)
    (hcalls : ∀ r ∈ riders,
      (env r).findOrderErr = none ∧ (env r).redisConnNil = false ∧ (env r).incrErr = none)
    (hsched : ∀ r ∈ sched, r ∈ riders)
    (hfair : ∀ r ∈ riders, 3 ≤ sched.count r) :
    (∀ r ∈ riders, (AcceptSys.run env req (AcceptSys.init w) sched).pc r = .done)
    ∧ ∃ winner ∈ riders,
      sentCount (callsSince w (AcceptSys.run env req (AcceptSys.init w) sched).world)
        "Order accepted" winner = 1
      ∧ sentCount (callsSince w (AcceptSys.run env req (AcceptSys.init w) sched).world)
        "order already assigned" winner = 0
      ∧ ∀ r ∈ riders, r ≠ winner →
        sentCount (callsSince w (AcceptSys.run env req (AcceptSys.init w) sched).world)
          "Order accepted" r = 0
        ∧ sentCount (callsSince w (AcceptSys.run env req (AcceptSys.init w) sched).world)
          "order already assigned" r = 1 := by
  have hdone : ∀ r ∈ riders, (AcceptSys.run env req (AcceptSys.init w) sched).pc r = .done := by
    intro r hr
    apply AcceptPc.eq_done_of_rank
    have h1 := run_rank env req r sched (AcceptSys.init w)
    have h2 := hfair r hr
    omega
  refine ⟨hdone, ?_⟩
  obtain ⟨wo, l, hinv⟩ := AcceptInv_run hid hreq hcalls sched hsched (AcceptSys.init w) none []
    (AcceptInv_init horder hstatus htoken)
  have hcalls : callsSince w (AcceptSys.run env req (AcceptSys.init w) sched).world = l := by
    simp [callsSince, hinv.log]
  rw [hcalls]
  obtain ⟨r0, hr0⟩ := List.exists_mem_of_ne_nil riders hK
  have hp0 := hinv.pcs r0
  rw [hdone r0 hr0] at hp0
  have hne : wo ≠ none := by
    rcases hp0 with h | h
    · rw [h.1]; simp
    · exact h.2.1
  obtain ⟨x, hx⟩ := Option.ne_none_iff_exists'.mp hne
  have hxr : x ∈ riders := hinv.mem x hx
  have hpx := hinv.pcs x
  rw [hdone x hxr] at hpx
  refine ⟨x, hxr, ?_⟩
  rcases hpx with h | h
  · refine ⟨h.2.1, h.2.2, ?_⟩
    intro r hr hrx
    have hpr := hinv.pcs r
    rw [hdone r hr] at hpr
    rcases hpr with h1 | h1
    · rw [hx] at h1
      exact absurd (Option.some.inj h1.1).symm hrx
    · exact ⟨h1.2.2.1, h1.2.2.2⟩
  · exact absurd hx h.1

/-- Claim C1 (witness): the riders 7 and 8 race for order 1; 8 increments the
token first. -/
theorem single_winner_witness :
    ∃ winner ∈ [7, 8],
      sentCount (callsSince (offeredWorld "ACCEPTED")
          (AcceptSys.run (fun _ => calmEnv) (fun _ => sampleAccept)
            (AcceptSys.init (offeredWorld "ACCEPTED")) [7, 8, 8, 7, 7, 8]).world)
        "Order accepted" winner = 1
      ∧ sentCount (callsSince (offeredWorld "ACCEPTED")
          (AcceptSys.run (fun _ => calmEnv) (fun _ => sampleAccept)
            (AcceptSys.init (offeredWorld "ACCEPTED")) [7, 8, 8, 7, 7, 8]).world)
        "order already assigned" winner = 0
      ∧ ∀ r ∈ [7, 8], r ≠ winner →
        sentCount (callsSince (offeredWorld "ACCEPTED")
            (AcceptSys.run (fun _ => calmEnv) (fun _ => sampleAccept)
              (AcceptSys.init (offeredWorld "ACCEPTED")) [7, 8, 8, 7, 7, 8]).world)
          "Order accepted" r = 0
        ∧ sentCount (callsSince (offeredWorld "ACCEPTED")
            (AcceptSys.run (fun _ => calmEnv) (fun _ => sampleAccept)
              (AcceptSys.init (offeredWorld "ACCEPTED")) [7, 8, 8, 7, 7, 8]).world)
          "order already assigned" r = 1 :=
  (single_winner (fun _ => calmEnv) (fun _ => sampleAccept) (offeredWorld "ACCEPTED") 1
    (sampleOrder 1 "ACCEPTED") [7, 8] [7, 8, 8, 7, 7, 8] (by decide) (by decide)
    (fun _ _ => rfl) (by decide) (by decide) (by decide) (fun _ _ => ⟨rfl, rfl, rfl⟩)
    (by decide) (by decide)).2

/-- Claim C2 (failing inputs). `AcceptOrder` on order 1 in status RIDER_ASSIGNED
succeeds and stores the earlier status ACCEPTED; `handleOrderAcceptance` on the
order in status DELIVERED, its token absent, stores the earlier status
RIDER_ASSIGNED. -/
theorem status_rolls_back :
    (AcceptOrder calmEnv (sampleWorld "RIDER_ASSIGNED") { Id := 1, RestaurantId := 2 }).2 = none
    ∧ (findOrder
        (AcceptOrder calmEnv (sampleWorld "RIDER_ASSIGNED") { Id := 1, RestaurantId := 2 }).1.orders
        1).map Order.Status = some "ACCEPTED"
    ∧ statusRank "ACCEPTED" < statusRank "RIDER_ASSIGNED"
    ∧ (findOrder (handleOrderAcceptance calmEnv (sampleWorld "DELIVERED") 7 sampleAccept).orders
        1).map Order.Status = some "RIDER_ASSIGNED"
    ∧ statusRank "RIDER_ASSIGNED" < statusRank "DELIVERED" := by
  decide

/-- Claim C3 (counterexample). A second restaurant acceptance of order 1, whose
status is already ACCEPTED, returns an error. -/
theorem repeated_acceptance_returns_error :
    (AcceptOrder calmEnv (sampleWorld "ACCEPTED") { Id := 1, RestaurantId := 2 }).2
      = some (.new "order is already accepted") := by
  decide

/-- Claim C3 (amended). For every order whose status is already ACCEPTED,
`AcceptOrder` returns an error, which is the plain error "order is already
accepted" when the restaurant is found and the error of the restaurant fetch
otherwise, and it does nothing but the two fetches: no order update, no rider search, no broadcast, no candidate-set
write. -/
theorem repeated_acceptance_rejected (env : Env) (w : World)
    (oa : AcceptPendingRestaurantOrder) (order : Order)
    (hfetch : (OrderMongo.GetOrder env w oa.Id).2 = .ok order)
    (hstatus : order.Status = "ACCEPTED") :
    (AcceptOrder env w oa).2 ≠ none
    ∧ (AcceptOrder env w oa).1 =
        { w with log := w.log ++ [Event.getOrder oa.Id, Event.getRestaurant oa.RestaurantId] }
    ∧ (∀ restaurant,
        (RestaurantMongo.GetRestaurant env (OrderMongo.GetOrder env w oa.Id).1
          oa.RestaurantId).2 = .ok restaurant →
        (AcceptOrder env w oa).2 = some (.new "order is already accepted"))
    ∧ (∀ e,
        (RestaurantMongo.GetRestaurant env (OrderMongo.GetOrder env w oa.Id).1
          oa.RestaurantId).2 = .error e →
        (AcceptOrder env w oa).2 = some e) := by
  rw [AcceptOrder_eq, hfetch, GetOrder_fst,
    GetRestaurant_congr env w (w.emit (.getOrder oa.Id)) oa.RestaurantId rfl]
  cases (RestaurantMongo.GetRestaurant env w oa.RestaurantId).2 with
  | error e => simp
  | ok restaurant => simp [hstatus]

/-- Claim C3 (witness). -/
theorem repeated_acceptance_rejected_witness :
    (AcceptOrder calmEnv (sampleWorld "ACCEPTED") { Id := 1, RestaurantId := 2 }).1 =
      { sampleWorld "ACCEPTED" with
        log := (sampleWorld "ACCEPTED").log ++ [Event.getOrder 1, Event.getRestaurant 2] } :=
  (repeated_acceptance_rejected calmEnv (sampleWorld "ACCEPTED") { Id := 1, RestaurantId := 2 }
    (sampleOrder 1 "ACCEPTED") rfl rfl).2.1

/-- Claim C4 (failing input). An acceptance request for order 1, delivered and
with its token at 1, increments the token to 2 before it answers "order already
assigned". -/
theorem delivered_order_increments_token :
    (findOrder (takenWorld "DELIVERED").orders 1).map Order.Status = some "DELIVERED"
    ∧ callsSince (takenWorld "DELIVERED")
        (handleOrderAcceptance calmEnv (takenWorld "DELIVERED") 7 sampleAccept)
      = [Event.getOrder 1, Event.incr "order_status:000000000000000000000001",
         Event.broadcastToRiders (.text "order already assigned") [7],
         Event.writeMessage 70 (.text "order already assigned")]
    ∧ (takenWorld "DELIVERED").counters = [("order_status:000000000000000000000001", 1)]
    ∧ (handleOrderAcceptance calmEnv (takenWorld "DELIVERED") 7 sampleAccept).counters
      = [("order_status:000000000000000000000001", 2)] := by
  decide

/-- Claim C5. The order update is gated on winning the token: when a run of
`handleOrderAcceptance` calls `OrderRepo.UpdateOrder` at all, the increment of
the key order_status:<orderId> it made returned exactly 1; and when that
increment returns any other value, the run changes nothing but the counter and
sends nothing but "order already assigned" to the requesting rider. -/
theorem update_gated_on_token (env : Env) (w : World) (riderId : ObjectID)
    (acceptReq : AcceptOrderId) :
    (updatedOrders (callsSince w (handleOrderAcceptance env w riderId acceptReq)) ≠ [] →
      (Redis.Incr env (OrderMongo.GetOrder env w acceptReq.OrderId).1
        ("order_status:" ++ acceptReq.OrderId.Hex)).2 = .ok 1)
    ∧ (∀ (order : Order) (result : Int),
        acceptReq.OrderId ≠ 0 →
        (OrderMongo.GetOrder env w acceptReq.OrderId).2 = .ok order →
        order.Status ≠ "RIDER_ASSIGNED" →
        env.redisConnNil = false →
        (Redis.Incr env (OrderMongo.GetOrder env w acceptReq.OrderId).1
          ("order_status:" ++ acceptReq.OrderId.Hex)).2 = .ok result →
        result ≠ 1 →
        handleOrderAcceptance env w riderId acceptReq =
          { w with
            counters := kvSet w.counters ("order_status:" ++ acceptReq.OrderId.Hex) result
            log := w.log ++ (Event.getOrder acceptReq.OrderId ::
              Event.incr ("order_status:" ++ acceptReq.OrderId.Hex) ::
              Event.broadcastToRiders (.text "order already assigned") [riderId] ::
              writesTo w.riderClients (.text "order already assigned") [riderId]) }) := by
  constructor
  · intro hupd
    by_cases hid : acceptReq.OrderId = 0
    · exfalso; apply hupd
      rw [handleOrderAcceptance_zero hid, callsSince_self]; rfl
    cases hfetch : (OrderMongo.GetOrder env w acceptReq.OrderId).2 with
    | error e =>
      exfalso; apply hupd
      rw [handleOrderAcceptance_fetchErr hid hfetch]
      simp [callsSince, updatedOrders_cons, updatedOrders_writesTo, asUpdateOrder]
    | ok order =>
      by_cases hstatus : order.Status = "RIDER_ASSIGNED"
      · exfalso; apply hupd
        rw [handleOrderAcceptance_assigned hid hfetch hstatus]
        simp [callsSince, updatedOrders_cons, updatedOrders_writesTo, asUpdateOrder]
      cases hconn : env.redisConnNil with
      | true =>
        exfalso; apply hupd
        rw [handleOrderAcceptance_connNil hid hfetch hstatus hconn]
        simp [callsSince, updatedOrders_cons, updatedOrders_writesTo, asUpdateOrder]
      | false =>
        cases hincr : (Redis.Incr env (OrderMongo.GetOrder env w acceptReq.OrderId).1
            ("order_status:" ++ acceptReq.OrderId.Hex)).2 with
        | error e =>
          exfalso; apply hupd
          rw [handleOrderAcceptance_incrErr hid hfetch hstatus hconn hincr]
          simp [callsSince, updatedOrders_cons, updatedOrders_writesTo, asUpdateOrder]
        | ok result =>
          by_cases hr : result = 1
          · rw [hr]
          · exfalso; apply hupd
            rw [handleOrderAcceptance_incr hid hfetch hstatus hconn hincr]
            simp [hr, callsSince, updatedOrders_cons, updatedOrders_writesTo, asUpdateOrder]
  · intro order result hid hfetch hstatus hconn hincr hr
    rw [handleOrderAcceptance_incr hid hfetch hstatus hconn hincr]
    simp [hr]

/-- Claim C5 (witness): the token of order 1 is already at 1, rider 7 loses. -/
theorem update_gated_on_token_witness :
    handleOrderAcceptance calmEnv (takenWorld "ACCEPTED") 7 sampleAccept =
      { takenWorld "ACCEPTED" with
        counters := kvSet (takenWorld "ACCEPTED").counters
          ("order_status:" ++ ObjectID.Hex 1) 2
        log := (takenWorld "ACCEPTED").log ++ (Event.getOrder 1 ::
          Event.incr ("order_status:" ++ ObjectID.Hex 1) ::
          Event.broadcastToRiders (.text "order already assigned") [7] ::
          writesTo (takenWorld "ACCEPTED").riderClients (.text "order already assigned") [7]) } :=
  (update_gated_on_token calmEnv (takenWorld "ACCEPTED") 7 sampleAccept).2
    (sampleOrder 1 "ACCEPTED") 2 (by decide) rfl (by decide) rfl rfl (by decide)

/-- Claim C6 (counterexample). Rider 7 wins order 1 with the latitude "1e999"
and the longitude "abc". Neither string parses: the first is out of range, the
second is not a number. The order handed to `UpdateOrder` has the longitude 0
and the latitude `+Inf`, not 0. -/
theorem out_of_range_latitude_is_not_zero :
    (ParseFloat calmEnv "1e999").2 = some ErrRange
    ∧ (ParseFloat calmEnv "abc").2 = some ErrSyntax
    ∧ (updatedOrders (callsSince (offeredWorld "ACCEPTED")
        (handleOrderAcceptance calmEnv (offeredWorld "ACCEPTED") 7
          { OrderId := 1, Latitude := "1e999", Longitude := "abc" }))).map
        (fun o => (o.Latitude, o.Longitude))
      = [(ExtFloat64.posInf, ExtFloat64.finite 0)] := by
  decide

/-- Claim C6 (amended). When the increment of the token returns 1,
`OrderRepo.UpdateOrder` is called once, with the fetched order in which RiderId
is the accepting rider, Status is "RIDER_ASSIGNED", DeliveryStarted and
UpdatedAt are the current time, Latitude and Longitude are the values
`strconv.ParseFloat` returns for the strings of the request, its error
dropped, and every other field is unchanged. That value is the number read
when the string parses, 0 when the string is not well formed, and the infinity
of its sign when the string writes a number out of the range of a float64. -/
theorem acceptance_update_fields (env : Env) (w : World) (riderId : ObjectID)
    (acceptReq : AcceptOrderId) (order : Order)
    (hid : acceptReq.OrderId ≠ 0)
    (hfetch : (OrderMongo.GetOrder env w acceptReq.OrderId).2 = .ok order)
    (hstatus : order.Status ≠ "RIDER_ASSIGNED")
    (hconn : env.redisConnNil = false)
    (hincr : (Redis.Incr env (OrderMongo.GetOrder env w acceptReq.OrderId).1
      ("order_status:" ++ acceptReq.OrderId.Hex)).2 = .ok 1) :
    updatedOrders (callsSince w (handleOrderAcceptance env w riderId acceptReq)) =
      [{ Id := order.Id
         UserId := order.UserId
         RiderId := riderId
         RestaurantId := order.RestaurantId
         DeliveryPhoneNumber := order.DeliveryPhoneNumber
         DeliveryLatitude := order.DeliveryLatitude
         DeliveryLongitude := order.DeliveryLongitude
         DeliveryAddress := order.DeliveryAddress
         PickupPhoneNumber := order.PickupPhoneNumber
         PickupLatitude := order.PickupLatitude
         PickupLongitude := order.PickupLongitude
         PickupAddress := order.PickupAddress
         Items := order.Items
         FinalPrice := order.FinalPrice
         Latitude := (ParseFloat env acceptReq.Latitude).1
         Longitude := (ParseFloat env acceptReq.Longitude).1
         DeliveryTime := order.DeliveryTime
         CreatedAt := order.CreatedAt
         AcceptedAt := order.AcceptedAt
         UpdatedAt := env.now
         DeliveryStarted := env.now
         DeliveredAt := order.DeliveredAt
         Status := "RIDER_ASSIGNED" }]
    ∧ (∀ s v, env.parseFloat s = .value v → (ParseFloat env s).1 = v)
    ∧ (∀ s, env.parseFloat s = .syntaxError → (ParseFloat env s).1 = .finite 0)
    ∧ (∀ s negative, env.parseFloat s = .rangeError negative →
        (ParseFloat env s).1 = if negative then .negInf else .posInf) := by
  refine ⟨?_, fun s v h => by simp [ParseFloat, h], fun s h => by simp [ParseFloat, h],
    fun s negative h => by simp [ParseFloat, h]⟩
  rw [(handleOrderAcceptance_won_calls hid hfetch hstatus hconn hincr).1]
  cases updateError env w.orders (assignRider env order riderId acceptReq) <;>
    simp [updatedOrders_cons, updatedOrders_append, updatedOrders_writesTo,
      updatedOrders_candidateCalls, asUpdateOrder, assignRider, updatedOrders_nil]

/-- Claim C6 (witness): rider 7 wins order 1 at the position "12.5", "12.5". -/
theorem acceptance_update_fields_witness :
    updatedOrders (callsSince (offeredWorld "ACCEPTED")
        (handleOrderAcceptance calmEnv (offeredWorld "ACCEPTED") 7 sampleAccept)) =
      [{ sampleOrder 1 "ACCEPTED" with
         RiderId := 7
         Latitude := .finite (25 / 2)
         Longitude := .finite (25 / 2)
         UpdatedAt := 1000
         DeliveryStarted := 1000
         Status := "RIDER_ASSIGNED" }] :=
  (acceptance_update_fields calmEnv (offeredWorld "ACCEPTED") 7 sampleAccept
    (sampleOrder 1 "ACCEPTED") (by decide) rfl (by decide) rfl rfl).1

/-- Claim C7 (counterexample). Order 1 was offered to the riders 7 and 8; rider 7
wins it and is in the list the "Already picked order" message goes to. -/
theorem winner_is_sent_already_picked :
    sentCount (callsSince (offeredWorld "ACCEPTED")
      (handleOrderAcceptance calmEnv (offeredWorld "ACCEPTED") 7 sampleAccept))
      "Order accepted" 7 = 1
    ∧ orderBroadcasts (callsSince (offeredWorld "ACCEPTED")
        (handleOrderAcceptance calmEnv (offeredWorld "ACCEPTED") 7 sampleAccept))
        "Already picked order" = [[7, 8]]
    ∧ writtenTo (callsSince (offeredWorld "ACCEPTED")
        (handleOrderAcceptance calmEnv (offeredWorld "ACCEPTED") 7 sampleAccept)) 70
      = [.newOrderBroadCast "Already picked order" 1, .text "Order accepted"] := by
  decide

/-- Claim C7 (amended). In a winning acceptance the "Already picked order"
message is broadcast once, to every member of the candidate set of the order
that the store holds at that time (none once the expiry of the set has ended)
and that reads as an id, in the order the store returns them; the winner is not
taken out, so a winner that is a candidate is in the list. When reading the
candidate set fails the message is not broadcast. -/
theorem already_picked_goes_to_every_candidate (env : Env) (w : World)
    (riderId : ObjectID) (acceptReq : AcceptOrderId) (order : Order)
    (hid : acceptReq.OrderId ≠ 0)
    (hfetch : (OrderMongo.GetOrder env w acceptReq.OrderId).2 = .ok order)
    (hstatus : order.Status ≠ "RIDER_ASSIGNED")
    (hconn : env.redisConnNil = false)
    (hincr : (Redis.Incr env (OrderMongo.GetOrder env w acceptReq.OrderId).1
      ("order_status:" ++ acceptReq.OrderId.Hex)).2 = .ok 1) :
    orderBroadcasts (callsSince w (handleOrderAcceptance env w riderId acceptReq))
        "Already picked order" =
      (match env.sMembersErr with
      | some _ => []
      | none =>
        [(w.members env.now ("rider_broadcasted:" ++ acceptReq.OrderId.Hex)).filterMap
          ObjectIDFromHex])
    ∧ (riderId < 2 ^ 96 →
        riderId.Hex ∈ w.members env.now ("rider_broadcasted:" ++ acceptReq.OrderId.Hex) →
        riderId ∈ (w.members env.now ("rider_broadcasted:" ++ acceptReq.OrderId.Hex)).filterMap
          ObjectIDFromHex) := by
  constructor
  · rw [(handleOrderAcceptance_won_calls hid hfetch hstatus hconn hincr).1]
    cases updateError env w.orders (assignRider env order riderId acceptReq) <;>
      simp [orderBroadcasts_cons, orderBroadcasts_append, orderBroadcasts_writesTo,
        orderBroadcasts_candidateCalls, asOrderBroadcast, orderBroadcasts_nil]
  · intro hlt hmem
    exact List.mem_filterMap.mpr ⟨riderId.Hex, hmem, ObjectIDFromHex_Hex riderId hlt⟩

/-- Claim C7 (witness): rider 7 wins order 1, which was offered to 7 and 8. -/
theorem already_picked_goes_to_every_candidate_witness :
    orderBroadcasts (callsSince (offeredWorld "ACCEPTED")
        (handleOrderAcceptance calmEnv (offeredWorld "ACCEPTED") 7 sampleAccept))
        "Already picked order" =
      [((offeredWorld "ACCEPTED").members calmEnv.now
          ("rider_broadcasted:" ++ ObjectID.Hex 1)).filterMap ObjectIDFromHex] :=
  (already_picked_goes_to_every_candidate calmEnv (offeredWorld "ACCEPTED") 7 sampleAccept
    (sampleOrder 1 "ACCEPTED") (by decide) rfl (by decide) rfl rfl).1

/-- Claim C8 (failing inputs). Rider 7 wins order 1 of customer 9: the location
message is broadcast to the user id 7 and nothing is written to the connection
90 of the customer. The same holds for a `send_location` frame of rider 7. -/
theorem location_goes_to_rider_id :
    (findOrder (offeredWorld "ACCEPTED").orders 1).map Order.UserId = some 9
    ∧ (offeredWorld "ACCEPTED").userClients.lookup (ObjectID.Hex 9) = some 90
    ∧ locationBroadcasts (callsSince (offeredWorld "ACCEPTED")
        (handleOrderAcceptance calmEnv (offeredWorld "ACCEPTED") 7 sampleAccept)) = [[7]]
    ∧ writtenTo (callsSince (offeredWorld "ACCEPTED")
        (handleOrderAcceptance calmEnv (offeredWorld "ACCEPTED") 7 sampleAccept)) 90 = []
    ∧ callsSince (offeredWorld "RIDER_ASSIGNED")
        (ProcessRiderMessage locationEnv (offeredWorld "RIDER_ASSIGNED") 7 "frame")
      = [Event.broadcastToUsers (.newLocationInfo "in between" "12.5" "12.5") [7]] := by
  decide

/-- Claim C9 (failing input). Rider 7 wins order 1 and the update of the order
fails: rider 7 has been sent "Order accepted", and the stored order is still
ACCEPTED without a rider. The token stays at 1, so when rider 7 asks again,
with the store working, the answer is "order already assigned" and the order
is still ACCEPTED without a rider. -/
theorem acknowledged_but_not_persisted :
    sentCount (callsSince (offeredWorld "ACCEPTED")
      (handleOrderAcceptance updateFailsEnv (offeredWorld "ACCEPTED") 7 sampleAccept))
      "Order accepted" 7 = 1
    ∧ (findOrder
        (handleOrderAcceptance updateFailsEnv (offeredWorld "ACCEPTED") 7 sampleAccept).orders
        1).map Order.Status = some "ACCEPTED"
    ∧ (findOrder
        (handleOrderAcceptance updateFailsEnv (offeredWorld "ACCEPTED") 7 sampleAccept).orders
        1).map Order.RiderId = some 0
    ∧ tokenOf (handleOrderAcceptance updateFailsEnv (offeredWorld "ACCEPTED") 7 sampleAccept) 1
      = 1
    ∧ sendsOf (callsSince
        (handleOrderAcceptance updateFailsEnv (offeredWorld "ACCEPTED") 7 sampleAccept)
        (handleOrderAcceptance calmEnv
          (handleOrderAcceptance updateFailsEnv (offeredWorld "ACCEPTED") 7 sampleAccept)
          7 sampleAccept))
      = [Event.broadcastToRiders (.text "order already assigned") [7],
         Event.writeMessage 70 (.text "order already assigned")]
    ∧ (findOrder
        (handleOrderAcceptance calmEnv
          (handleOrderAcceptance updateFailsEnv (offeredWorld "ACCEPTED") 7 sampleAccept)
          7 sampleAccept).orders 1).map (fun o => (o.Status, o.RiderId))
      = some ("ACCEPTED", 0) := by
  decide

end FoodEats
namespace FoodEats

/-- The acknowledgement on the path without a failure: when a run of
`handleOrderAcceptance` has sent "Order accepted" to the rider and the driver
call of `OrderRepo.UpdateOrder` did not fail, the order stored under the
requested id when the handler returns has Status RIDER_ASSIGNED and the rider
as RiderId. -/
theorem ack_implies_persisted_when_update_succeeds (env : Env) (w : World)
    (riderId : ObjectID) (acceptReq : AcceptOrderId)
    (hack : 0 < sentCount (callsSince w (handleOrderAcceptance env w riderId acceptReq))
      "Order accepted" riderId)
    (hupd : env.updateOrderErr = none) :
    ∃ o, findOrder (handleOrderAcceptance env w riderId acceptReq).orders acceptReq.OrderId
        = some o
      ∧ o.Status = "RIDER_ASSIGNED" ∧ o.RiderId = riderId := by
  obtain ⟨order, hid, hfetch, hstatus, hconn, hincr⟩ := ack_only_when_won env w riderId acceptReq hack
  refine ⟨assignRider env order riderId acceptReq, ?_, rfl, rfl⟩
  rw [(handleOrderAcceptance_won_calls hid hfetch hstatus hconn hincr).2]
  exact findOrder_updatedDocs hupd (GetOrder_ok hfetch).2 rfl


end FoodEats
namespace FoodEats

/-- Rider 7 wins order 1 and the update succeeds. -/
theorem ack_implies_persisted_when_update_succeeds_witness :
    ∃ o, findOrder (handleOrderAcceptance calmEnv (offeredWorld "ACCEPTED") 7 sampleAccept).orders
        sampleAccept.OrderId = some o
      ∧ o.Status = "RIDER_ASSIGNED" ∧ o.RiderId = 7 :=
  ack_implies_persisted_when_update_succeeds calmEnv (offeredWorld "ACCEPTED") 7 sampleAccept
    (by decide) rfl

/-- Claim C10. Offer phase: when `AcceptOrder` returns no error, the rider search
was issued once, with the latitude and longitude of the fetched restaurant and
Limit 10; the "New order for pickup" offer for the order was broadcast once, to
the ids of the riders the search returned, in that order; and afterwards the set
rider_broadcasted:<orderId> contains the hex form of each of these ids, in the
stored set and among the members the store holds at that time. -/
theorem offer_phase_candidates (env : Env) (w : World) (oa : AcceptPendingRestaurantOrder)
    (hok : (AcceptOrder env w oa).2 = none) :
    ∃ order restaurant,
      findOrder w.orders oa.Id = some order
      ∧ w.restaurants.find? (fun r => r.Id == oa.RestaurantId) = some restaurant
      ∧ riderSearches (callsSince w (AcceptOrder env w oa).1) =
          [{ Latitude := restaurant.Location.GetLatitude
             Longitude := restaurant.Location.GetLongitude
             Limit := 10 }]
      ∧ orderBroadcasts (callsSince w (AcceptOrder env w oa).1) "New order for pickup" =
          [(env.searchRider
              { Latitude := restaurant.Location.GetLatitude
                Longitude := restaurant.Location.GetLongitude
                Limit := 10 }).1.map (fun rider => rider.Id)]
      ∧ Event.broadcastToRiders (.newOrderBroadCast "New order for pickup" oa.Id)
          ((env.searchRider
              { Latitude := restaurant.Location.GetLatitude
                Longitude := restaurant.Location.GetLongitude
                Limit := 10 }).1.map (fun rider => rider.Id))
          ∈ callsSince w (AcceptOrder env w oa).1
      ∧ (∀ rider ∈ (env.searchRider
              { Latitude := restaurant.Location.GetLatitude
                Longitude := restaurant.Location.GetLongitude
                Limit := 10 }).1,
          rider.Id.Hex ∈
            ((AcceptOrder env w oa).1.sets.lookup ("rider_broadcasted:" ++ oa.Id.Hex)).getD [])
      ∧ ∀ rider ∈ (env.searchRider
              { Latitude := restaurant.Location.GetLatitude
                Longitude := restaurant.Location.GetLongitude
                Limit := 10 }).1,
          rider.Id.Hex ∈
            (AcceptOrder env w oa).1.members env.now ("rider_broadcasted:" ++ oa.Id.Hex) := by
  rw [AcceptOrder_eq] at hok ⊢
  cases hfetch : (OrderMongo.GetOrder env w oa.Id).2 with
  | error e => simp [hfetch] at hok
  | ok order =>
    simp only [hfetch] at hok ⊢
    cases hrest : (RestaurantMongo.GetRestaurant env w oa.RestaurantId).2 with
    | error e => simp [hrest] at hok
    | ok restaurant =>
      simp only [hrest] at hok ⊢
      by_cases hst : order.Status = "ACCEPTED"
      · simp [hst] at hok
      simp only [hst, if_false] at hok ⊢
      cases hupd : updateError env w.orders
          { order with Status := "ACCEPTED", AcceptedAt := env.now } with
      | some e => simp [hupd] at hok
      | none =>
        simp only [hupd] at hok ⊢
        have hfind := (GetOrder_ok hfetch).2
        have hoid : order.Id = oa.Id := findOrder_id hfind
        obtain ⟨l, h1, h2, -, h4⟩ := sAddAll_spec env ("rider_broadcasted:" ++ order.Id.Hex)
          ((env.searchRider (riderQuery restaurant)).1.map (fun rider => rider.Id))
          (acceptedWorld env w oa order restaurant)
        cases hs : sAddAll env ("rider_broadcasted:" ++ order.Id.Hex)
            (acceptedWorld env w oa order restaurant)
            ((env.searchRider (riderQuery restaurant)).1.map (fun rider => rider.Id)) with
        | mk w4 err =>
          rw [hs] at hok h1 h4
          cases err with
          | some e => simp at hok
          | none =>
            simp only at h1 h4 ⊢
            refine ⟨order, restaurant, hfind, GetRestaurant_found hrest, ?_, ?_, ?_, ?_, ?_⟩
            · have hl : riderSearches l = [] := filterMap_sAdds asSearchRider _ (fun _ => rfl) l h2
              rw [Expire_eq, h1]
              simp [callsSince, acceptedWorld, riderSearches_cons, riderSearches_append,
                riderSearches_writesTo, asSearchRider, riderQuery, hl, riderSearches_nil]
            · have hl : orderBroadcasts l "New order for pickup" = [] :=
                filterMap_sAdds (asOrderBroadcast "New order for pickup") _ (fun _ => rfl) l h2
              rw [Expire_eq, h1]
              simp [callsSince, acceptedWorld, orderBroadcasts_cons, orderBroadcasts_append,
                orderBroadcasts_writesTo, asOrderBroadcast, riderQuery, hl, orderBroadcasts_nil]
            · rw [Expire_eq, h1]
              simp [callsSince, acceptedWorld, riderQuery, hoid]
            · intro rider hr
              rw [Expire_sets, ← hoid]
              exact members_subset (h4 trivial rider.Id (List.mem_map_of_mem _ hr))
            · intro rider hr
              rw [← hoid]
              exact Expire_members (by decide) (h4 trivial rider.Id (List.mem_map_of_mem _ hr))

/-- Claim C10 (witness): the search answers with the riders 7 and 8, and both
are in the candidate set of order 1 afterwards. -/
theorem offer_phase_candidates_witness :
    (AcceptOrder searchEnv (sampleWorld "CREATED") { Id := 1, RestaurantId := 2 }).2 = none
    ∧ ObjectID.Hex 7 ∈
        ((AcceptOrder searchEnv (sampleWorld "CREATED") { Id := 1, RestaurantId := 2 }).1.sets.lookup
          ("rider_broadcasted:" ++ ObjectID.Hex 1)).getD []
    ∧ ObjectID.Hex 8 ∈
        ((AcceptOrder searchEnv (sampleWorld "CREATED") { Id := 1, RestaurantId := 2 }).1.sets.lookup
          ("rider_broadcasted:" ++ ObjectID.Hex 1)).getD [] := by
  obtain ⟨order, restaurant, -, hrest, -, -, -, h, -⟩ :=
    offer_phase_candidates searchEnv (sampleWorld "CREATED") { Id := 1, RestaurantId := 2 }
      (by decide)
  have hr : restaurant = sampleRestaurant := by
    have : (sampleWorld "CREATED").restaurants.find? (fun r => r.Id == 2) = some sampleRestaurant := by
      decide
    rw [this] at hrest
    exact (Option.some.inj hrest).symm
  subst hr
  exact ⟨by decide, h { Id := 7, Name := "a", Distance := 1 } (by simp [searchEnv]),
    h { Id := 8, Name := "b", Distance := 2 } (by simp [searchEnv])⟩

end FoodEats
namespace FoodEats


/-- Claim C11 (failing input). The rider search answers with the riders 7 and
8; the `SADD` of rider 7 succeeds and the one of rider 8 fails. `AcceptOrder`
returns the error at once: the candidate set of order 1 holds rider 7, no
`EXPIRE` was sent and the key has no expiry, so the store still holds rider 7
a thousand half-hours later. On the path without a failure the expiry ends 30
minutes after the offer, and the store holds no member from then on. -/
theorem candidate_set_left_without_expiry :
    (AcceptOrder sAddFailsEnv (sampleWorld "CREATED") { Id := 1, RestaurantId := 2 }).2
      = some (.new "connection reset")
    ∧ (AcceptOrder sAddFailsEnv (sampleWorld "CREATED") { Id := 1, RestaurantId := 2 }).1.sets.lookup
        "rider_broadcasted:000000000000000000000001" = some ["000000000000000000000007"]
    ∧ (AcceptOrder sAddFailsEnv (sampleWorld "CREATED") { Id := 1, RestaurantId := 2 }).1.expiry.lookup
        "rider_broadcasted:000000000000000000000001" = none
    ∧ Event.expire "rider_broadcasted:000000000000000000000001" (30 * Minute) ∉
        callsSince (sampleWorld "CREATED")
          (AcceptOrder sAddFailsEnv (sampleWorld "CREATED") { Id := 1, RestaurantId := 2 }).1
    ∧ (AcceptOrder sAddFailsEnv (sampleWorld "CREATED") { Id := 1, RestaurantId := 2 }).1.members
        (sAddFailsEnv.now + 1000 * (30 * Minute)) "rider_broadcasted:000000000000000000000001"
      = ["000000000000000000000007"]
    ∧ (AcceptOrder searchEnv (sampleWorld "CREATED") { Id := 1, RestaurantId := 2 }).1.expiry.lookup
        "rider_broadcasted:000000000000000000000001" = some (searchEnv.now + 30 * Minute)
    ∧ (AcceptOrder searchEnv (sampleWorld "CREATED") { Id := 1, RestaurantId := 2 }).1.members
        (searchEnv.now + 30 * Minute) "rider_broadcasted:000000000000000000000001" = [] := by
  decide

/-- Claim C12 (counterexample). A "delivered" message for order 1, which is in
the status CREATED and was never accepted, so that AcceptedAt is the zero
time; the clock stands at 63900000000 seconds after the zero time. The
difference does not fit a `time.Duration`: the order handed to `UpdateOrder`
has the delivery time 9223372036.854775807 seconds, the largest duration, not
the 63900000000 seconds between DeliveredAt and AcceptedAt. -/
theorem never_accepted_order_gets_largest_duration :
    (findOrder (sampleWorld "CREATED").orders 1).map (fun o => (o.Status, o.AcceptedAt))
      = some ("CREATED", 0)
    ∧ (updatedOrders (callsSince (sampleWorld "CREATED")
        (handleOrderDelivered (envAt 63900000000000000000) (sampleWorld "CREATED")
          sampleAccept))).map (fun o => (o.Status, o.DeliveredAt, o.AcceptedAt, o.DeliveryTime))
      = [("DELIVERED", 63900000000000000000, 0, 9223372036854775807 / 1000000000)]
    ∧ (9223372036854775807 / 1000000000 : Float64)
      ≠ ((63900000000000000000 - 0 : Int) : Float64) / 1000000000 := by
  refine ⟨by decide, by decide!, by norm_num⟩

/-- Claim C12 (amended). Delivery completion: for a "delivered" message with a
non-zero order id whose order is fetched in a status other than DELIVERED,
`OrderRepo.UpdateOrder` is called once, with the fetched order in which Status
is "DELIVERED", DeliveredAt and UpdatedAt are the current time, DeliveryTime is
`DeliveredAt.Sub(AcceptedAt).Seconds()`, Latitude and Longitude are the values
`strconv.ParseFloat` returns for the strings of the message, and every other
field is unchanged. The delivery time is the difference in nanoseconds over
`1e9` when the difference fits a `time.Duration`, the largest duration over
`1e9` when the difference is above it, and the smallest duration over `1e9`
when the difference is below it. -/
theorem delivery_update_fields (env : Env) (w : World) (acceptReq : AcceptOrderId)
    (order : Order)
    (hid : acceptReq.OrderId ≠ 0)
    (hfetch : (OrderMongo.GetOrder env w acceptReq.OrderId).2 = .ok order)
    (hstatus : order.Status ≠ "DELIVERED") :
    updatedOrders (callsSince w (handleOrderDelivered env w acceptReq)) =
      [{ Id := order.Id
         UserId := order.UserId
         RiderId := order.RiderId
         RestaurantId := order.RestaurantId
         DeliveryPhoneNumber := order.DeliveryPhoneNumber
         DeliveryLatitude := order.DeliveryLatitude
         DeliveryLongitude := order.DeliveryLongitude
         DeliveryAddress := order.DeliveryAddress
         PickupPhoneNumber := order.PickupPhoneNumber
         PickupLatitude := order.PickupLatitude
         PickupLongitude := order.PickupLongitude
         PickupAddress := order.PickupAddress
         Items := order.Items
         FinalPrice := order.FinalPrice
         Latitude := (ParseFloat env acceptReq.Latitude).1
         Longitude := (ParseFloat env acceptReq.Longitude).1
         DeliveryTime := (Time.Sub env.now order.AcceptedAt).Seconds
         CreatedAt := order.CreatedAt
         AcceptedAt := order.AcceptedAt
         UpdatedAt := env.now
         DeliveryStarted := order.DeliveryStarted
         DeliveredAt := env.now
         Status := "DELIVERED" }]
    ∧ (minDuration ≤ env.now - order.AcceptedAt → env.now - order.AcceptedAt ≤ maxDuration →
        (Time.Sub env.now order.AcceptedAt).Seconds
          = ((env.now - order.AcceptedAt : Int) : Float64) / 1000000000)
    ∧ (maxDuration < env.now - order.AcceptedAt →
        (Time.Sub env.now order.AcceptedAt).Seconds
          = ((2 ^ 63 - 1 : Int) : Float64) / 1000000000)
    ∧ (env.now - order.AcceptedAt < minDuration →
        (Time.Sub env.now order.AcceptedAt).Seconds
          = ((-(2 ^ 63) : Int) : Float64) / 1000000000) := by
  refine ⟨?_, ?_, ?_, ?_⟩
  · obtain ⟨⟨l, hl, hnil⟩, -⟩ := handleOrderDelivered_fresh_calls hid hfetch hstatus
    rw [hl]
    simp [updatedOrders_cons, asUpdateOrder, hnil, deliveredOrder]
  · intro h1 h2
    rw [Time.Sub_of_fits h1 h2]
    rfl
  · intro h
    unfold Time.Sub
    rw [if_pos h]
    rfl
  · intro h
    have hmax : ¬ env.now - order.AcceptedAt > maxDuration := by
      have : minDuration ≤ maxDuration := by decide
      intro h1
      exact absurd (lt_of_lt_of_le (lt_of_lt_of_le h1.lt (le_refl _)) (le_refl _))
        (not_lt.mpr (le_trans (le_of_lt h) this))
    unfold Time.Sub
    rw [if_neg hmax, if_pos h]
    rfl

/-- Claim C12 (witness): the delivered message for order 1, accepted at time 0
and delivered at time 1000. -/
theorem delivery_update_fields_witness :
    updatedOrders (callsSince (offeredWorld "RIDER_ASSIGNED")
        (handleOrderDelivered calmEnv (offeredWorld "RIDER_ASSIGNED") sampleAccept)) =
      [{ sampleOrder 1 "RIDER_ASSIGNED" with
         Latitude := .finite (25 / 2)
         Longitude := .finite (25 / 2)
         DeliveryTime := (Time.Sub 1000 0).Seconds
         UpdatedAt := 1000
         DeliveredAt := 1000
         Status := "DELIVERED" }] :=
  (delivery_update_fields calmEnv (offeredWorld "RIDER_ASSIGNED") sampleAccept
    (sampleOrder 1 "RIDER_ASSIGNED") (by decide) rfl (by decide)).1

/-- Claim C13. The delivery time is set only once. For an order fetched as
DELIVERED, `handleOrderDelivered` adds the fetch to the log and does nothing
else: no update, no message, no recomputation. Hence when a first application
has written the order, a second application for the same order changes
nothing but the log, and the stored order keeps the DeliveredAt and the
DeliveryTime of the first application. -/
theorem delivered_only_once (env1 env2 : Env) (w : World) (req1 req2 : AcceptOrderId)
    (order : Order)
    (hid : req1.OrderId ≠ 0)
    (hsame : req2.OrderId = req1.OrderId)
    (hfetch : (OrderMongo.GetOrder env1 w req1.OrderId).2 = .ok order)
    (hstatus : order.Status ≠ "DELIVERED")
    (hupd : env1.updateOrderErr = none) :
    (∀ (env : Env) (w1 : World) (req : AcceptOrderId) (o : Order),
        req.OrderId ≠ 0 → (OrderMongo.GetOrder env w1 req.OrderId).2 = .ok o →
        o.Status = "DELIVERED" →
        handleOrderDelivered env w1 req =
          { w1 with log := w1.log ++ [Event.getOrder req.OrderId] })
    ∧ handleOrderDelivered env2 (handleOrderDelivered env1 w req1) req2 =
        { handleOrderDelivered env1 w req1 with
          log := (handleOrderDelivered env1 w req1).log ++ [Event.getOrder req2.OrderId] }
    ∧ ∃ o, findOrder (handleOrderDelivered env2 (handleOrderDelivered env1 w req1) req2).orders
          req1.OrderId = some o
        ∧ o.DeliveredAt = env1.now
        ∧ o.DeliveryTime = (Time.Sub env1.now order.AcceptedAt).Seconds := by
  have hstored : findOrder (handleOrderDelivered env1 w req1).orders req1.OrderId
      = some (deliveredOrder env1 order req1) := by
    rw [(handleOrderDelivered_fresh_calls hid hfetch hstatus).2]
    exact findOrder_updatedDocs hupd (GetOrder_ok hfetch).2 rfl
  have hid2 : req2.OrderId ≠ 0 := hsame ▸ hid
  have hnoop := handleOrderDelivered_noop env2 hid2 (hsame ▸ hstored) rfl
  refine ⟨fun env w1 req o h1 h2 h3 => handleOrderDelivered_delivered h1 h2 h3, hnoop, ?_⟩
  rw [hnoop]
  exact ⟨_, hstored, rfl, rfl⟩

/-- Claim C13 (witness): order 1 is delivered at time 1000; a second delivered
message at time 5000 leaves DeliveredAt at 1000. -/
theorem delivered_only_once_witness :
    ∃ o, findOrder (handleOrderDelivered { calmEnv with now := 5000 }
          (handleOrderDelivered calmEnv (offeredWorld "RIDER_ASSIGNED") sampleAccept)
          sampleAccept).orders sampleAccept.OrderId = some o
        ∧ o.DeliveredAt = calmEnv.now
        ∧ o.DeliveryTime = (Time.Sub calmEnv.now (sampleOrder 1 "RIDER_ASSIGNED").AcceptedAt).Seconds :=
  (delivered_only_once calmEnv { calmEnv with now := 5000 } (offeredWorld "RIDER_ASSIGNED")
    sampleAccept sampleAccept (sampleOrder 1 "RIDER_ASSIGNED") (by decide) rfl rfl (by decide)
    rfl).2.2

/-- Claim C14 (failing input). Order 1 of customer 9, who is connected on 90 in
the user registry, is delivered and persisted: the only send is a broadcast of
"rider reached location" to the rider registry under the id 9, where nobody is
registered, and nothing is written to the connection 90. -/
theorem delivered_status_goes_to_rider_registry :
    (findOrder (offeredWorld "RIDER_ASSIGNED").orders 1).map Order.UserId = some 9
    ∧ (offeredWorld "RIDER_ASSIGNED").userClients.lookup (ObjectID.Hex 9) = some 90
    ∧ (findOrder (handleOrderDelivered calmEnv (offeredWorld "RIDER_ASSIGNED")
        sampleAccept).orders 1).map Order.Status = some "DELIVERED"
    ∧ sendsOf (callsSince (offeredWorld "RIDER_ASSIGNED")
        (handleOrderDelivered calmEnv (offeredWorld "RIDER_ASSIGNED") sampleAccept))
      = [Event.broadcastToRiders (.newLocationInfo "rider reached location" "" "") [9]]
    ∧ writtenTo (callsSince (offeredWorld "RIDER_ASSIGNED")
        (handleOrderDelivered calmEnv (offeredWorld "RIDER_ASSIGNED") sampleAccept)) 90 = [] := by
  decide!

/-- Claim C15. Average delivery time: when the search of `updateDeliveryTime`
returns a list of orders, `UpdateAverageDeliveryTime` is called once, for the
restaurant of the order, with the sum of the `distanceBetweenPoints` values
between the pickup point of the order and those of the orders returned, over
the sum of their delivery times plus 1. For the empty list the value is 0 and
the divisor is 1. -/
theorem average_delivery_time_formula (env : Env) (w : World) (order : Order)
    (searchOrders : List Order) (total : Int)
    (hsearch : (OrderMongo.SearchOrder env w
      { OrderId := order.Id, Status := "DELIVERED", RestaurantId := order.RestaurantId,
        DriverId := 0, UserId := 0, Limit := 0, Skip := 0 }).2 = .ok (searchOrders, total)) :
    deliveryTimeUpdates (callsSince w (updateDeliveryTime env w order).1) =
      [(order.RestaurantId,
        (searchOrders.map (fun o => distanceBetweenPoints env order.PickupLatitude
            order.PickupLongitude o.PickupLatitude o.PickupLongitude)).sum
          / ((searchOrders.map (fun o => o.DeliveryTime)).sum + 1))]
    ∧ (searchOrders = [] →
        deliveryTimeUpdates (callsSince w (updateDeliveryTime env w order).1) =
          [(order.RestaurantId, 0)]
        ∧ (searchOrders.map (fun o => o.DeliveryTime)).sum + 1 = 1) := by
  have hq : (OrderMongo.SearchOrder env w (deliveryQuery order)).2 = .ok (searchOrders, total) :=
    hsearch
  have hcalls : deliveryTimeUpdates (callsSince w (updateDeliveryTime env w order).1) =
      [(order.RestaurantId,
        (searchOrders.map (fun o => distanceBetweenPoints env order.PickupLatitude
            order.PickupLongitude o.PickupLatitude o.PickupLongitude)).sum
          / ((searchOrders.map (fun o => o.DeliveryTime)).sum + 1))] := by
    rw [updateDeliveryTime_frame]
    simp [callsSince, recomputeCalls, hq, deliveryTimeUpdates, asDeliveryTimeUpdate]
  refine ⟨hcalls, ?_⟩
  intro hnil
  rw [hcalls, hnil]
  simp

/-- Claim C15 (witness): the search for order 1 of restaurant 2 returns the
stored order 1, delivered in 600 seconds. -/
theorem average_delivery_time_formula_witness :
    deliveryTimeUpdates (callsSince twoDeliveredWorld
        (updateDeliveryTime calmEnv twoDeliveredWorld (sampleOrder 1 "DELIVERED")).1) =
      [((sampleOrder 1 "DELIVERED").RestaurantId,
        ([{ sampleOrder 1 "DELIVERED" with DeliveryTime := 600 }].map
            (fun o => distanceBetweenPoints calmEnv (sampleOrder 1 "DELIVERED").PickupLatitude
              (sampleOrder 1 "DELIVERED").PickupLongitude o.PickupLatitude o.PickupLongitude)).sum
          / (([{ sampleOrder 1 "DELIVERED" with DeliveryTime := 600 }].map
            (fun o => o.DeliveryTime)).sum + 1))] :=
  (average_delivery_time_formula calmEnv twoDeliveredWorld (sampleOrder 1 "DELIVERED")
    [{ sampleOrder 1 "DELIVERED" with DeliveryTime := 600 }] 1 rfl).1

/-- Claim C16 (failing input). Restaurant 2 has two delivered orders, 1 and 3.
The query `updateDeliveryTime` sends for order 1 carries the id of order 1, and
`SearchOrder` answers it with order 1 alone. -/
theorem recomputation_sees_one_order :
    (twoDeliveredWorld.orders.filter
        (fun o => o.RestaurantId == 2 && o.Status == "DELIVERED")).map Order.Id = [1, 3]
    ∧ orderSearches (callsSince twoDeliveredWorld
        (updateDeliveryTime calmEnv twoDeliveredWorld (sampleOrder 1 "DELIVERED")).1) =
      [{ OrderId := 1, RestaurantId := 2, DriverId := 0, UserId := 0, Status := "DELIVERED"
         Limit := 0, Skip := 0 }]
    ∧ (OrderMongo.SearchOrder calmEnv twoDeliveredWorld
        { OrderId := 1, RestaurantId := 2, DriverId := 0, UserId := 0, Status := "DELIVERED"
          Limit := 0, Skip := 0 }).2.toOption.map (fun p => p.1.map Order.Id) = some [1] := by
  decide!

/-- Claim C17. The method `calculateAverageRating` returns 0 for the empty list
and, for a non-empty list, the sum of the ratings over their number. -/
theorem average_rating_is_mean (ratings : List Rating) :
    calculateAverageRating [] = 0
    ∧ (ratings ≠ [] →
        calculateAverageRating ratings =
          (((ratings.map (fun r => r.Rating)).sum : Int) : Float64) / (ratings.length : Float64)) := by
  constructor
  · rfl
  · intro hne
    unfold calculateAverageRating
    have hlen : ratings.length ≠ 0 := fun h => hne (List.length_eq_zero.mp h)
    simp only [hlen, if_false, foldl_ratings, zero_add]

/-- Claim C17 (witness): the ratings 4, 2 and 3. -/
theorem average_rating_is_mean_witness :
    calculateAverageRating ratedWorld.ratings =
      (((ratedWorld.ratings.map (fun r => r.Rating)).sum : Int) : Float64)
        / (ratedWorld.ratings.length : Float64) :=
  (average_rating_is_mean ratedWorld.ratings).2 (by decide)

/-- Claim C18 (counterexample). User 5 has rated rider 7 with 4, restaurant 2
with 2 and user 9 with 3. For the rating of rider 7 the average handed to the
rider repository is 3, the mean of all three, while the ratings user 5 gave to
riders have the mean 4. -/
theorem other_receiver_types_are_averaged :
    ratingUpdates (callsSince ratedWorld
        (UpdateAverageRatingsForRider (sampleRatingRequest 7 "rider") calmEnv ratedWorld 7).1)
      = [("Rider", 7, 3)]
    ∧ calculateAverageRating (ratedWorld.ratings.filter
        (fun r => r.RatingGiver == 5 && r.RatingReceiverType == "rider")) = 4 := by
  decide!

/-- Claim C18 (amended). When the search succeeds, the ratings averaged by
`UpdateAverageRatingsForRider`, `UpdateAverageRatingsForUser` and
`UpdateAverageRatingsForRestaurant` are exactly the stored ratings whose giver
is the giver of the new rating (all stored ratings when that id is zero),
whatever their receiver and receiver type. -/
theorem ratings_of_the_giver_are_averaged (request : RatingRequest) (env : Env) (w : World)
    (id : ObjectID)
    (hs : env.searchRatingErr = none) (hd : env.decodeRatingsErr = none) :
    ratingUpdates (callsSince w (UpdateAverageRatingsForRider request env w id).1) =
      [("Rider", id, calculateAverageRating (w.ratings.filter
        (fun r => request.RatingGiver.IsZero || r.RatingGiver == request.RatingGiver)))]
    ∧ ratingUpdates (callsSince w (UpdateAverageRatingsForUser request env w id).1) =
      [("Rider", id, calculateAverageRating (w.ratings.filter
        (fun r => request.RatingGiver.IsZero || r.RatingGiver == request.RatingGiver)))]
    ∧ ratingUpdates (callsSince w (UpdateAverageRatingsForRestaurant request env w id).1) =
      [("Restaurant", id, calculateAverageRating (w.ratings.filter
        (fun r => request.RatingGiver.IsZero || r.RatingGiver == request.RatingGiver)))] := by
  have hf : (fun r : Rating =>
      ((request.RatingGiver.IsZero || r.RatingGiver == request.RatingGiver) &&
        (ObjectID.IsZero 0 || r.RatingReceiver == 0)))
      = (fun r => request.RatingGiver.IsZero || r.RatingGiver == request.RatingGiver) := by
    funext r
    simp [ObjectID.IsZero]
  refine ⟨?_, ?_, ?_⟩
  · simp only [UpdateAverageRatingsForRider, SearchRating_ok w _ hs hd, callsSince,
      RiderUpdateAverageRating_log, hf]
    simp [ratingUpdates, asRatingUpdate]
  · simp only [UpdateAverageRatingsForUser, SearchRating_ok w _ hs hd, callsSince,
      UserUpdateAverageRating_log, hf]
    simp [ratingUpdates, asRatingUpdate]
  · simp only [UpdateAverageRatingsForRestaurant, SearchRating_ok w _ hs hd, callsSince,
      RestaurantUpdateAverageRating_log, hf]
    simp [ratingUpdates, asRatingUpdate]

/-- Claim C18 (witness): the rating of rider 7 by user 5. -/
theorem ratings_of_the_giver_are_averaged_witness :
    ratingUpdates (callsSince ratedWorld
        (UpdateAverageRatingsForRider (sampleRatingRequest 7 "rider") calmEnv ratedWorld 7).1) =
      [("Rider", 7, calculateAverageRating (ratedWorld.ratings.filter
        (fun r => (sampleRatingRequest 7 "rider").RatingGiver.IsZero
          || r.RatingGiver == (sampleRatingRequest 7 "rider").RatingGiver)))] :=
  (ratings_of_the_giver_are_averaged (sampleRatingRequest 7 "rider") calmEnv ratedWorld 7
    rfl rfl).1

/-- Claim C19 (failing input). User 5 rates user 9, who is stored with the
average 0. `UpdateAverageRatingsForUser` sends the mean 3 to the collection
"Rider" under the id 9, finds no such rider and returns "no matching document";
the collection "User" is unchanged and `GetUser` of 9 still returns the average
0. When a rider with the id 9 is stored, it is this rider that gets the
average. -/
theorem user_average_goes_to_rider_collection :
    (UpdateAverageRatingsForUser (sampleRatingRequest 9 "user") calmEnv ratedWorld 9).2
      = some (.joinClient (.new "no matching document"))
    ∧ ratingUpdates (callsSince ratedWorld
        (UpdateAverageRatingsForUser (sampleRatingRequest 9 "user") calmEnv ratedWorld 9).1)
      = [("Rider", 9, 3)]
    ∧ (UpdateAverageRatingsForUser (sampleRatingRequest 9 "user") calmEnv ratedWorld 9).1.users
      = ratedWorld.users
    ∧ (UserMongoDb.GetUser calmEnv
        (UpdateAverageRatingsForUser (sampleRatingRequest 9 "user") calmEnv ratedWorld 9).1
        9).2.toOption.map User.AverageRating = some 0
    ∧ (UpdateAverageRatingsForUser (sampleRatingRequest 9 "user") calmEnv
        { ratedWorld with riders := [{ sampleRider with Id := 9 }] } 9).1.riders.map
          (fun r => (r.Id, r.AverageRating)) = [(9, 3)] := by
  decide!

/-- Claim C20. Broadcast tolerates unreachable actors. `BroadcastToRiders` and
`BroadcastToUsers` are total; apart from the log they leave the state as it
is; after the broadcast itself the log gains exactly one write per listed id
that has a connection in the registry, in list order, and nothing for the
other ids. In particular a write to the connection of an id is attempted
whatever the outcome of the writes to the ids before it. -/
theorem broadcast_tolerates_unreachable (w : World) (message : Message)
    (ids : List ObjectID) :
    SocketManager.BroadcastToRiders w message ids =
      { w with
        log := w.log ++ Event.broadcastToRiders message ids ::
          ids.filterMap (fun id =>
            (w.riderClients.lookup id.Hex).map (fun c => Event.writeMessage c message)) }
    ∧ SocketManager.BroadcastToUsers w message ids =
      { w with
        log := w.log ++ Event.broadcastToUsers message ids ::
          ids.filterMap (fun id =>
            (w.userClients.lookup id.Hex).map (fun c => Event.writeMessage c message)) }
    ∧ (∀ (env : Env) (before after : List ObjectID) (failing id : ObjectID) (c1 c2 : Conn),
        ids = before ++ failing :: after →
        w.riderClients.lookup failing.Hex = some c1 → env.writeErr c1 = true →
        id ∈ after → w.riderClients.lookup id.Hex = some c2 →
        message ∈ writtenTo (callsSince w (SocketManager.BroadcastToRiders w message ids)) c2)
    ∧ (∀ (env : Env) (before after : List ObjectID) (failing id : ObjectID) (c1 c2 : Conn),
        ids = before ++ failing :: after →
        w.userClients.lookup failing.Hex = some c1 → env.writeErr c1 = true →
        id ∈ after → w.userClients.lookup id.Hex = some c2 →
        message ∈ writtenTo (callsSince w (SocketManager.BroadcastToUsers w message ids)) c2) := by
  refine ⟨by rw [BroadcastToRiders_eq]; rfl, by rw [BroadcastToUsers_eq]; rfl, ?_, ?_⟩
  · intro env before after failing id c1 c2 hids _ _ hid hc
    rw [BroadcastToRiders_eq]
    have hmem : id ∈ ids := by rw [hids]; simp [hid]
    have := mem_writtenTo_writesTo (m := message) hmem hc
    simp only [callsSince, List.drop_left]
    rw [show (Event.broadcastToRiders message ids :: writesTo w.riderClients message ids)
      = [Event.broadcastToRiders message ids] ++ writesTo w.riderClients message ids from rfl,
      writtenTo_append]
    exact List.mem_append_right _ this
  · intro env before after failing id c1 c2 hids _ _ hid hc
    rw [BroadcastToUsers_eq]
    have hmem : id ∈ ids := by rw [hids]; simp [hid]
    have := mem_writtenTo_writesTo (m := message) hmem hc
    simp only [callsSince, List.drop_left]
    rw [show (Event.broadcastToUsers message ids :: writesTo w.userClients message ids)
      = [Event.broadcastToUsers message ids] ++ writesTo w.userClients message ids from rfl,
      writtenTo_append]
    exact List.mem_append_right _ this

/-- Claim C20 (witness): a broadcast to the riders 7, 5 and 8, of whom 5 is not
connected and the write to 7 fails. -/
theorem broadcast_tolerates_unreachable_witness :
    callsSince (offeredWorld "ACCEPTED")
        (SocketManager.BroadcastToRiders (offeredWorld "ACCEPTED") (.text "hello") [7, 5, 8])
      = [Event.broadcastToRiders (.text "hello") [7, 5, 8],
         Event.writeMessage 70 (.text "hello"), Event.writeMessage 80 (.text "hello")]
    ∧ Message.text "hello" ∈ writtenTo (callsSince (offeredWorld "ACCEPTED")
        (SocketManager.BroadcastToRiders (offeredWorld "ACCEPTED") (.text "hello") [7, 5, 8])) 80 :=
  ⟨by decide,
    (broadcast_tolerates_unreachable (offeredWorld "ACCEPTED") (.text "hello") [7, 5, 8]).2.2.1
      { calmEnv with writeErr := fun c => c == 70 } [] [5, 8] 7 8 70 80 rfl (by decide) rfl
      (by decide) (by decide)⟩

/-- Claim C21. Last registration wins: after `RegisterRider` of an id with the
connection `c1` and then with `c2`, the rider map binds the hex form of the id
to `c2` and holds no other binding of it; a broadcast to the id makes one write,
to `c2`, and none to `c1` when that is another connection; every other key of
the rider map, hence the entry of every other id, is as before, and so are the
user map and the rest of the state. The same holds for `RegisterUser`, the user
map and `BroadcastToUsers`. -/
theorem last_registration_wins (w : World) (id : ObjectID) (c1 c2 : Conn)
    (message : Message) :
    ((SocketManager.RegisterRider (SocketManager.RegisterRider w id c1) id c2).riderClients.lookup
          id.Hex = some c2
      ∧ (SocketManager.RegisterRider (SocketManager.RegisterRider w id c1) id c2).riderClients.filter
          (fun p => p.1 == id.Hex) = [(id.Hex, c2)]
      ∧ callsSince (SocketManager.RegisterRider (SocketManager.RegisterRider w id c1) id c2)
          (SocketManager.BroadcastToRiders
            (SocketManager.RegisterRider (SocketManager.RegisterRider w id c1) id c2) message [id])
          = [Event.broadcastToRiders message [id], Event.writeMessage c2 message]
      ∧ (c1 ≠ c2 →
          writtenTo (callsSince
            (SocketManager.RegisterRider (SocketManager.RegisterRider w id c1) id c2)
            (SocketManager.BroadcastToRiders
              (SocketManager.RegisterRider (SocketManager.RegisterRider w id c1) id c2)
              message [id])) c1 = [])
      ∧ (∀ key, key ≠ id.Hex →
          (SocketManager.RegisterRider (SocketManager.RegisterRider w id c1) id c2).riderClients.lookup
            key = w.riderClients.lookup key)
      ∧ (∀ other, id < 2 ^ 96 → other < 2 ^ 96 → other ≠ id →
          (SocketManager.RegisterRider (SocketManager.RegisterRider w id c1) id c2).riderClients.lookup
            other.Hex = w.riderClients.lookup other.Hex)
      ∧ SocketManager.RegisterRider (SocketManager.RegisterRider w id c1) id c2 =
          { w with riderClients :=
              (SocketManager.RegisterRider (SocketManager.RegisterRider w id c1) id
                c2).riderClients })
    ∧ ((SocketManager.RegisterUser (SocketManager.RegisterUser w id c1) id c2).userClients.lookup
          id.Hex = some c2
      ∧ (SocketManager.RegisterUser (SocketManager.RegisterUser w id c1) id c2).userClients.filter
          (fun p => p.1 == id.Hex) = [(id.Hex, c2)]
      ∧ callsSince (SocketManager.RegisterUser (SocketManager.RegisterUser w id c1) id c2)
          (SocketManager.BroadcastToUsers
            (SocketManager.RegisterUser (SocketManager.RegisterUser w id c1) id c2) message [id])
          = [Event.broadcastToUsers message [id], Event.writeMessage c2 message]
      ∧ (c1 ≠ c2 →
          writtenTo (callsSince
            (SocketManager.RegisterUser (SocketManager.RegisterUser w id c1) id c2)
            (SocketManager.BroadcastToUsers
              (SocketManager.RegisterUser (SocketManager.RegisterUser w id c1) id c2)
              message [id])) c1 = [])
      ∧ (∀ key, key ≠ id.Hex →
          (SocketManager.RegisterUser (SocketManager.RegisterUser w id c1) id c2).userClients.lookup
            key = w.userClients.lookup key)
      ∧ (∀ other, id < 2 ^ 96 → other < 2 ^ 96 → other ≠ id →
          (SocketManager.RegisterUser (SocketManager.RegisterUser w id c1) id c2).userClients.lookup
            other.Hex = w.userClients.lookup other.Hex)
      ∧ SocketManager.RegisterUser (SocketManager.RegisterUser w id c1) id c2 =
          { w with userClients :=
              (SocketManager.RegisterUser (SocketManager.RegisterUser w id c1) id
                c2).userClients }) := by
  have hr : (SocketManager.RegisterRider (SocketManager.RegisterRider w id c1) id c2).riderClients
      = kvSet (kvSet w.riderClients id.Hex c1) id.Hex c2 := rfl
  have hu : (SocketManager.RegisterUser (SocketManager.RegisterUser w id c1) id c2).userClients
      = kvSet (kvSet w.userClients id.Hex c1) id.Hex c2 := rfl
  have hkey : ∀ {α : Type} (m : List (String × α)) (a b : α) (key : String), key ≠ id.Hex →
      (kvSet (kvSet m id.Hex a) id.Hex b).lookup key = m.lookup key := by
    intro α m a b key h
    rw [kvSet_lookup_ne _ _ _ _ h, kvSet_lookup_ne _ _ _ _ h]
  refine ⟨⟨?_, ?_, ?_, ?_, ?_, ?_, rfl⟩, ⟨?_, ?_, ?_, ?_, ?_, ?_, rfl⟩⟩
  · rw [hr, kvSet_lookup]
  · rw [hr, kvSet_bindings]
  · rw [BroadcastToRiders_eq, hr, writesTo_single _ _ _ c2 (kvSet_lookup _ _ _)]
    simp [callsSince]
  · intro hne
    rw [BroadcastToRiders_eq, hr, writesTo_single _ _ _ c2 (kvSet_lookup _ _ _)]
    simp [callsSince, writtenTo, Ne.symm hne]
  · intro key h
    rw [hr, hkey _ _ _ _ h]
  · intro other hid hother hne
    rw [hr, hkey _ _ _ _ (fun h => hne (Hex_injective hother hid h))]
  · rw [hu, kvSet_lookup]
  · rw [hu, kvSet_bindings]
  · rw [BroadcastToUsers_eq, hu, writesTo_single _ _ _ c2 (kvSet_lookup _ _ _)]
    simp [callsSince]
  · intro hne
    rw [BroadcastToUsers_eq, hu, writesTo_single _ _ _ c2 (kvSet_lookup _ _ _)]
    simp [callsSince, writtenTo, Ne.symm hne]
  · intro key h
    rw [hu, hkey _ _ _ _ h]
  · intro other hid hother hne
    rw [hu, hkey _ _ _ _ (fun h => hne (Hex_injective hother hid h))]

/-- Claim C21 (witness): rider 7, connected on 70, registers again on 71; a
broadcast to 7 writes nothing to 70, and rider 8 stays on 80. -/
theorem last_registration_wins_witness :
    writtenTo (callsSince
        (SocketManager.RegisterRider
          (SocketManager.RegisterRider (offeredWorld "ACCEPTED") 7 70) 7 71)
        (SocketManager.BroadcastToRiders
          (SocketManager.RegisterRider
            (SocketManager.RegisterRider (offeredWorld "ACCEPTED") 7 70) 7 71)
          (.text "hello") [7])) 70 = []
    ∧ (SocketManager.RegisterRider
          (SocketManager.RegisterRider (offeredWorld "ACCEPTED") 7 70) 7 71).riderClients.lookup
        (ObjectID.Hex 8) = (offeredWorld "ACCEPTED").riderClients.lookup (ObjectID.Hex 8) :=
  ⟨(last_registration_wins (offeredWorld "ACCEPTED") 7 70 71 (.text "hello")).1.2.2.2.1
      (by decide),
    (last_registration_wins (offeredWorld "ACCEPTED") 7 70 71 (.text "hello")).1.2.2.2.2.2.1 8
      (by decide) (by decide) (by decide)⟩

/-- Claim C22 (failing inputs). Rider 7 connects on 70, sends one location
frame, and the next read fails: `ConnectRiderWebSocket` returns nil and has
closed connection 70, and the rider map still binds rider 7 to 70. A broadcast
to rider 7 (to customer 9), whatever becomes of its write to 70 (to 90), leaves
the binding of 7 to 70 (of 9 to 90) in the map: the error of a write is only
logged. -/
theorem dead_connection_stays_registered :
    (ConnectRiderWebSocket connectEnv (sampleWorld "RIDER_ASSIGNED") (.ok 70) (.ok "hello")
        [(connectEnv, "frame")]).2 = none
    ∧ (ConnectRiderWebSocket connectEnv (sampleWorld "RIDER_ASSIGNED") (.ok 70) (.ok "hello")
        [(connectEnv, "frame")]).1.log
      = [Event.broadcastToUsers (.newLocationInfo "in between" "12.5" "12.5") [7],
         Event.close 70]
    ∧ (ConnectRiderWebSocket connectEnv (sampleWorld "RIDER_ASSIGNED") (.ok 70) (.ok "hello")
        [(connectEnv, "frame")]).1.riderClients.lookup (ObjectID.Hex 7) = some 70
    ∧ writtenTo (callsSince (offeredWorld "ACCEPTED")
        (SocketManager.BroadcastToRiders (offeredWorld "ACCEPTED") (.text "hello") [7])) 70
      = [.text "hello"]
    ∧ (SocketManager.BroadcastToRiders (offeredWorld "ACCEPTED") (.text "hello")
        [7]).riderClients.lookup (ObjectID.Hex 7) = some 70
    ∧ (SocketManager.BroadcastToUsers (offeredWorld "ACCEPTED") (.text "hello")
        [9]).userClients.lookup (ObjectID.Hex 9) = some 90 := by
  decide

/-- Claim C23. Unknown and malformed rider messages are dropped: when the
frame does not decode into an envelope, or its type is none of accept_order,
send_location and delivered, or the body does not decode into the body of its
type, `ProcessRiderMessage` returns the state it was given, so it has made no
call to a repository or to the coordination store and has sent nothing. -/
theorem malformed_rider_messages_are_dropped (env : Env) (w : World) (riderId : ObjectID)
    (message : String)
    (h : env.decodeEnvelope message = none
      ∨ ∃ messageType body, env.decodeEnvelope message = some (messageType, body)
          ∧ ((messageType ≠ "accept_order" ∧ messageType ≠ "send_location"
                ∧ messageType ≠ "delivered")
            ∨ (messageType = "accept_order" ∧ env.decodeAcceptOrderId body = none)
            ∨ (messageType = "send_location" ∧ env.decodeLocationSyncReq body = none)
            ∨ (messageType = "delivered" ∧ env.decodeAcceptOrderId body = none))) :
    ProcessRiderMessage env w riderId message = w
      ∧ callsSince w (ProcessRiderMessage env w riderId message) = [] := by
  have key : ProcessRiderMessage env w riderId message = w := by
    unfold ProcessRiderMessage
    rcases h with h | ⟨messageType, body, h, hcase⟩
    · simp [h]
    · simp only [h]
      rcases hcase with ⟨h1, h2, h3⟩ | ⟨rfl, hb⟩ | ⟨rfl, hb⟩ | ⟨rfl, hb⟩
      · simp [h1, h2, h3]
      · simp [hb]
      · simp [hb]
      · simp [hb]
  rw [key]
  exact ⟨rfl, callsSince_self w⟩

/-- Claim C23 (witness): a frame of the unknown type "cancel_order". -/
theorem malformed_rider_messages_are_dropped_witness :
    callsSince (offeredWorld "ACCEPTED")
      (ProcessRiderMessage unknownTypeEnv (offeredWorld "ACCEPTED") 7 "frame") = [] :=
  (malformed_rider_messages_are_dropped unknownTypeEnv (offeredWorld "ACCEPTED") 7 "frame"
    (Or.inr ⟨"cancel_order", "", rfl, Or.inl ⟨by decide, by decide, by decide⟩⟩)).2

/-- Claim C24 (counterexample). Two errors that do not wrap `ClientError`, a
failed update and a driver error: both are answered with status 500, and the
two bodies differ, each being the text of its error. -/
theorem server_error_text_reaches_the_body :
    (Error.joinServer (.new "update failed")).IsClientError = false
    ∧ (Error.new "connection reset").IsClientError = false
    ∧ ParseError (.joinServer (.new "update failed"))
      = { code := 500, i := "server error\nupdate failed" }
    ∧ ParseError (.new "connection reset") = { code := 500, i := "connection reset" }
    ∧ (ParseError (.joinServer (.new "update failed"))).i
      ≠ (ParseError (.new "connection reset")).i := by
  decide

/-- Claim C24 (amended). An error that does not wrap `ClientError` is answered
with status 500 and an error that wraps it with status 400; in both cases the
body is the JSON encoding of the text of the error, so two errors that do not
wrap `ClientError` get the same response exactly when their texts are the same. -/
theorem error_response_carries_error_text (err : Error) :
    (err.IsClientError = false → ParseError err = { code := 500, i := err.Error })
    ∧ (err.IsClientError = true → ParseError err = { code := 400, i := err.Error })
    ∧ (∀ other : Error, err.IsClientError = false → other.IsClientError = false →
        (ParseError err = ParseError other ↔ err.Error = other.Error)) := by
  refine ⟨fun h => by simp [ParseError, h, parseServerError],
    fun h => by simp [ParseError, h, parseClientError], fun other h1 h2 => ?_⟩
  simp [ParseError, h1, h2, parseServerError]

/-- Claim C24 (witness): a missing document is a client error, a failed update
is not. -/
theorem error_response_carries_error_text_witness :
    ParseError (.joinClient (.new "no such entry"))
        = { code := 400, i := (Error.joinClient (.new "no such entry")).Error }
    ∧ ParseError (.joinServer (.new "update failed"))
        = { code := 500, i := (Error.joinServer (.new "update failed")).Error } :=
  ⟨(error_response_carries_error_text (.joinClient (.new "no such entry"))).2.1 rfl,
    (error_response_carries_error_text (.joinServer (.new "update failed"))).1 rfl⟩

/-- Claim C25 (failing input). Customer 9 creates order 1 at time 10, the
restaurant accepts it at 20, rider 7 accepts it at 30, and the restaurant
accepts it again at 40: the clock never goes back, the second `AcceptOrder`
returns nil, and the stored order has acceptedAt 40 after deliveryStarted 30. -/
theorem reacceptance_breaks_timestamp_order :
    clockNonDecreasing (envAt 10) reacceptCalls
    ∧ (AcceptOrder (envAt 40) (lifecycle (envAt 10) customerWorld sampleCreate
        (reacceptCalls.take 2)) { Id := 1, RestaurantId := 2 }).2 = none
    ∧ (findOrder (lifecycle (envAt 10) customerWorld sampleCreate reacceptCalls).orders 1).map
        (fun o => (o.CreatedAt, o.AcceptedAt, o.DeliveryStarted, o.DeliveredAt))
      = some (10, 40, 30, 0)
    ∧ ∃ o, findOrder (lifecycle (envAt 10) customerWorld sampleCreate reacceptCalls).orders 1
        = some o ∧ ¬ timestampsOrdered o := by
  refine ⟨by decide, by decide!, by decide!, ?_⟩
  refine ⟨_, show findOrder (lifecycle (envAt 10) customerWorld sampleCreate
    reacceptCalls).orders 1 = some
      (((findOrder (lifecycle (envAt 10) customerWorld sampleCreate reacceptCalls).orders 1)).getD
        (sampleOrder 1 "")) from by decide!, by decide!⟩

/-- Claim C26 (failing input). Customer 9 creates order 1, the restaurant
accepts it, rider 7 accepts it, and the restaurant accepts it again: the
second `AcceptOrder` returns nil and the stored order has the status ACCEPTED
with rider 7 as RiderId. After the creation and after the first acceptance the
order has no rider. -/
theorem reacceptance_keeps_rider_on_accepted_order :
    (findOrder (lifecycle (envAt 10) customerWorld sampleCreate []).orders 1).map
        (fun o => (o.Status, o.RiderId)) = some ("CREATED", 0)
    ∧ (findOrder (lifecycle (envAt 10) customerWorld sampleCreate
        (reacceptCalls.take 1)).orders 1).map
        (fun o => (o.Status, o.RiderId)) = some ("ACCEPTED", 0)
    ∧ (findOrder (lifecycle (envAt 10) customerWorld sampleCreate
        (reacceptCalls.take 2)).orders 1).map
        (fun o => (o.Status, o.RiderId)) = some ("RIDER_ASSIGNED", 7)
    ∧ (AcceptOrder (envAt 40) (lifecycle (envAt 10) customerWorld sampleCreate
        (reacceptCalls.take 2)) { Id := 1, RestaurantId := 2 }).2 = none
    ∧ (findOrder (lifecycle (envAt 10) customerWorld sampleCreate reacceptCalls).orders 1).map
        (fun o => (o.Status, o.RiderId)) = some ("ACCEPTED", 7)
    ∧ ∃ o, findOrder (lifecycle (envAt 10) customerWorld sampleCreate reacceptCalls).orders 1
        = some o ∧ ¬ riderReferenceEmpty o := by
  refine ⟨by decide!, by decide!, by decide!, by decide!, by decide!, ?_⟩
  refine ⟨_, show findOrder (lifecycle (envAt 10) customerWorld sampleCreate
    reacceptCalls).orders 1 = some
      (((findOrder (lifecycle (envAt 10) customerWorld sampleCreate reacceptCalls).orders 1)).getD
        (sampleOrder 1 "")) from by decide!, by decide!⟩

/-- Claim C27. The in-memory user repository: `CreateUser` returns no error and
the user under the generated id, and `GetUser` of that id returns exactly this
user; `DeleteUser` of that id succeeds; whenever `DeleteUser` of an id succeeds,
`GetUser` of the id returns the not-found error afterwards; `DeleteUser` and
`UpdateUser` of an id that is not stored return the not-found error and leave
the repository as it was. -/
theorem in_memory_repository_contract (r : InMemoryUserRepository) (newObjectID : ObjectID)
    (user : User) (id : ObjectID) (other : User) :
    (r.CreateUser newObjectID user).2.2 = none
    ∧ (r.CreateUser newObjectID user).2.1 = { user with Id := newObjectID }
    ∧ (r.CreateUser newObjectID user).1.GetUser (r.CreateUser newObjectID user).2.1.Id
        = .ok (r.CreateUser newObjectID user).2.1
    ∧ ((r.CreateUser newObjectID user).1.DeleteUser (r.CreateUser newObjectID user).2.1.Id).2
        = none
    ∧ ((r.CreateUser newObjectID user).1.DeleteUser
          (r.CreateUser newObjectID user).2.1.Id).1.GetUser
        (r.CreateUser newObjectID user).2.1.Id = .error notFoundErr
    ∧ ((r.DeleteUser id).2 = none → (r.DeleteUser id).1.GetUser id = .error notFoundErr)
    ∧ (r.users.lookup id = none → r.DeleteUser id = (r, some notFoundErr))
    ∧ (r.users.lookup other.Id = none → r.UpdateUser other = (r, some notFoundErr)) := by
  have hdel : ∀ (q : InMemoryUserRepository) (k : ObjectID), (q.DeleteUser k).2 = none →
      (q.DeleteUser k).1.GetUser k = .error notFoundErr := by
    intro q k h
    unfold InMemoryUserRepository.DeleteUser at h ⊢
    cases hl : q.users.lookup k with
    | none => simp [hl] at h
    | some u => simp [InMemoryUserRepository.GetUser, lookup_filter_self]
  have hcre : ((r.CreateUser newObjectID user).1.DeleteUser
      (r.CreateUser newObjectID user).2.1.Id).2 = none := by
    simp [InMemoryUserRepository.CreateUser, InMemoryUserRepository.DeleteUser, List.lookup_cons]
  refine ⟨rfl, rfl, ?_, hcre, hdel _ _ hcre, hdel r id, ?_, ?_⟩
  · simp [InMemoryUserRepository.CreateUser, InMemoryUserRepository.GetUser, List.lookup_cons]
  · intro h
    simp [InMemoryUserRepository.DeleteUser, h]
  · intro h
    simp [InMemoryUserRepository.UpdateUser, h]

/-- Claim C27 (witness): user 9 is created in the empty repository and
deleted; an update of user 9 in the empty repository is refused. -/
theorem in_memory_repository_contract_witness :
    ((({ users := [] } : InMemoryUserRepository).CreateUser 9 sampleUser).1.DeleteUser 9).1.GetUser
        9 = .error notFoundErr
    ∧ ({ users := [] } : InMemoryUserRepository).UpdateUser sampleUser
        = ({ users := [] }, some notFoundErr) :=
  ⟨(in_memory_repository_contract
      (({ users := [] } : InMemoryUserRepository).CreateUser 9 sampleUser).1 1 sampleUser 9
      sampleUser).2.2.2.2.2.1 (by decide),
    (in_memory_repository_contract { users := [] } 1 sampleUser 9 sampleUser).2.2.2.2.2.2.2 rfl⟩

/-- Claim C28 (counterexample). Order 1 is offered to the riders 7 and 8 at the
time 1000 and rider 7 wins it three hours later. Offer and acceptance use the
same key, but the expiry of 30 minutes that the offer set has ended: the
members read back are none, and "Already picked order" goes to nobody. -/
theorem candidates_are_gone_after_the_expiry :
    orderBroadcasts (callsSince (sampleWorld "CREATED")
        (AcceptOrder searchEnv (sampleWorld "CREATED") { Id := 1, RestaurantId := 2 }).1)
        "New order for pickup" = [[7, 8]]
    ∧ setKeys (callsSince (sampleWorld "CREATED")
        (AcceptOrder searchEnv (sampleWorld "CREATED") { Id := 1, RestaurantId := 2 }).1)
      = ["rider_broadcasted:000000000000000000000001",
         "rider_broadcasted:000000000000000000000001",
         "rider_broadcasted:000000000000000000000001"]
    ∧ (searchEnv.now, (envAt (1000 + 180 * Minute)).now) = (1000, 1000 + 180 * Minute)
    ∧ sentCount (callsSince
        (AcceptOrder searchEnv (sampleWorld "CREATED") { Id := 1, RestaurantId := 2 }).1
        (handleOrderAcceptance (envAt (1000 + 180 * Minute))
          (AcceptOrder searchEnv (sampleWorld "CREATED") { Id := 1, RestaurantId := 2 }).1
          7 sampleAccept)) "Order accepted" 7 = 1
    ∧ setKeys (callsSince
        (AcceptOrder searchEnv (sampleWorld "CREATED") { Id := 1, RestaurantId := 2 }).1
        (handleOrderAcceptance (envAt (1000 + 180 * Minute))
          (AcceptOrder searchEnv (sampleWorld "CREATED") { Id := 1, RestaurantId := 2 }).1
          7 sampleAccept))
      = ["rider_broadcasted:000000000000000000000001"]
    ∧ orderBroadcasts (callsSince
        (AcceptOrder searchEnv (sampleWorld "CREATED") { Id := 1, RestaurantId := 2 }).1
        (handleOrderAcceptance (envAt (1000 + 180 * Minute))
          (AcceptOrder searchEnv (sampleWorld "CREATED") { Id := 1, RestaurantId := 2 }).1
          7 sampleAccept))
        "Already picked order" = [[]] := by
  decide

/-- Claim C28 (amended). Candidate-set key consistency: every set command of
`AcceptOrder` is on the key "rider_broadcasted:" followed by the hex form of the
id of the order, and so is every set command of `handleOrderAcceptance`,
whichever rider asks. Hence, for an order whose candidate key did not exist
before a successful offer: when a rider wins the order less than 30 minutes
after the offer and the set is read, the riders the "Already picked order"
message goes to are exactly the riders the offer went to; and when the expiry
was set and the rider wins 30 minutes after the offer or later, no member is
read back and the message goes to nobody. -/
theorem candidate_set_key_is_the_order_id (env : Env) (w : World)
    (oa : AcceptPendingRestaurantOrder) (env2 : Env) (riderId : ObjectID)
    (acceptReq : AcceptOrderId) :
    (∀ key ∈ setKeys (callsSince w (AcceptOrder env w oa).1),
        key = "rider_broadcasted:" ++ oa.Id.Hex)
    ∧ (∀ (w1 : World) (rider : ObjectID),
        ∀ key ∈ setKeys (callsSince w1 (handleOrderAcceptance env2 w1 rider acceptReq)),
          key = "rider_broadcasted:" ++ acceptReq.OrderId.Hex)
    ∧ ((AcceptOrder env w oa).2 = none →
        acceptReq.OrderId = oa.Id →
        w.sets.lookup ("rider_broadcasted:" ++ oa.Id.Hex) = none →
        w.expiry.lookup ("rider_broadcasted:" ++ oa.Id.Hex) = none →
        (∀ q, ∀ rider ∈ (env.searchRider q).1, rider.Id < 2 ^ 96) →
        0 < sentCount (callsSince (AcceptOrder env w oa).1
          (handleOrderAcceptance env2 (AcceptOrder env w oa).1 riderId acceptReq))
          "Order accepted" riderId →
        env2.sMembersErr = none →
        env2.now < env.now + 30 * Minute →
        ∃ offered picked,
          orderBroadcasts (callsSince w (AcceptOrder env w oa).1) "New order for pickup"
            = [offered]
          ∧ orderBroadcasts (callsSince (AcceptOrder env w oa).1
              (handleOrderAcceptance env2 (AcceptOrder env w oa).1 riderId acceptReq))
              "Already picked order" = [picked]
          ∧ ∀ x, x ∈ picked ↔ x ∈ offered)
    ∧ ((AcceptOrder env w oa).2 = none →
        acceptReq.OrderId = oa.Id →
        w.sets.lookup ("rider_broadcasted:" ++ oa.Id.Hex) = none →
        w.expiry.lookup ("rider_broadcasted:" ++ oa.Id.Hex) = none →
        0 < sentCount (callsSince (AcceptOrder env w oa).1
          (handleOrderAcceptance env2 (AcceptOrder env w oa).1 riderId acceptReq))
          "Order accepted" riderId →
        env2.sMembersErr = none →
        env.expireErr = none →
        env.now + 30 * Minute ≤ env2.now →
        orderBroadcasts (callsSince (AcceptOrder env w oa).1
            (handleOrderAcceptance env2 (AcceptOrder env w oa).1 riderId acceptReq))
            "Already picked order" = [[]]) := by
  have hpicked : ∀ order : Order, acceptReq.OrderId ≠ 0 →
      (OrderMongo.GetOrder env2 (AcceptOrder env w oa).1 acceptReq.OrderId).2 = .ok order →
      order.Status ≠ "RIDER_ASSIGNED" → env2.redisConnNil = false →
      (Redis.Incr env2 (OrderMongo.GetOrder env2 (AcceptOrder env w oa).1 acceptReq.OrderId).1
        ("order_status:" ++ acceptReq.OrderId.Hex)).2 = .ok 1 →
      env2.sMembersErr = none →
      orderBroadcasts (callsSince (AcceptOrder env w oa).1
          (handleOrderAcceptance env2 (AcceptOrder env w oa).1 riderId acceptReq))
          "Already picked order" =
        [((AcceptOrder env w oa).1.members env2.now
          ("rider_broadcasted:" ++ acceptReq.OrderId.Hex)).filterMap ObjectIDFromHex] := by
    intro order hid hfetch hstatus hconn hincr hread
    rw [(handleOrderAcceptance_won_calls hid hfetch hstatus hconn hincr).1]
    cases updateError env2 (AcceptOrder env w oa).1.orders
        (assignRider env2 order riderId acceptReq) <;>
      simp [orderBroadcasts_cons, orderBroadcasts_append, orderBroadcasts_writesTo,
        orderBroadcasts_candidateCalls, asOrderBroadcast, orderBroadcasts_nil, hread]
  refine ⟨setKeys_AcceptOrder env w oa,
    fun w1 rider => setKeys_handleOrderAcceptance env2 w1 rider acceptReq, ?_, ?_⟩
  · intro hok hreq hs0 he0 hbound hack hread hwithin
    obtain ⟨q, hoffer, hset, hexp⟩ := AcceptOrder_offer hok hs0 he0
    obtain ⟨order, hid, hfetch, hstatus, hconn, hincr⟩ :=
      ack_only_when_won env2 (AcceptOrder env w oa).1 riderId acceptReq hack
    have hlive : (AcceptOrder env w oa).1.members env2.now ("rider_broadcasted:" ++ oa.Id.Hex)
        = ((AcceptOrder env w oa).1.sets.lookup ("rider_broadcasted:" ++ oa.Id.Hex)).getD [] := by
      have hnot : ¬ env.now + 30 * Minute ≤ env2.now := not_le.mpr hwithin
      unfold World.members World.expired
      rw [hexp]
      by_cases hc : env.expireErr = none
          ∧ (AcceptOrder env w oa).1.sets.lookup ("rider_broadcasted:" ++ oa.Id.Hex) ≠ none
      · rw [if_pos hc]
        simp [hnot]
      · rw [if_neg hc]
        simp
    refine ⟨_, _, hoffer, hpicked order hid hfetch hstatus hconn hincr hread, ?_⟩
    intro x
    rw [hreq, hlive, List.mem_filterMap]
    constructor
    · rintro ⟨m, hm, hx⟩
      obtain ⟨id, hmem, rfl⟩ := (hset m).mp hm
      obtain ⟨rider, hr, rfl⟩ := List.mem_map.mp hmem
      rw [ObjectIDFromHex_Hex _ (hbound q rider hr)] at hx
      rw [← Option.some.inj hx]
      exact hmem
    · intro hx
      obtain ⟨rider, hr, rfl⟩ := List.mem_map.mp hx
      exact ⟨rider.Id.Hex, (hset _).mpr ⟨rider.Id, hx, rfl⟩,
        ObjectIDFromHex_Hex _ (hbound q rider hr)⟩
  · intro hok hreq hs0 he0 hack hread hexpire hafter
    obtain ⟨q, -, -, hexp⟩ := AcceptOrder_offer hok hs0 he0
    obtain ⟨order, hid, hfetch, hstatus, hconn, hincr⟩ :=
      ack_only_when_won env2 (AcceptOrder env w oa).1 riderId acceptReq hack
    have hgone : (AcceptOrder env w oa).1.members env2.now ("rider_broadcasted:" ++ oa.Id.Hex)
        = [] := by
      unfold World.members World.expired
      rw [hexp]
      cases hsl : (AcceptOrder env w oa).1.sets.lookup ("rider_broadcasted:" ++ oa.Id.Hex) with
      | none => simp
      | some v => simp [hexpire, hafter]
    rw [hpicked order hid hfetch hstatus hconn hincr hread, hreq, hgone]
    rfl

/-- Claim C28 (witness): order 1 is offered to the riders 7 and 8, rider 7
wins it at once, and the "Already picked order" message goes to 7 and 8. -/
theorem candidate_set_key_is_the_order_id_witness :
    ∃ offered picked,
      orderBroadcasts (callsSince (sampleWorld "CREATED")
          (AcceptOrder searchEnv (sampleWorld "CREATED") { Id := 1, RestaurantId := 2 }).1)
          "New order for pickup" = [offered]
      ∧ orderBroadcasts (callsSince
          (AcceptOrder searchEnv (sampleWorld "CREATED") { Id := 1, RestaurantId := 2 }).1
          (handleOrderAcceptance calmEnv
            (AcceptOrder searchEnv (sampleWorld "CREATED") { Id := 1, RestaurantId := 2 }).1
            7 sampleAccept))
          "Already picked order" = [picked]
      ∧ ∀ x, x ∈ picked ↔ x ∈ offered :=
  (candidate_set_key_is_the_order_id searchEnv (sampleWorld "CREATED")
    { Id := 1, RestaurantId := 2 } calmEnv 7 sampleAccept).2.2.1 (by decide) rfl (by decide)
    (by decide)
    (by
      intro q rider h
      simp only [searchEnv, List.mem_cons, List.mem_singleton, List.not_mem_nil, or_false] at h
      rcases h with rfl | rfl <;> decide)
    (by decide) rfl (by decide)

/-- Claim C29 (failing inputs). The rider search fails: `AcceptOrder` has sent
the search, persisted the order as ACCEPTED, and returns nil. `EXPIRE` fails:
`AcceptOrder` returns nil and the candidate set of order 1 has no expiry. A
failure of the order fetch, of the restaurant fetch, of the order update or of
an `SADD` is returned. -/
theorem rider_search_error_is_dropped :
    (SearchRider searchFailsEnv (sampleWorld "CREATED") (riderQuery sampleRestaurant)).2.2
      = some (.new "connection reset")
    ∧ riderSearches (callsSince (sampleWorld "CREATED")
        (AcceptOrder searchFailsEnv (sampleWorld "CREATED") { Id := 1, RestaurantId := 2 }).1)
      = [riderQuery sampleRestaurant]
    ∧ (AcceptOrder searchFailsEnv (sampleWorld "CREATED") { Id := 1, RestaurantId := 2 }).2 = none
    ∧ (findOrder
        (AcceptOrder searchFailsEnv (sampleWorld "CREATED") { Id := 1, RestaurantId := 2 }).1.orders
        1).map Order.Status = some "ACCEPTED"
    ∧ (Redis.Expire expireFailsEnv (sampleWorld "CREATED")
        "rider_broadcasted:000000000000000000000001" (30 * Minute)).2
      = some (.new "connection reset")
    ∧ (AcceptOrder expireFailsEnv (sampleWorld "CREATED") { Id := 1, RestaurantId := 2 }).2 = none
    ∧ (AcceptOrder expireFailsEnv (sampleWorld "CREATED")
        { Id := 1, RestaurantId := 2 }).1.sets.lookup
        "rider_broadcasted:000000000000000000000001"
      = some ["000000000000000000000007", "000000000000000000000008"]
    ∧ (AcceptOrder expireFailsEnv (sampleWorld "CREATED")
        { Id := 1, RestaurantId := 2 }).1.expiry.lookup
        "rider_broadcasted:000000000000000000000001" = none
    ∧ (AcceptOrder { calmEnv with findOrderErr := some (.new "connection reset") }
        (sampleWorld "CREATED") { Id := 1, RestaurantId := 2 }).2
      = some (.joinServer (.new "connection reset"))
    ∧ (AcceptOrder { calmEnv with findRestaurantErr := some (.new "connection reset") }
        (sampleWorld "CREATED") { Id := 1, RestaurantId := 2 }).2
      = some (.joinServer (.new "connection reset"))
    ∧ (AcceptOrder updateFailsEnv (sampleWorld "CREATED") { Id := 1, RestaurantId := 2 }).2
      = some (.new "connection reset")
    ∧ (AcceptOrder sAddFailsEnv (sampleWorld "CREATED") { Id := 1, RestaurantId := 2 }).2
      = some (.new "connection reset") := by
  decide

/-- Claim C30 (failing input). Customer 9 lives at latitude 13, longitude 78;
restaurant 2 is at latitude 12, longitude 77. `CreateOrder` succeeds, and the
order it stores and returns has the status CREATED, no rider, the coordinates
and the address of the customer as delivery place, the address of the restaurant
as pickup address, and the coordinates of the customer as pickup coordinates.
With restaurant 2 not ACTIVE the answer is a client error and no order is
stored. -/
theorem pickup_coordinates_are_the_customers :
    (sampleCustomer.Location.GetLatitude, sampleCustomer.Location.GetLongitude) = (13, 78)
    ∧ (sampleRestaurant.Location.GetLatitude, sampleRestaurant.Location.GetLongitude) = (12, 77)
    ∧ (CreateOrder (envAt 10) customerWorld sampleCreate).2.toOption
      = findOrder (CreateOrder (envAt 10) customerWorld sampleCreate).1.orders 1
    ∧ ((CreateOrder (envAt 10) customerWorld sampleCreate).2.toOption).map
        (fun o => (o.Status, o.RiderId, o.DeliveryLatitude, o.DeliveryLongitude,
          o.DeliveryAddress, o.PickupAddress))
      = some ("CREATED", 0, 13, 78, "home", "a")
    ∧ ((CreateOrder (envAt 10) customerWorld sampleCreate).2.toOption).map
        (fun o => (o.PickupLatitude, o.PickupLongitude)) = some (13, 78)
    ∧ (CreateOrder (envAt 10) closedWorld sampleCreate).2
      = .error (.joinClient (.new "restaurant not serving"))
    ∧ (CreateOrder (envAt 10) closedWorld sampleCreate).1.orders = [] := by
  refine ⟨by decide, by decide, by decide, by decide, by decide, rfl, by decide⟩

end FoodEats
